import Mathlib

/-!
Verification of the storage engine core of the rust-sql repository
(crates/storage): slotted table pages, disk manager, LRU replacer,
buffer pool manager, table heap and tuple iteration.

The Rust sources are shallowly embedded: fixed-size byte buffers become
total functions from offsets to bytes (writes mask to 8 bits), machine
integers become Nat with explicit masking where it matters, fallible and
panicking code returns an Except value (panics are modelled by the
Error.Panic constructor), and every stateful operation returns a result
paired with the updated state.
-/

set_option linter.unusedVariables false
set_option maxRecDepth 2000

namespace RustSqlSpec

/-! ## Byte buffers -/

/-- A byte buffer is a total function from offsets to stored values.
Reads interpret the stored value as a byte by masking with 256. -/
abbrev Bytes := Nat → Nat

/-- Read the byte stored at offset `i`. -/
def byteAt (d : Bytes) (i : Nat) : Nat := d i % 256

/-- Write one byte (masked to 8 bits, as the store is an u8 array). -/
def writeByte (d : Bytes) (o v : Nat) : Bytes :=
  fun i => if i = o then v % 256 else d i

/-- Copy a list of bytes into the buffer starting at offset `o`
(the copy_from_slice idiom of the source). -/
def writeBytes (d : Bytes) (o : Nat) : List Nat → Bytes
  | [] => d
  | b :: bs => writeBytes (writeByte d o b) (o + 1) bs

/-- Read `n` bytes starting at offset `o` (the to_vec idiom). -/
def readBytes (d : Bytes) (o : Nat) : Nat → List Nat
  | 0 => []
  | n + 1 => byteAt d o :: readBytes d (o + 1) n

/-- Little-endian value of a byte list. -/
def leVal : List Nat → Nat
  | [] => 0
  | b :: bs => b + 256 * leVal bs

/-- Little-endian byte list of width `n` for the value `v`, matching the
bit-for-bit layout bytemuck produces for unsigned integers on x86. -/
def leBytes : Nat → Nat → List Nat
  | _, 0 => []
  | v, n + 1 => v % 256 :: leBytes (v / 256) n

/-- Read an u16 field stored little-endian at offset `o`. -/
def readU16 (d : Bytes) (o : Nat) : Nat := leVal (readBytes d o 2)

/-- Read an u64 field stored little-endian at offset `o`. -/
def readU64 (d : Bytes) (o : Nat) : Nat := leVal (readBytes d o 8)

/-- Write an u16 field little-endian at offset `o`. -/
def writeU16 (d : Bytes) (o v : Nat) : Bytes := writeBytes d o (leBytes v 2)

/-- Write an u64 field little-endian at offset `o`. -/
def writeU64 (d : Bytes) (o v : Nat) : Bytes := writeBytes d o (leBytes v 8)

/-! ## Constants of the storage crate -/

def PAGE_SIZE : Nat := 4096

def U64_MAX : Nat := 2 ^ 64 - 1

/-- INVALID_PAGE_ID = PageId::MAX. -/
def INVALID_PAGE_ID : Nat := U64_MAX

/-- size_of TablePageHeader: next_page_id u64, tuple_cnt u16,
deleted_tuple_cnt u16, 4 bytes padding. -/
def TABLE_PAGE_HEADER_SIZE : Nat := 16

/-- size_of TupleInfo: offset u16, size_bytes u16, metadata 2 bytes. -/
def TUPLE_INFO_SIZE : Nat := 6

def U16_MAX : Nat := 65535

/-! ## Error taxonomy

The rustdb_error kinds surfaced by the storage crate, plus a `Panic`
constructor modelling Rust panics (assert failures, expect and unwrap on
errors, arithmetic overflow aborts in debug builds). -/

inductive Error where
  | IOError (details : String)
  | InvalidInput (details : String)
  | OutOfBounds
  | ArithmeticOverflow
  | BufferPoolFull
  | Panic (details : String)
deriving DecidableEq, Repr

/-! ## RecordId -/

structure RecordId where
  page_id : Nat
  slot_id : Nat
deriving DecidableEq, Repr

def RecordId.to_string (rid : RecordId) : String :=
  toString rid.page_id ++ ":" ++ toString rid.slot_id

/-! ## Tuple metadata and slot entries -/

/-- TupleMetadata: is_deleted u8 plus one padding byte. -/
structure TupleMetadata where
  is_deleted : Nat
  padding : Nat
deriving DecidableEq, Repr

def TupleMetadata.new (b : Bool) : TupleMetadata :=
  { is_deleted := if b then 1 else 0, padding := 0 }

def TupleMetadata.isDeleted (m : TupleMetadata) : Bool :=
  m.is_deleted != 0

def TupleMetadata.set_deleted (m : TupleMetadata) (b : Bool) : TupleMetadata :=
  { m with is_deleted := if b then 1 else 0 }

/-- TupleInfo: one entry of the slot array. -/
structure TupleInfo where
  offset : Nat
  size_bytes : Nat
  metadata : TupleMetadata
deriving DecidableEq, Repr

/-! ## Table page

A table page is a typed view over a frame byte buffer, carrying the
page id of the underlying frame. All accessors decode the same byte
layout bytemuck uses in the source. -/

structure TablePage where
  page_id : Nat
  data : Bytes

/-- Byte position of slot `i` in the slot array. -/
def slotPos (i : Nat) : Nat := TABLE_PAGE_HEADER_SIZE + i * TUPLE_INFO_SIZE

def TablePage.nextPageId (p : TablePage) : Nat := readU64 p.data 0

def TablePage.tupleCount (p : TablePage) : Nat := readU16 p.data 8

def TablePage.deletedTupleCount (p : TablePage) : Nat := readU16 p.data 10

/-- Decode slot `i` of the slot array. -/
def TablePage.slot (p : TablePage) (i : Nat) : TupleInfo :=
  { offset := readU16 p.data (slotPos i)
    size_bytes := readU16 p.data (slotPos i + 2)
    metadata :=
      { is_deleted := byteAt p.data (slotPos i + 4)
        padding := byteAt p.data (slotPos i + 5) } }

/-- validate_record_id of the source. -/
def TablePage.validate_record_id (p : TablePage) (rid : RecordId) : Except Error Unit :=
  if rid.page_id ≠ p.page_id ∨ rid.slot_id ≥ p.tupleCount then
    .error (.InvalidInput rid.to_string)
  else
    .ok ()

/-- slot_array slices the byte range holding tuple_cnt entries; the slice
panics when that range runs past the page end. -/
def TablePage.slotArrayInBounds (p : TablePage) : Prop :=
  slotPos p.tupleCount ≤ PAGE_SIZE

instance (p : TablePage) : Decidable p.slotArrayInBounds := by
  unfold TablePage.slotArrayInBounds; infer_instance

/-- get_tuple: validate the record id, then copy the byte range the slot
describes. The deleted flag is not consulted (the check is commented out
in the source). -/
def TablePage.get_tuple (p : TablePage) (rid : RecordId) :
    Except Error (TupleMetadata × List Nat) :=
  match p.validate_record_id rid with
  | .error e => .error e
  | .ok _ =>
    if h : ¬ p.slotArrayInBounds then
      .error (.Panic "range end index out of range for slice")
    else
      let info := p.slot rid.slot_id
      if info.offset + info.size_bytes > PAGE_SIZE then
        .error .OutOfBounds
      else
        .ok (info.metadata, readBytes p.data info.offset info.size_bytes)

/-- get_next_tuple_offset: free-space computation for an insert.
The subtraction is usize arithmetic and aborts on underflow; the
tuple_cnt + 1 addition is u16 arithmetic and aborts at U16_MAX. -/
def TablePage.get_next_tuple_offset (p : TablePage) (tupleLen : Nat) :
    Except Error Nat :=
  if p.tupleCount ≠ 0 ∧ slotPos p.tupleCount > PAGE_SIZE then
    .error (.Panic "range end index out of range for slice")
  else
    let slot_end_offset :=
      if p.tupleCount = 0 then PAGE_SIZE else (p.slot (p.tupleCount - 1)).offset
    if tupleLen > slot_end_offset then
      .error (.Panic "attempt to subtract with overflow")
    else if p.tupleCount = U16_MAX then
      .error (.Panic "attempt to add with overflow")
    else
      let tuple_offset := slot_end_offset - tupleLen
      if TABLE_PAGE_HEADER_SIZE + TUPLE_INFO_SIZE * (p.tupleCount + 1) > tuple_offset then
        .error .OutOfBounds
      else
        .ok tuple_offset

/-- Byte image of a TupleInfo record, as bytemuck bytes_of produces it. -/
def tupleInfoBytes (off size del pad : Nat) : List Nat :=
  leBytes off 2 ++ leBytes size 2 ++ [del, pad]

/-- insert_tuple: find the offset, copy the tuple bytes, append a slot,
increment tuple_cnt, and return the record id of the new slot. -/
def TablePage.insert_tuple (p : TablePage) (meta : TupleMetadata) (t : List Nat) :
    Except Error (RecordId × TablePage) :=
  match p.get_next_tuple_offset t.length with
  | .error e => .error e
  | .ok tuple_offset =>
    if tuple_offset + t.length > PAGE_SIZE then
      .error .OutOfBounds
    else
      let tuple_count := p.tupleCount
      let d1 := writeBytes p.data tuple_offset t
      let d2 := writeBytes d1 (slotPos tuple_count)
        (tupleInfoBytes tuple_offset t.length meta.is_deleted meta.padding)
      let d3 := writeU16 d2 8 (tuple_count + 1)
      .ok ({ page_id := p.page_id, slot_id := tuple_count },
           { page_id := p.page_id, data := d3 })

/-- init_header: write a fresh 16-byte header (tuple_cnt = 0,
deleted_tuple_cnt = 0, zero padding). -/
def TablePage.init_header (p : TablePage) (next_page_id : Nat) : TablePage :=
  { page_id := p.page_id
    data := writeBytes p.data 0 (leBytes next_page_id 8 ++ [0, 0, 0, 0, 0, 0, 0, 0]) }

/-- set_next_page_id: overwrite the u64 header field. -/
def TablePage.set_next_page_id (p : TablePage) (next_page_id : Nat) : TablePage :=
  { page_id := p.page_id, data := writeU64 p.data 0 next_page_id }

/-- update_tuple_metadata: validate, then overwrite the 2 metadata bytes
of the slot. -/
def TablePage.update_tuple_metadata (p : TablePage) (rid : RecordId)
    (meta : TupleMetadata) : Except Error TablePage :=
  match p.validate_record_id rid with
  | .error e => .error e
  | .ok _ =>
    if h : ¬ p.slotArrayInBounds then
      .error (.Panic "range end index out of range for slice")
    else
      .ok { page_id := p.page_id
            data := writeBytes p.data (slotPos rid.slot_id + 4)
              [meta.is_deleted, meta.padding] }

/-! ## Page frames -/

/-- PageFrame: a buffer-pool frame. pin_cnt is u16 in the source; its
debug-build overflow abort at 65535 pins is not modelled. -/
structure PageFrame where
  page_id : Nat
  is_dirty : Bool
  pin_cnt : Nat
  data : Bytes

def PageFrame.new : PageFrame :=
  { page_id := INVALID_PAGE_ID, is_dirty := false, pin_cnt := 0, data := fun _ => 0 }

/-- reset: invalid page id, clean, unpinned, zero-filled data. -/
def PageFrame.reset (f : PageFrame) : PageFrame := PageFrame.new

/-- View a frame as a table page, as TablePage::from(handle) does. -/
def pageOfFrame (f : PageFrame) : TablePage :=
  { page_id := f.page_id, data := f.data }

/-! ## Disk manager

The single backing file is a byte function together with its current
length: read_exact fails with an IO error past the end of the file, and
writes extend the file. -/

structure DiskManager where
  last_allocated_pid : Nat
  file : Bytes
  file_len : Nat

/-- DiskManager::new: truncate the file and zero page 0. -/
def DiskManager.new : DiskManager :=
  { last_allocated_pid := 0, file := fun _ => 0, file_len := PAGE_SIZE }

/-- calculate_offset: checked u64 multiplication by PAGE_SIZE. -/
def DiskManager.calculate_offset (page_id : Nat) : Except Error Nat :=
  if page_id * PAGE_SIZE ≤ U64_MAX then .ok (page_id * PAGE_SIZE)
  else .error .ArithmeticOverflow

def DiskManager.write (dm : DiskManager) (page_id : Nat) (data : List Nat) :
    Except Error DiskManager :=
  if data.length > PAGE_SIZE then
    .error (.InvalidInput "Page data must fit in a page.")
  else
    match DiskManager.calculate_offset page_id with
    | .error e => .error e
    | .ok off =>
      .ok { dm with file := writeBytes dm.file off data
                    file_len := max dm.file_len (off + data.length) }

/-- read: peek the first byte; a tombstone (byte value 1) reads as None,
otherwise the full page is returned. -/
def DiskManager.read (dm : DiskManager) (page_id : Nat) :
    Except Error (Option (List Nat)) :=
  match DiskManager.calculate_offset page_id with
  | .error e => .error e
  | .ok off =>
    if off + 1 > dm.file_len then .error (.IOError "failed to fill whole buffer")
    else if byteAt dm.file off = 1 then .ok none
    else if off + PAGE_SIZE > dm.file_len then
      .error (.IOError "failed to fill whole buffer")
    else .ok (some (readBytes dm.file off PAGE_SIZE))

/-- deallocate_page: write the one-byte tombstone at the page offset. -/
def DiskManager.deallocate_page (dm : DiskManager) (page_id : Nat) :
    Except Error DiskManager :=
  match DiskManager.calculate_offset page_id with
  | .error e => .error e
  | .ok off =>
    .ok { dm with file := writeBytes dm.file off [1]
                  file_len := max dm.file_len (off + 1) }

/-- allocate_page: increment last_allocated_pid (u64; the debug abort at
U64_MAX is the Panic branch), zero-fill the page, return the id. The
counter stays incremented when the zero-fill write fails. -/
def DiskManager.allocate_page (dm : DiskManager) : Except Error Nat × DiskManager :=
  if dm.last_allocated_pid = U64_MAX then
    (.error (.Panic "attempt to add with overflow"), dm)
  else
    let page_id := dm.last_allocated_pid + 1
    let dm1 := { dm with last_allocated_pid := page_id }
    match dm1.write page_id (List.replicate PAGE_SIZE 0) with
    | .error e => (.error e, dm1)
    | .ok dm2 => (.ok page_id, dm2)

/-! ## Association lists

Model of std HashMap as used by the page table and the replacer node
store: entries kept in insertion order, keys unique. -/

def alookup {α : Type} : List (Nat × α) → Nat → Option α
  | [], _ => none
  | (k, v) :: rest, key => if k = key then some v else alookup rest key

def aerase {α : Type} : List (Nat × α) → Nat → List (Nat × α)
  | [], _ => []
  | (k, v) :: rest, key => if k = key then rest else (k, v) :: aerase rest key

def ainsert {α : Type} : List (Nat × α) → Nat → α → List (Nat × α)
  | [], key, v => [(key, v)]
  | (k, w) :: rest, key, v =>
    if k = key then (k, v) :: rest else (k, w) :: ainsert rest key v

def amodify {α : Type} (l : List (Nat × α)) (key : Nat) (f : α → α) :
    List (Nat × α) :=
  l.map (fun kv => if kv.1 = key then (kv.1, f kv.2) else kv)

def tableKeys {α : Type} (l : List (Nat × α)) : List Nat := l.map Prod.fst

def tableVals (l : List (Nat × Nat)) : List Nat := l.map Prod.snd

/-! ## LRU replacer -/

structure LruNode where
  frame_id : Nat
  is_evictable : Bool
  last_accessed_timestamp : Nat
deriving DecidableEq, Repr

structure LruReplacer where
  node_store : List (Nat × LruNode)
  evictable_count : Nat
  current_timestamp : Nat
deriving DecidableEq, Repr

def LruReplacer.new : LruReplacer :=
  { node_store := [], evictable_count := 0, current_timestamp := 0 }

/-- record_access: take a fresh timestamp and stamp the node with it; a
frame not yet tracked gets a new evictable node, whose constructor calls
the timestamp helper a second time, so a new node consumes two ticks and
stores the second. The u64 counter overflow abort is not modelled. -/
def LruReplacer.record_access (r : LruReplacer) (frame_id : Nat) : LruReplacer :=
  let new_timestamp := r.current_timestamp
  let r1 := { r with current_timestamp := r.current_timestamp + 1 }
  match alookup r1.node_store frame_id with
  | some _ =>
    let upd := fun n => { n with last_accessed_timestamp := new_timestamp }
    { r1 with node_store := amodify r1.node_store frame_id upd }
  | none =>
    let node_timestamp := r1.current_timestamp
    let r2 := { r1 with current_timestamp := r1.current_timestamp + 1 }
    { r2 with
      node_store := r2.node_store ++
        [(frame_id, { frame_id := frame_id, is_evictable := true
                      last_accessed_timestamp := node_timestamp })]
      evictable_count := r2.evictable_count + 1 }

/-- min_by_key over the evictable nodes. HashMap iteration order is
unspecified in the source; in reachable states all timestamps are
distinct, so the minimum is unique and the order is immaterial. -/
def minByTimestamp : List (Nat × LruNode) → Option LruNode
  | [] => none
  | (_, n) :: rest =>
    match minByTimestamp rest with
    | none => some n
    | some m =>
      if n.last_accessed_timestamp ≤ m.last_accessed_timestamp then some n else some m

def LruReplacer.evictCandidate (r : LruReplacer) : Option Nat :=
  (minByTimestamp (r.node_store.filter (fun kv => kv.2.is_evictable))).map
    (fun n => n.frame_id)

/-- evict: remove the least recently used evictable frame and decrement
the evictable count. -/
def LruReplacer.evict (r : LruReplacer) : Option Nat × LruReplacer :=
  match r.evictCandidate with
  | some frame_id =>
    (some frame_id,
     { r with node_store := aerase r.node_store frame_id
              evictable_count := r.evictable_count - 1 })
  | none => (none, r)

def LruReplacer.pin (r : LruReplacer) (frame_id : Nat) : LruReplacer :=
  match alookup r.node_store frame_id with
  | some node =>
    if node.is_evictable then
      { r with
        node_store := amodify r.node_store frame_id
          (fun n => { n with is_evictable := false })
        evictable_count := r.evictable_count - 1 }
    else r
  | none => r

def LruReplacer.unpin (r : LruReplacer) (frame_id : Nat) : LruReplacer :=
  match alookup r.node_store frame_id with
  | some node =>
    if node.is_evictable then r
    else
      { r with
        node_store := amodify r.node_store frame_id
          (fun n => { n with is_evictable := true })
        evictable_count := r.evictable_count + 1 }
  | none => r

/-- remove: panic when the removed node is not evictable. -/
def LruReplacer.remove (r : LruReplacer) (frame_id : Nat) : Except Error LruReplacer :=
  match alookup r.node_store frame_id with
  | some node =>
    if node.is_evictable then
      .ok { r with node_store := aerase r.node_store frame_id
                   evictable_count := r.evictable_count - 1 }
    else
      .error (.Panic "replacer remoev should only be called on evictable frame")
  | none => .ok r

def LruReplacer.size (r : LruReplacer) : Nat := r.evictable_count

/-- A frame is evictable in the replacer. -/
def LruReplacer.evictableB (r : LruReplacer) (frame_id : Nat) : Bool :=
  match alookup r.node_store frame_id with
  | some n => n.is_evictable
  | none => false

/-- Timestamp of a tracked frame (0 if untracked). -/
def LruReplacer.tsOf (r : LruReplacer) (frame_id : Nat) : Nat :=
  match alookup r.node_store frame_id with
  | some n => n.last_accessed_timestamp
  | none => 0

/-- Well-formedness of a replacer state: keys are unique, every node is
keyed by its own frame id, timestamps are below the counter and pairwise
distinct. record_access establishes and preserves all of this. -/
def LruReplacer.tsWF (r : LruReplacer) : Prop :=
  (tableKeys r.node_store).Nodup ∧
  (∀ kn ∈ r.node_store, kn.2.frame_id = kn.1 ∧
    kn.2.last_accessed_timestamp < r.current_timestamp) ∧
  (r.node_store.map (fun kn => kn.2.last_accessed_timestamp)).Nodup

instance (r : LruReplacer) : Decidable r.tsWF := by
  unfold LruReplacer.tsWF; infer_instance

/-! ## Buffer pool manager -/

structure BufferPoolManager where
  frames : List PageFrame
  page_table : List (Nat × Nat)
  replacer : LruReplacer
  free_list : List Nat
  disk_manager : DiskManager

def BufferPoolManager.new (pool_size : Nat) (disk_manager : DiskManager) :
    BufferPoolManager :=
  { frames := List.replicate pool_size PageFrame.new
    page_table := []
    replacer := LruReplacer.new
    free_list := List.range pool_size
    disk_manager := disk_manager }

/-- Frame-array indexing. The source indexes the Vec directly and panics
out of range; well-formed states keep every tracked id in range. -/
def getFrame (frames : List PageFrame) (i : Nat) : PageFrame :=
  frames.getD i PageFrame.new

/-- get_free_frame: pop the free list, else evict. No victim is a panic
(the expect call of the source), not a typed error. An evicted dirty
frame is flushed (write failure is unwrap, hence a panic), its stale page
table entry removed and the frame reset. -/
def BufferPoolManager.get_free_frame (b : BufferPoolManager) :
    Except Error Nat × BufferPoolManager :=
  match b.free_list with
  | frame_id :: rest => (.ok frame_id, { b with free_list := rest })
  | [] =>
    match b.replacer.evict with
    | (none, r1) =>
      (.error (.Panic "Failed to evict a frame. Either increase bpm capacity or make sure pages are unpinned."),
       { b with replacer := r1 })
    | (some frame_id, r1) =>
      let frame := getFrame b.frames frame_id
      if frame.pin_cnt ≠ 0 then
        (.error (.Panic "If page is evicted from replacer, its pin count must be 0."),
         { b with replacer := r1 })
      else
        match (if frame.is_dirty then
                 b.disk_manager.write frame.page_id (readBytes frame.data 0 PAGE_SIZE)
               else .ok b.disk_manager) with
        | .error e =>
          (.error (.Panic "disk write during eviction failed"), { b with replacer := r1 })
        | .ok dm1 =>
          (.ok frame_id,
           { b with replacer := r1
                    disk_manager := dm1
                    page_table := aerase b.page_table frame.page_id
                    frames := b.frames.set frame_id frame.reset })

/-- create_page: allocate a fresh page id on disk (unwrap), obtain a free
frame, install the page table entry, initialise the frame pinned once,
and record the access in the replacer. Returns the frame id the returned
handle wraps. -/
def BufferPoolManager.create_page (b : BufferPoolManager) :
    Except Error Nat × BufferPoolManager :=
  match b.disk_manager.allocate_page with
  | (.error e, dm1) =>
    (.error (.Panic "allocate_page failed"), { b with disk_manager := dm1 })
  | (.ok new_page_id, dm1) =>
    let b1 := { b with disk_manager := dm1 }
    match b1.get_free_frame with
    | (.error e, b2) => (.error e, b2)
    | (.ok frame_id, b2) =>
      let f := getFrame b2.frames frame_id
      let f1 := { f with page_id := new_page_id, is_dirty := false, pin_cnt := 1 }
      let b3 := { b2 with page_table := ainsert b2.page_table new_page_id frame_id
                          frames := b2.frames.set frame_id f1 }
      let b4 := { b3 with replacer := (b3.replacer.record_access frame_id).pin frame_id }
      (.ok frame_id, b4)

/-- fetch_page_mut: on a hit increment the pin count and touch the
replacer; on a miss obtain a free frame, install the mapping, then read
the page from disk (both unwraps are panics: an IO error or a tombstoned
page aborts). The miss path does not touch the replacer. -/
def BufferPoolManager.fetch_page_mut (b : BufferPoolManager) (page_id : Nat) :
    Except Error Nat × BufferPoolManager :=
  match alookup b.page_table page_id with
  | some frame_id =>
    let f := getFrame b.frames frame_id
    let f1 := { f with pin_cnt := f.pin_cnt + 1 }
    let b1 := { b with frames := b.frames.set frame_id f1 }
    let b2 := { b1 with replacer := (b1.replacer.record_access frame_id).pin frame_id }
    (.ok frame_id, b2)
  | none =>
    match b.get_free_frame with
    | (.error e, b1) => (.error e, b1)
    | (.ok frame_id, b1) =>
      let f := getFrame b1.frames frame_id
      let f1 := { f with page_id := page_id, is_dirty := false, pin_cnt := 1 }
      let b2 := { b1 with page_table := ainsert b1.page_table page_id frame_id
                          frames := b1.frames.set frame_id f1 }
      match b2.disk_manager.read page_id with
      | .error e => (.error (.Panic "disk read during fetch failed"), b2)
      | .ok none => (.error (.Panic "called Option unwrap on a None value"), b2)
      | .ok (some page_data) =>
        let f2 := { f1 with data := writeBytes f1.data 0 page_data }
        (.ok frame_id, { b2 with frames := b2.frames.set frame_id f2 })

/-- fetch_page delegates to fetch_page_mut. -/
def BufferPoolManager.fetch_page (b : BufferPoolManager) (page_id : Nat) :
    Except Error Nat × BufferPoolManager :=
  b.fetch_page_mut page_id

/-- unpin_page: no-op for a non-resident page; otherwise OR the dirty
flag, decrement the pin count (underflow is an assert, hence a panic) and
mark the frame evictable when the count reaches zero. -/
def BufferPoolManager.unpin_page (b : BufferPoolManager) (page_id : Nat)
    (is_dirty : Bool) : Except Error Unit × BufferPoolManager :=
  match alookup b.page_table page_id with
  | none => (.ok (), b)
  | some frame_id =>
    let f := getFrame b.frames frame_id
    let f1 := if is_dirty then { f with is_dirty := true } else f
    if f1.pin_cnt = 0 then
      (.error (.Panic "assertion failed: pin count is zero before decrement"),
       { b with frames := b.frames.set frame_id f1 })
    else
      let f2 := { f1 with pin_cnt := f1.pin_cnt - 1 }
      let b1 := { b with frames := b.frames.set frame_id f2 }
      if f2.pin_cnt = 0 then
        (.ok (), { b1 with replacer := b1.replacer.unpin frame_id })
      else (.ok (), b1)

/-- delete_page: no-op when non-resident; a pinned page is a panic;
otherwise remove the frame from the replacer, the page table entry, push
the frame to the free list, tombstone the page on disk (unwrap) and
reset the frame. -/
def BufferPoolManager.delete_page (b : BufferPoolManager) (page_id : Nat) :
    Except Error Unit × BufferPoolManager :=
  match alookup b.page_table page_id with
  | none => (.ok (), b)
  | some frame_id =>
    let f := getFrame b.frames frame_id
    if f.pin_cnt > 0 then
      (.error (.Panic "Cannot delete page when page is pinned"), b)
    else
      let r1 := b.replacer.unpin frame_id
      match r1.remove frame_id with
      | .error e => (.error e, { b with replacer := r1 })
      | .ok r2 =>
        let b1 := { b with replacer := r2
                           page_table := aerase b.page_table page_id
                           free_list := b.free_list ++ [frame_id] }
        match b1.disk_manager.deallocate_page page_id with
        | .error e => (.error (.Panic "deallocate_page failed"), b1)
        | .ok dm1 =>
          (.ok (), { b1 with disk_manager := dm1
                             frames := b1.frames.set frame_id f.reset })

def BufferPoolManager.free_frame_count (b : BufferPoolManager) : Nat :=
  b.free_list.length + b.replacer.size

/-! ## Well-formedness and reachability of buffer pool states -/

/-- Structural invariants every reachable buffer pool state satisfies:
unique page table keys and values, table entries point at in-range
frames carrying the right page id of an allocated page, the free list is
duplicate-free and disjoint from resident frames, every replacer node is
keyed by its frame id and its frame is resident under that key, and the
disk offsets stay below u64 while the file covers at most the allocated
pages. -/
def BufferPoolManager.wf (b : BufferPoolManager) : Prop :=
  (tableKeys b.page_table).Nodup ∧
  (tableVals b.page_table).Nodup ∧
  (∀ kv ∈ b.page_table, kv.2 < b.frames.length ∧
     (getFrame b.frames kv.2).page_id = kv.1 ∧
     kv.1 ≤ b.disk_manager.last_allocated_pid) ∧
  b.free_list.Nodup ∧
  (∀ fid ∈ b.free_list, fid < b.frames.length ∧ fid ∉ tableVals b.page_table) ∧
  (tableKeys b.replacer.node_store).Nodup ∧
  (∀ kn ∈ b.replacer.node_store, kn.2.frame_id = kn.1 ∧ kn.1 < b.frames.length ∧
     alookup b.page_table (getFrame b.frames kn.1).page_id = some kn.1) ∧
  b.disk_manager.last_allocated_pid * PAGE_SIZE ≤ U64_MAX ∧
  b.disk_manager.file_len ≤ (b.disk_manager.last_allocated_pid + 1) * PAGE_SIZE

/-- States reachable from a fresh pool over a fresh disk by complete
(non-panicking) buffer pool operations. -/
inductive Reach (pool_size : Nat) : BufferPoolManager → Prop where
  | init : Reach pool_size (BufferPoolManager.new pool_size DiskManager.new)
  | create {b b' : BufferPoolManager} {fid : Nat} :
      Reach pool_size b → b.create_page = (.ok fid, b') → Reach pool_size b'
  | fetch {b b' : BufferPoolManager} {pid fid : Nat} :
      Reach pool_size b → b.fetch_page_mut pid = (.ok fid, b') → Reach pool_size b'
  | unpin {b b' : BufferPoolManager} {pid : Nat} {dirty : Bool} :
      Reach pool_size b → b.unpin_page pid dirty = (.ok (), b') → Reach pool_size b'
  | delete {b b' : BufferPoolManager} {pid : Nat} :
      Reach pool_size b → b.delete_page pid = (.ok (), b') → Reach pool_size b'

/-- Disk manager states reachable from a given one by any sequence of
allocate, deallocate and write calls (successful or not). -/
inductive DiskEvolve : DiskManager → DiskManager → Prop where
  | refl (dm : DiskManager) : DiskEvolve dm dm
  | alloc {dm dm' : DiskManager} (h : DiskEvolve dm dm') :
      DiskEvolve dm (dm'.allocate_page).2
  | dealloc {dm dm' dm'' : DiskManager} {pid : Nat} (h : DiskEvolve dm dm')
      (hd : dm'.deallocate_page pid = .ok dm'') : DiskEvolve dm dm''
  | writeOp {dm dm' dm'' : DiskManager} {pid : Nat} {data : List Nat}
      (h : DiskEvolve dm dm') (hw : dm'.write pid data = .ok dm'') : DiskEvolve dm dm''

/-! ## Table heap

The heap functions compose the buffer pool operations of the source with
the handle-drop protocol of frame_handle.rs: a read handle release calls
unpin_page(pid, false), a write handle release unpin_page(pid, true). -/

structure TableHeap where
  page_cnt : Nat
  first_page_id : Nat
  last_page_id : Nat
deriving DecidableEq, Repr

/-- TableHeap::new: create the root page, init_header(INVALID_PAGE_ID),
record it as first and last page, release the handle dirty. -/
def TableHeap.make (b : BufferPoolManager) :
    Except Error (TableHeap × BufferPoolManager) :=
  match b.create_page with
  | (.error e, b1) => .error e
  | (.ok frame_id, b1) =>
    let f := getFrame b1.frames frame_id
    let page1 := (pageOfFrame f).init_header INVALID_PAGE_ID
    let b2 := { b1 with frames := b1.frames.set frame_id { f with data := page1.data } }
    match b2.unpin_page f.page_id true with
    | (.error e, b3) => .error e
    | (.ok _, b3) =>
      .ok ({ page_cnt := 1, first_page_id := page1.page_id
             last_page_id := page1.page_id }, b3)

/-- TableHeap::get_tuple: fetch the page of the record id read-only,
delegate to the table page, release the handle clean. -/
def TableHeap.get_tuple (h : TableHeap) (b : BufferPoolManager) (rid : RecordId) :
    Except Error (TupleMetadata × List Nat) × BufferPoolManager :=
  match b.fetch_page rid.page_id with
  | (.error e, b1) => (.error e, b1)
  | (.ok frame_id, b1) =>
    let f := getFrame b1.frames frame_id
    let res := (pageOfFrame f).get_tuple rid
    match b1.unpin_page f.page_id false with
    | (.error e2, b2) => (.error e2, b2)
    | (.ok _, b2) => (res, b2)

/-- TableHeap::delete_tuple: read the pre-delete snapshot, re-fetch the
page mutably, overwrite the slot metadata with is_deleted set, release
the handle dirty, return the snapshot. -/
def TableHeap.delete_tuple (h : TableHeap) (b : BufferPoolManager) (rid : RecordId) :
    Except Error (TupleMetadata × List Nat) × BufferPoolManager :=
  match h.get_tuple b rid with
  | (.error e, b1) => (.error e, b1)
  | (.ok old_data, b1) =>
    match b1.fetch_page_mut rid.page_id with
    | (.error e, b2) => (.error e, b2)
    | (.ok frame_id, b2) =>
      let f := getFrame b2.frames frame_id
      let deleted_metadata := old_data.1.set_deleted true
      match (pageOfFrame f).update_tuple_metadata rid deleted_metadata with
      | .error e =>
        match b2.unpin_page f.page_id true with
        | (.error e2, b3) => (.error e2, b3)
        | (.ok _, b3) => (.error e, b3)
      | .ok page1 =>
        let b3 := { b2 with frames := b2.frames.set frame_id { f with data := page1.data } }
        match b3.unpin_page f.page_id true with
        | (.error e2, b4) => (.error e2, b4)
        | (.ok _, b4) => (.ok old_data, b4)

/-- TableHeap::insert_tuple: try the current last page; on OutOfBounds
create a new page, link it from the old page, init its header with
INVALID, insert there, advance last_page_id and increment page_cnt. The
new handle is released before the old one (scope order of the source). -/
def TableHeap.insert_tuple (h : TableHeap) (b : BufferPoolManager) (t : List Nat) :
    Except Error RecordId × (TableHeap × BufferPoolManager) :=
  let metadata := TupleMetadata.new false
  match b.fetch_page_mut h.last_page_id with
  | (.error e, b1) => (.error e, (h, b1))
  | (.ok frame_id, b1) =>
    let f := getFrame b1.frames frame_id
    match (pageOfFrame f).insert_tuple metadata t with
    | .ok (rid, page1) =>
      let b2 := { b1 with frames := b1.frames.set frame_id { f with data := page1.data } }
      match b2.unpin_page f.page_id true with
      | (.error e2, b3) => (.error e2, (h, b3))
      | (.ok _, b3) => (.ok rid, (h, b3))
    | .error Error.OutOfBounds =>
      match b1.create_page with
      | (.error e, b2) =>
        match b2.unpin_page f.page_id true with
        | (.error e2, b3) => (.error e2, (h, b3))
        | (.ok _, b3) => (.error e, (h, b3))
      | (.ok new_frame_id, b2) =>
        let new_page_id := (getFrame b2.frames new_frame_id).page_id
        let fOld := getFrame b2.frames frame_id
        let oldPage1 := (pageOfFrame fOld).set_next_page_id new_page_id
        let b3 := { b2 with frames := b2.frames.set frame_id { fOld with data := oldPage1.data } }
        let nf := getFrame b3.frames new_frame_id
        let newPage := (pageOfFrame nf).init_header INVALID_PAGE_ID
        match newPage.insert_tuple metadata t with
        | .error e =>
          let b4 := { b3 with frames := b3.frames.set new_frame_id { nf with data := newPage.data } }
          match b4.unpin_page new_page_id true with
          | (.error e2, b5) => (.error e2, (h, b5))
          | (.ok _, b5) =>
            match b5.unpin_page fOld.page_id true with
            | (.error e2, b6) => (.error e2, (h, b6))
            | (.ok _, b6) => (.error e, (h, b6))
        | .ok (rid, newPage1) =>
          let b4 := { b3 with frames := b3.frames.set new_frame_id { nf with data := newPage1.data } }
          let h1 := { h with last_page_id := new_page_id, page_cnt := h.page_cnt + 1 }
          match b4.unpin_page new_page_id true with
          | (.error e2, b5) => (.error e2, (h1, b5))
          | (.ok _, b5) =>
            match b5.unpin_page fOld.page_id true with
            | (.error e2, b6) => (.error e2, (h1, b6))
            | (.ok _, b6) => (.ok rid, (h1, b6))
    | .error e =>
      match b1.unpin_page f.page_id true with
      | (.error e2, b2) => (.error e2, (h, b2))
      | (.ok _, b2) => (.error e, (h, b2))

/-! ## Tuple iteration (table_iterator.rs) -/

/-- Result of the inner while loop of TableIterator::next over one page
snapshot, starting at a given slot. -/
inductive SlotScan where
  | yieldTuple (rid : RecordId) (tuple : List Nat) (next_slot : Nat)
  | failWith (e : Error)
  | pageDone

/-- Walk the slot array from `slot`: skip deleted tuples, return the
first live one (with the slot cursor already advanced), an error, or
page exhaustion. -/
def scanSlots (page : TablePage) (page_id slot : Nat) : SlotScan :=
  if h : slot < page.tupleCount then
    match page.get_tuple { page_id := page_id, slot_id := slot } with
    | .ok (meta, tuple) =>
      if meta.isDeleted then scanSlots page page_id (slot + 1)
      else .yieldTuple { page_id := page_id, slot_id := slot } tuple (slot + 1)
    | .error e => .failWith e
  else .pageDone
termination_by page.tupleCount - slot

/-- Run the iterator to exhaustion, collecting every yielded pair. Each
next() call re-fetches the current page (pin), scans from the slot
cursor, and releases the handle clean; page exhaustion follows
next_page_id. The fuel bounds the number of next() loop iterations. -/
def TableIterator.collect (b : BufferPoolManager) (current_page_id current_slot : Nat) :
    Nat → Except Error (List (RecordId × List Nat)) × BufferPoolManager
  | 0 => (.error (.Panic "iterator fuel exhausted"), b)
  | fuel + 1 =>
    if current_page_id = INVALID_PAGE_ID then (.ok [], b)
    else
      match b.fetch_page current_page_id with
      | (.error e, b1) => (.error e, b1)
      | (.ok frame_id, b1) =>
        let f := getFrame b1.frames frame_id
        let page := pageOfFrame f
        match scanSlots page current_page_id current_slot with
        | .yieldTuple rid tuple next_slot =>
          match b1.unpin_page f.page_id false with
          | (.error e2, b2) => (.error e2, b2)
          | (.ok _, b2) =>
            match TableIterator.collect b2 current_page_id next_slot fuel with
            | (.ok rest, b3) => (.ok ((rid, tuple) :: rest), b3)
            | (.error e, b3) => (.error e, b3)
        | .failWith e =>
          match b1.unpin_page f.page_id false with
          | (.error e2, b2) => (.error e2, b2)
          | (.ok _, b2) => (.error e, b2)
        | .pageDone =>
          match b1.unpin_page f.page_id false with
          | (.error e2, b2) => (.error e2, b2)
          | (.ok _, b2) => TableIterator.collect b2 page.nextPageId 0 fuel

/-! ## Chain predicates and the expected iteration result -/

/-- Page-internal sanity: the slot array fits the page and every slot
points at an in-page byte range. -/
def pageWellFormed (p : TablePage) : Prop :=
  p.slotArrayInBounds ∧
  ∀ i, i < p.tupleCount → (p.slot i).offset + (p.slot i).size_bytes ≤ PAGE_SIZE

instance (p : TablePage) : Decidable (pageWellFormed p) := by
  unfold pageWellFormed; infer_instance

def headOrInvalid : List Nat → Nat
  | [] => INVALID_PAGE_ID
  | q :: _ => q

/-- A resident, well-formed page chain: page ids with their frame ids,
each resident under its id, each frame carrying that page id, each page
well formed, each next_page_id pointing at the next chain element and
the last one at INVALID_PAGE_ID. -/
def chainOk (b : BufferPoolManager) : List Nat → List Nat → Prop
  | [], [] => True
  | pid :: ps, fid :: fs =>
    pid ≠ INVALID_PAGE_ID ∧
    alookup b.page_table pid = some fid ∧
    fid < b.frames.length ∧
    (getFrame b.frames fid).page_id = pid ∧
    pageWellFormed (pageOfFrame (getFrame b.frames fid)) ∧
    (pageOfFrame (getFrame b.frames fid)).nextPageId = headOrInvalid ps ∧
    chainOk b ps fs
  | _, _ => False

instance chainOkDec (b : BufferPoolManager) :
    ∀ (ps fs : List Nat), Decidable (chainOk b ps fs)
  | [], [] => by unfold chainOk; infer_instance
  | [], _ :: _ => by unfold chainOk; infer_instance
  | _ :: _, [] => by unfold chainOk; infer_instance
  | _ :: ps, _ :: fs =>
    haveI := chainOkDec b ps fs
    by unfold chainOk; infer_instance

/-- The sequence the spec promises: per page, slots 0..tuple_count in
order, skipping slots whose metadata is_deleted is set, as
(RecordId, tuple bytes) pairs. -/
def expectedPageTuples (p : TablePage) (pid : Nat) : List (RecordId × List Nat) :=
  (List.range p.tupleCount).filterMap (fun i =>
    if (p.slot i).metadata.is_deleted ≠ 0 then none
    else some ({ page_id := pid, slot_id := i },
               readBytes p.data (p.slot i).offset (p.slot i).size_bytes))

def expectedChainTuples (b : BufferPoolManager) : List Nat → List (RecordId × List Nat)
  | [] => []
  | pid :: ps =>
    (match alookup b.page_table pid with
     | some fid => expectedPageTuples (pageOfFrame (getFrame b.frames fid)) pid
     | none => []) ++ expectedChainTuples b ps

/-! ## Concrete fixtures used to instantiate the theorems -/

/-- Bytes of a table page with one 3-byte tuple at offset 4090 whose
slot metadata carries the deleted flag. -/
def c9Bytes : Bytes := fun i =>
  if i = 8 then 1 else if i = 16 then 250 else if i = 17 then 15
  else if i = 18 then 3 else if i = 20 then 1 else if i = 4090 then 7 else 0

def c9Frame : PageFrame :=
  { page_id := 1, is_dirty := false, pin_cnt := 0, data := c9Bytes }

/-- A one-frame pool holding page 1 in frame 0. -/
def c9Pool : BufferPoolManager :=
  { frames := [c9Frame], page_table := [(1, 0)], replacer := LruReplacer.new
    free_list := [], disk_manager := DiskManager.new }

def c9Heap : TableHeap := { page_cnt := 1, first_page_id := 1, last_page_id := 1 }

/-- Bytes of a nearly full table page: one 1-byte tuple at offset 22,
leaving no room for a further slot entry. -/
def c4Bytes : Bytes := fun i =>
  if i = 8 then 1 else if i = 16 then 22 else if i = 18 then 1
  else if i = 22 then 9 else 0

def c4Frame0 : PageFrame :=
  { page_id := 1, is_dirty := false, pin_cnt := 0, data := c4Bytes }

def c4Disk : DiskManager :=
  { last_allocated_pid := 1, file := fun _ => 0, file_len := 2 * PAGE_SIZE }

/-- A two-frame pool: frame 0 holds the nearly full page 1, frame 1 is
free. -/
def c4Pool : BufferPoolManager :=
  { frames := [c4Frame0, PageFrame.new], page_table := [(1, 0)]
    replacer := LruReplacer.new, free_list := [1], disk_manager := c4Disk }

def c4Heap : TableHeap := { page_cnt := 1, first_page_id := 1, last_page_id := 1 }

/-- Suffix of the expected tuples of one page, from a slot cursor:
slots slot..tuple_count in order, skipping deleted ones. -/
def expectedFrom (p : TablePage) (pid slot : Nat) : List (RecordId × List Nat) :=
  if h : slot < p.tupleCount then
    (if (p.slot slot).metadata.is_deleted ≠ 0 then
      expectedFrom p pid (slot + 1)
    else
      ({ page_id := pid, slot_id := slot },
       readBytes p.data (p.slot slot).offset (p.slot slot).size_bytes) ::
        expectedFrom p pid (slot + 1))
  else []
termination_by p.tupleCount - slot

/-- Expected iterator output from a chain position: the head page from
the slot cursor on, the remaining pages in full. -/
def expectedChainFrom (b : BufferPoolManager) :
    Nat → List Nat → List Nat → List (RecordId × List Nat)
  | _, [], _ => []
  | _, _ :: _, [] => []
  | slot, pid :: ps, fid :: fs =>
    expectedFrom (pageOfFrame (getFrame b.frames fid)) pid slot ++
      expectedChainFrom b 0 ps fs

/-- Number of next() calls the iterator spends on the chain: one per
slot plus one page-exhaustion call per page. -/
def chainWeight (b : BufferPoolManager) : List Nat → Nat
  | [] => 0
  | fid :: fs => (pageOfFrame (getFrame b.frames fid)).tupleCount + 1 + chainWeight b fs

def headCount (b : BufferPoolManager) : List Nat → Nat
  | [] => 0
  | fid :: _ => (pageOfFrame (getFrame b.frames fid)).tupleCount

/-- Two pool states the read-only iterator cannot distinguish: the same
page table and the same frame under every index. -/
def sameView (b b2 : BufferPoolManager) : Prop :=
  b2.page_table = b.page_table ∧ b2.frames.length = b.frames.length ∧
  ∀ j, getFrame b2.frames j = getFrame b.frames j

/-- Bytes of a single-page table: next_page_id INVALID, two one-byte
tuples at offsets 4095 and 4094, the second one marked deleted. -/
def c5Bytes : Bytes := fun i =>
  if i < 8 then 255
  else if i = 8 then 2
  else if i = 16 then 255 else if i = 17 then 15
  else if i = 18 then 1
  else if i = 22 then 254 else if i = 23 then 15
  else if i = 24 then 1
  else if i = 26 then 1
  else if i = 4094 then 9
  else if i = 4095 then 7
  else 0

def c5Frame : PageFrame :=
  { page_id := 1, is_dirty := false, pin_cnt := 0, data := c5Bytes }

def c5Pool : BufferPoolManager :=
  { frames := [c5Frame]
    page_table := [(1, 0)]
    replacer := LruReplacer.new
    free_list := []
    disk_manager := DiskManager.new }

/-- Structural invariant of buffer pool states (claim C6). Beyond the
counting equation |free_list| + |page_table| = pool_size itself, it
carries what is needed to push the equation through every operation:
unique keys and values in the page table, coherence between table
entries and the frames they point at, a duplicate-free free list
disjoint from the resident frames, residency of every evictable frame,
a well-keyed replacer node store, and the file-length bound that keeps
fetch misses on allocated pages. -/
def PoolInv (b : BufferPoolManager) (n : Nat) : Prop :=
  b.free_list.length + b.page_table.length = n ∧
  b.frames.length = n ∧
  (tableKeys b.page_table).Nodup ∧
  (tableVals b.page_table).Nodup ∧
  (∀ kv ∈ b.page_table, kv.2 < b.frames.length ∧
     (getFrame b.frames kv.2).page_id = kv.1 ∧
     kv.1 ≤ b.disk_manager.last_allocated_pid) ∧
  b.free_list.Nodup ∧
  (∀ f ∈ b.free_list, f < b.frames.length ∧ f ∉ tableVals b.page_table) ∧
  (∀ g, b.replacer.evictableB g = true →
     alookup b.page_table (getFrame b.frames g).page_id = some g) ∧
  (tableKeys b.replacer.node_store).Nodup ∧
  (∀ kn ∈ b.replacer.node_store, kn.2.frame_id = kn.1) ∧
  b.disk_manager.file_len ≤ (b.disk_manager.last_allocated_pid + 1) * PAGE_SIZE

end RustSqlSpec

namespace RustSqlSpec

/-! ## Lemmas about the byte toolkit -/

theorem writeBytes_apply_lt (bs : List Nat) (d : Bytes) (o i : Nat) (h : i < o) :
    writeBytes d o bs i = d i := by
  induction bs generalizing d o with
  | nil => rfl
  | cons b bs ih =>
    show writeBytes (writeByte d o b) (o + 1) bs i = d i
    rw [ih _ _ (Nat.lt_succ_of_lt h)]
    unfold writeByte
    simp [Nat.ne_of_lt h]

theorem writeBytes_apply_ge (bs : List Nat) (d : Bytes) (o i : Nat)
    (h : o + bs.length ≤ i) : writeBytes d o bs i = d i := by
  induction bs generalizing d o with
  | nil => rfl
  | cons b bs ih =>
    show writeBytes (writeByte d o b) (o + 1) bs i = d i
    have h1 : o + 1 + bs.length ≤ i := by simp at h; omega
    rw [ih _ _ h1]
    unfold writeByte
    have : i ≠ o := by simp at h; omega
    simp [this]

theorem writeBytes_apply_inside (bs : List Nat) (d : Bytes) (o k : Nat)
    (h : k < bs.length) : writeBytes d o bs (o + k) = bs.getD k 0 % 256 := by
  induction bs generalizing d o k with
  | nil => simp at h
  | cons b bs ih =>
    show writeBytes (writeByte d o b) (o + 1) bs (o + k) = _
    match k with
    | 0 =>
      rw [writeBytes_apply_lt _ _ _ _ (by omega)]
      unfold writeByte
      simp
    | k + 1 =>
      have h1 : k < bs.length := by simpa using h
      have := ih (writeByte d o b) (o + 1) k h1
      rw [show o + (k + 1) = o + 1 + k by omega, this]
      rfl

theorem writeBytes_append (as bs : List Nat) (d : Bytes) (o : Nat) :
    writeBytes d o (as ++ bs) = writeBytes (writeBytes d o as) (o + as.length) bs := by
  induction as generalizing d o with
  | nil => simp [writeBytes]
  | cons a as ih =>
    show writeBytes (writeByte d o a) (o + 1) (as ++ bs) = _
    rw [ih, show o + (a :: as).length = o + 1 + as.length by
      simp only [List.length_cons]; omega]
    rfl

/-- Two buffers that agree byte-for-byte on a range. -/
def agreesOn (d d' : Bytes) (o n : Nat) : Prop :=
  ∀ i, o ≤ i → i < o + n → byteAt d i = byteAt d' i

theorem agreesOn_writeBytes_left (bs : List Nat) (d : Bytes) (a o n : Nat)
    (h : a + bs.length ≤ o ∨ o + n ≤ a) :
    agreesOn (writeBytes d a bs) d o n := by
  intro i h1 h2
  unfold byteAt
  rcases h with h | h
  · rw [writeBytes_apply_ge _ _ _ _ (by omega)]
  · rw [writeBytes_apply_lt _ _ _ _ (by omega)]

theorem readBytes_congr (n : Nat) (d d' : Bytes) (o : Nat)
    (h : agreesOn d d' o n) : readBytes d o n = readBytes d' o n := by
  induction n generalizing o with
  | zero => rfl
  | succ n ih =>
    show byteAt d o :: readBytes d (o + 1) n = byteAt d' o :: readBytes d' (o + 1) n
    rw [h o (Nat.le_refl o) (by omega)]
    rw [ih (o + 1) (fun i h1 h2 => h i (by omega) (by omega))]

theorem readBytes_writeBytes_take (bs : List Nat) (d : Bytes) (o n : Nat)
    (h : n ≤ bs.length) :
    readBytes (writeBytes d o bs) o n = (bs.take n).map (fun b => b % 256) := by
  induction bs generalizing d o n with
  | nil =>
    have : n = 0 := by simpa using h
    subst this; rfl
  | cons b bs ih =>
    match n with
    | 0 => rfl
    | n + 1 =>
      show byteAt (writeBytes (writeByte d o b) (o + 1) bs) o ::
        readBytes (writeBytes (writeByte d o b) (o + 1) bs) (o + 1) n = _
      have hn : n ≤ bs.length := by simpa using h
      rw [ih (writeByte d o b) (o + 1) n hn]
      unfold byteAt
      rw [writeBytes_apply_lt _ _ _ _ (by omega)]
      unfold writeByte
      simp [Nat.mod_mod_of_dvd]

theorem readBytes_writeBytes (bs : List Nat) (d : Bytes) (o : Nat) :
    readBytes (writeBytes d o bs) o bs.length = bs.map (fun b => b % 256) := by
  rw [readBytes_writeBytes_take bs d o bs.length (Nat.le_refl _), List.take_length]

theorem leBytes_length (v n : Nat) : (leBytes v n).length = n := by
  induction n generalizing v with
  | zero => rfl
  | succ n ih => simp [leBytes, ih]

theorem leBytes_lt (v n : Nat) : ∀ b ∈ leBytes v n, b < 256 := by
  induction n generalizing v with
  | zero => intro b hb; simp [leBytes] at hb
  | succ n ih =>
    intro b hb
    simp only [leBytes, List.mem_cons] at hb
    rcases hb with h | h
    · subst h; exact Nat.mod_lt _ (by omega)
    · exact ih _ b h

theorem map_mod_of_lt (bs : List Nat) (h : ∀ b ∈ bs, b < 256) :
    bs.map (fun b => b % 256) = bs := by
  induction bs with
  | nil => rfl
  | cons b bs ih =>
    simp only [List.map_cons]
    rw [Nat.mod_eq_of_lt (h b (by simp)), ih (fun x hx => h x (by simp [hx]))]

theorem leVal_leBytes (v n : Nat) : leVal (leBytes v n) = v % 256 ^ n := by
  induction n generalizing v with
  | zero => simp [leBytes, leVal, Nat.mod_one]
  | succ n ih =>
    show leVal (v % 256 :: leBytes (v / 256) n) = _
    unfold leVal
    rw [ih]
    rw [show (256 : Nat) ^ (n + 1) = 256 * 256 ^ n by ring]
    exact (Nat.mod_mul).symm

theorem readU16_agreesOn (d d' : Bytes) (o : Nat) (h : agreesOn d d' o 2) :
    readU16 d o = readU16 d' o := by
  unfold readU16
  rw [readBytes_congr 2 d d' o h]

theorem readU64_agreesOn (d d' : Bytes) (o : Nat) (h : agreesOn d d' o 8) :
    readU64 d o = readU64 d' o := by
  unfold readU64
  rw [readBytes_congr 8 d d' o h]

theorem readBytes_writeBytes_leBytes (d : Bytes) (o v n : Nat) :
    readBytes (writeBytes d o (leBytes v n)) o n = leBytes v n := by
  have h := readBytes_writeBytes (leBytes v n) d o
  rw [leBytes_length] at h
  rw [h, map_mod_of_lt _ (leBytes_lt v n)]

theorem readU16_writeBytes_leBytes (d : Bytes) (o v : Nat) :
    readU16 (writeBytes d o (leBytes v 2)) o = v % 65536 := by
  unfold readU16
  rw [readBytes_writeBytes_leBytes, leVal_leBytes]
  norm_num

theorem readU64_writeBytes_leBytes (d : Bytes) (o v : Nat) :
    readU64 (writeBytes d o (leBytes v 8)) o = v % 2 ^ 64 := by
  unfold readU64
  rw [readBytes_writeBytes_leBytes, leVal_leBytes]
  norm_num

theorem readU16_lt (d : Bytes) (o : Nat) : readU16 d o < 65536 := by
  unfold readU16 readBytes leVal
  have h1 : byteAt d o < 256 := Nat.mod_lt _ (by omega)
  have h2 : byteAt d (o + 1) < 256 := Nat.mod_lt _ (by omega)
  simp [leVal]
  omega

end RustSqlSpec

namespace RustSqlSpec

/-! ## Reads that skip over disjoint writes -/

theorem readBytes_skip (bs : List Nat) (d : Bytes) (a o n : Nat)
    (h : a + bs.length ≤ o ∨ o + n ≤ a) :
    readBytes (writeBytes d a bs) o n = readBytes d o n :=
  readBytes_congr n _ _ o (agreesOn_writeBytes_left bs d a o n h)

theorem readU16_skip (bs : List Nat) (d : Bytes) (a o : Nat)
    (h : a + bs.length ≤ o ∨ o + 2 ≤ a) :
    readU16 (writeBytes d a bs) o = readU16 d o :=
  readU16_agreesOn _ _ o (agreesOn_writeBytes_left bs d a o 2 h)

theorem readU64_skip (bs : List Nat) (d : Bytes) (a o : Nat)
    (h : a + bs.length ≤ o ∨ o + 8 ≤ a) :
    readU64 (writeBytes d a bs) o = readU64 d o :=
  readU64_agreesOn _ _ o (agreesOn_writeBytes_left bs d a o 8 h)

theorem byteAt_skip (bs : List Nat) (d : Bytes) (a o : Nat)
    (h : a + bs.length ≤ o ∨ o + 1 ≤ a) :
    byteAt (writeBytes d a bs) o = byteAt d o :=
  agreesOn_writeBytes_left bs d a o 1 h o (Nat.le_refl o) (by omega)

/-! ## Freshly initialised pages -/

theorem initHeader_data (pid next : Nat) (d0 : Bytes) :
    (TablePage.init_header ⟨pid, d0⟩ next).data =
      writeBytes (writeBytes d0 0 (leBytes next 8)) 8 [0, 0, 0, 0, 0, 0, 0, 0] := by
  unfold TablePage.init_header
  simp only
  rw [writeBytes_append, leBytes_length]

theorem initHeader_tupleCount (pid next : Nat) (d0 : Bytes) :
    (TablePage.init_header ⟨pid, d0⟩ next).tupleCount = 0 := by
  unfold TablePage.tupleCount
  rw [initHeader_data]
  unfold readU16
  rw [readBytes_writeBytes_take _ _ _ 2 (by simp)]
  rfl

theorem initHeader_nextPageId (pid next : Nat) (d0 : Bytes) :
    (TablePage.init_header ⟨pid, d0⟩ next).nextPageId = next % 2 ^ 64 := by
  unfold TablePage.nextPageId
  rw [initHeader_data]
  rw [readU64_skip _ _ _ _ (by right; simp)]
  exact readU64_writeBytes_leBytes d0 0 next

theorem initHeader_page_id (pid next : Nat) (d0 : Bytes) :
    (TablePage.init_header ⟨pid, d0⟩ next).page_id = pid := rfl

/-- get_next_tuple_offset on a page with no tuples yet. -/
theorem gnto_fresh (p : TablePage) (len : Nat) (h0 : p.tupleCount = 0)
    (hlen : len ≤ PAGE_SIZE - TABLE_PAGE_HEADER_SIZE - TUPLE_INFO_SIZE) :
    p.get_next_tuple_offset len = .ok (PAGE_SIZE - len) := by
  have hlen' : len ≤ 4074 := by
    simpa [PAGE_SIZE, TABLE_PAGE_HEADER_SIZE, TUPLE_INFO_SIZE] using hlen
  unfold TablePage.get_next_tuple_offset
  rw [h0]
  rw [if_neg (by simp)]
  simp only [if_pos rfl]
  rw [if_neg (by simp [PAGE_SIZE]; omega)]
  rw [if_neg (by simp [U16_MAX])]
  rw [if_neg (by simp [PAGE_SIZE, TABLE_PAGE_HEADER_SIZE, TUPLE_INFO_SIZE]; omega)]
  simp

end RustSqlSpec

namespace RustSqlSpec

theorem byteAt_writeBytes_inside (bs : List Nat) (d : Bytes) (o k : Nat)
    (h : k < bs.length) : byteAt (writeBytes d o bs) (o + k) = bs.getD k 0 % 256 := by
  unfold byteAt
  rw [writeBytes_apply_inside bs d o k h]
  exact Nat.mod_mod_of_dvd _ (dvd_refl 256)

theorem tupleInfoBytes_split (d : Bytes) (s off size del pad : Nat) :
    writeBytes d s (tupleInfoBytes off size del pad) =
      writeBytes (writeBytes (writeBytes d s (leBytes off 2)) (s + 2) (leBytes size 2))
        (s + 4) [del, pad] := by
  unfold tupleInfoBytes
  rw [List.append_assoc, writeBytes_append, leBytes_length, writeBytes_append,
    leBytes_length]

theorem tupleInfo_offset_rt (d : Bytes) (s off size del pad : Nat) :
    readU16 (writeBytes d s (tupleInfoBytes off size del pad)) s = off % 65536 := by
  rw [tupleInfoBytes_split]
  rw [readU16_skip _ _ _ _ (by right; omega)]
  rw [readU16_skip _ _ _ _ (by right; omega)]
  exact readU16_writeBytes_leBytes d s off

theorem tupleInfo_size_rt (d : Bytes) (s off size del pad : Nat) :
    readU16 (writeBytes d s (tupleInfoBytes off size del pad)) (s + 2) = size % 65536 := by
  rw [tupleInfoBytes_split]
  rw [readU16_skip _ _ _ _ (by right; omega)]
  exact readU16_writeBytes_leBytes _ (s + 2) size

theorem tupleInfo_del_rt (d : Bytes) (s off size del pad : Nat) :
    byteAt (writeBytes d s (tupleInfoBytes off size del pad)) (s + 4) = del % 256 := by
  rw [tupleInfoBytes_split]
  have := byteAt_writeBytes_inside [del, pad]
    (writeBytes (writeBytes d s (leBytes off 2)) (s + 2) (leBytes size 2)) (s + 4) 0
    (by simp)
  simpa using this

theorem tupleInfo_pad_rt (d : Bytes) (s off size del pad : Nat) :
    byteAt (writeBytes d s (tupleInfoBytes off size del pad)) (s + 5) = pad % 256 := by
  rw [tupleInfoBytes_split]
  have := byteAt_writeBytes_inside [del, pad]
    (writeBytes (writeBytes d s (leBytes off 2)) (s + 2) (leBytes size 2)) (s + 4) 1
    (by simp)
  rw [show s + 4 + 1 = s + 5 by omega] at this
  simpa using this

theorem tupleInfoBytes_length (off size del pad : Nat) :
    (tupleInfoBytes off size del pad).length = 6 := by
  unfold tupleInfoBytes
  simp [leBytes_length]

/-- Inserting a tuple into a freshly initialised page succeeds, places it
in slot 0, bumps tuple_cnt to 1, keeps the header link, and get_tuple on
the returned record id returns the stored metadata and the tuple bytes. -/
theorem insert_fresh_spec (pid next : Nat) (d0 : Bytes) (meta : TupleMetadata)
    (t : List Nat)
    (hlen : t.length ≤ PAGE_SIZE - TABLE_PAGE_HEADER_SIZE - TUPLE_INFO_SIZE)
    (hbytes : ∀ b ∈ t, b < 256) :
    ∃ p1 : TablePage,
      (TablePage.init_header ⟨pid, d0⟩ next).insert_tuple meta t =
        .ok ({ page_id := pid, slot_id := 0 }, p1) ∧
      p1.page_id = pid ∧
      p1.tupleCount = 1 ∧
      p1.nextPageId = next % 2 ^ 64 ∧
      p1.get_tuple { page_id := pid, slot_id := 0 } =
        .ok ({ is_deleted := meta.is_deleted % 256, padding := meta.padding % 256 }, t) := by
  have hlen' : t.length ≤ 4074 := by
    simpa [PAGE_SIZE, TABLE_PAGE_HEADER_SIZE, TUPLE_INFO_SIZE] using hlen
  have hPS : PAGE_SIZE = 4096 := rfl
  set p0 := TablePage.init_header ⟨pid, d0⟩ next with hp0
  have h0 : p0.tupleCount = 0 := initHeader_tupleCount pid next d0
  have hg := gnto_fresh p0 t.length h0 hlen
  set off := PAGE_SIZE - t.length with hoffdef
  have hoffge : 22 ≤ off := by omega
  have hoffle : off ≤ 4096 := by omega
  have hoffsum : off + t.length = 4096 := by omega
  set d1 := writeBytes p0.data off t with hd1
  set sb := tupleInfoBytes off t.length meta.is_deleted meta.padding with hsb
  have hsblen : sb.length = 6 := tupleInfoBytes_length off t.length meta.is_deleted meta.padding
  set d2 := writeBytes d1 (slotPos 0) sb with hd2
  set d3 := writeU16 d2 8 1 with hd3
  have hsp0 : slotPos 0 = 16 := by simp [slotPos, TABLE_PAGE_HEADER_SIZE]
  have htc : readU16 d3 8 = 1 := by
    rw [hd3]
    unfold writeU16
    rw [readU16_writeBytes_leBytes]
  have hins : p0.insert_tuple meta t = .ok ({ page_id := pid, slot_id := 0 }, ⟨pid, d3⟩) := by
    unfold TablePage.insert_tuple
    rw [hg]
    simp only
    rw [if_neg (by omega)]
    rw [h0]
    rfl
  refine ⟨⟨pid, d3⟩, hins, rfl, ?_, ?_, ?_⟩
  · show readU16 d3 8 = 1
    exact htc
  · show readU64 d3 0 = next % 2 ^ 64
    rw [hd3]
    unfold writeU16
    rw [readU64_skip _ _ _ _ (by right; omega)]
    rw [hd2, hsp0]
    rw [readU64_skip _ _ _ _ (by right; omega)]
    rw [hd1]
    rw [readU64_skip _ _ _ _ (by right; omega)]
    exact initHeader_nextPageId pid next d0
  · unfold TablePage.get_tuple TablePage.validate_record_id
    have htc' : TablePage.tupleCount ⟨pid, d3⟩ = 1 := htc
    rw [htc']
    rw [if_neg (by simp)]
    simp only
    have hsab : TablePage.slotArrayInBounds ⟨pid, d3⟩ := by
      unfold TablePage.slotArrayInBounds
      rw [htc']
      simp [slotPos, TABLE_PAGE_HEADER_SIZE, TUPLE_INFO_SIZE, PAGE_SIZE]
    rw [dif_neg (not_not_intro hsab)]
    have hslotoff : (TablePage.slot ⟨pid, d3⟩ 0).offset = off := by
      unfold TablePage.slot
      simp only
      show readU16 d3 (slotPos 0) = off
      rw [hd3]
      unfold writeU16
      rw [readU16_skip _ _ _ _ (by rw [leBytes_length]; left; omega)]
      rw [hd2, hsp0, hsb]
      rw [tupleInfo_offset_rt]
      omega
    have hslotsize : (TablePage.slot ⟨pid, d3⟩ 0).size_bytes = t.length := by
      unfold TablePage.slot
      simp only
      show readU16 d3 (slotPos 0 + 2) = t.length
      rw [hd3]
      unfold writeU16
      rw [readU16_skip _ _ _ _ (by rw [leBytes_length, hsp0]; left; omega)]
      rw [hd2, hsp0, hsb]
      rw [tupleInfo_size_rt]
      omega
    have hslotdel : (TablePage.slot ⟨pid, d3⟩ 0).metadata.is_deleted = meta.is_deleted % 256 := by
      unfold TablePage.slot
      simp only
      show byteAt d3 (slotPos 0 + 4) = meta.is_deleted % 256
      rw [hd3]
      unfold writeU16
      rw [byteAt_skip _ _ _ _ (by rw [leBytes_length, hsp0]; left; omega)]
      rw [hd2, hsp0, hsb]
      exact tupleInfo_del_rt d1 16 off t.length meta.is_deleted meta.padding
    have hslotpad : (TablePage.slot ⟨pid, d3⟩ 0).metadata.padding = meta.padding % 256 := by
      unfold TablePage.slot
      simp only
      show byteAt d3 (slotPos 0 + 5) = meta.padding % 256
      rw [hd3]
      unfold writeU16
      rw [byteAt_skip _ _ _ _ (by rw [leBytes_length, hsp0]; left; omega)]
      rw [hd2, hsp0, hsb]
      exact tupleInfo_pad_rt d1 16 off t.length meta.is_deleted meta.padding
    rw [hslotoff, hslotsize]
    rw [if_neg (by omega)]
    have hread : readBytes d3 off t.length = t := by
      rw [hd3]
      unfold writeU16
      rw [readBytes_skip _ _ _ _ _ (by rw [leBytes_length]; left; omega)]
      rw [hd2, hsp0]
      rw [readBytes_skip _ _ _ _ _ (by rw [hsblen]; left; omega)]
      rw [hd1]
      rw [readBytes_writeBytes]
      exact map_mod_of_lt t hbytes
    rw [hread]
    have hmeta : (TablePage.slot ⟨pid, d3⟩ 0).metadata =
        ({ is_deleted := meta.is_deleted % 256, padding := meta.padding % 256 } :
          TupleMetadata) := by
      have h1 := hslotdel
      have h2 := hslotpad
      rcases hmm : (TablePage.slot ⟨pid, d3⟩ 0).metadata with ⟨a, b⟩
      rw [hmm] at h1 h2
      simp only at h1 h2
      rw [h1, h2]
    rw [hmeta]

end RustSqlSpec

namespace RustSqlSpec

/-! ## Claim C1 -/

/-- C1: for every tuple t with |t| ≤ PAGE_SIZE − header size (16) − slot
size (6), inserting t into a freshly initialised table page via
insert_tuple with not-deleted metadata and then calling get_tuple on the
returned RecordId yields metadata with is_deleted = false and tuple
bytes equal to t, with the page tuple_cnt incremented by one. -/
theorem C1_insert_get_roundtrip (pid next : Nat) (d0 : Bytes) (t : List Nat)
    (hlen : t.length ≤ PAGE_SIZE - TABLE_PAGE_HEADER_SIZE - TUPLE_INFO_SIZE)
    (hbytes : ∀ b ∈ t, b < 256) :
    ∃ (rid : RecordId) (p1 : TablePage) (m : TupleMetadata),
      (TablePage.init_header ⟨pid, d0⟩ next).insert_tuple (TupleMetadata.new false) t =
        .ok (rid, p1) ∧
      p1.get_tuple rid = .ok (m, t) ∧
      m.isDeleted = false ∧
      p1.tupleCount = (TablePage.init_header ⟨pid, d0⟩ next).tupleCount + 1 := by
  obtain ⟨p1, hins, hpid, htc, hnext, hget⟩ :=
    insert_fresh_spec pid next d0 (TupleMetadata.new false) t hlen hbytes
  refine ⟨_, p1, _, hins, hget, ?_, ?_⟩
  · rfl
  · rw [htc, initHeader_tupleCount]

/-- Witness for C1 at the five-byte tuple of spec scenario 2. -/
theorem C1_insert_get_roundtrip_witness :
    ∃ (rid : RecordId) (p1 : TablePage) (m : TupleMetadata),
      (TablePage.init_header ⟨1, fun _ => 0⟩ INVALID_PAGE_ID).insert_tuple
        (TupleMetadata.new false) [10, 20, 30, 40, 50] = .ok (rid, p1) ∧
      p1.get_tuple rid = .ok (m, [10, 20, 30, 40, 50]) ∧
      m.isDeleted = false ∧
      p1.tupleCount =
        (TablePage.init_header ⟨1, fun _ => 0⟩ INVALID_PAGE_ID).tupleCount + 1 :=
  C1_insert_get_roundtrip 1 INVALID_PAGE_ID (fun _ => 0) [10, 20, 30, 40, 50]
    (by decide) (by decide)

end RustSqlSpec

namespace RustSqlSpec

/-! ## Disk manager lemmas, claims C8 and C10 -/

theorem write_preserves_last (dm : DiskManager) (pid : Nat) (data : List Nat)
    (dm' : DiskManager) (h : dm.write pid data = .ok dm') :
    dm'.last_allocated_pid = dm.last_allocated_pid := by
  unfold DiskManager.write at h
  split at h
  · exact absurd h (by simp)
  · split at h
    · exact absurd h (by simp)
    · simp only [Except.ok.injEq] at h
      rw [← h]

theorem dealloc_preserves_last (dm : DiskManager) (pid : Nat)
    (dm' : DiskManager) (h : dm.deallocate_page pid = .ok dm') :
    dm'.last_allocated_pid = dm.last_allocated_pid := by
  unfold DiskManager.deallocate_page at h
  split at h
  · exact absurd h (by simp)
  · simp only [Except.ok.injEq] at h
    rw [← h]

/-- Symbolic evaluation of a successful write. -/
theorem write_ok_spec (dm : DiskManager) (pid : Nat) (data : List Nat)
    (h1 : data.length ≤ PAGE_SIZE) (h2 : pid * PAGE_SIZE ≤ U64_MAX) :
    dm.write pid data = .ok { dm with
      file := writeBytes dm.file (pid * PAGE_SIZE) data
      file_len := max dm.file_len (pid * PAGE_SIZE + data.length) } := by
  unfold DiskManager.write DiskManager.calculate_offset
  rw [if_neg (by omega), if_pos h2]

/-- Symbolic evaluation of a successful allocation. -/
theorem allocate_ok_full (dm : DiskManager)
    (h2 : (dm.last_allocated_pid + 1) * PAGE_SIZE ≤ U64_MAX) :
    dm.allocate_page = (.ok (dm.last_allocated_pid + 1),
      { dm with last_allocated_pid := dm.last_allocated_pid + 1
                file := writeBytes dm.file ((dm.last_allocated_pid + 1) * PAGE_SIZE)
                  (List.replicate PAGE_SIZE 0)
                file_len := max dm.file_len
                  ((dm.last_allocated_pid + 1) * PAGE_SIZE + PAGE_SIZE) }) := by
  unfold DiskManager.allocate_page
  have hne : dm.last_allocated_pid ≠ U64_MAX := by
    intro h
    rw [h] at h2
    simp [U64_MAX, PAGE_SIZE] at h2
  rw [if_neg hne]
  simp only
  rw [write_ok_spec _ _ _ (by simp) h2]
  simp

theorem allocate_ok_spec (dm : DiskManager) (pid : Nat) (dm' : DiskManager)
    (h : dm.allocate_page = (.ok pid, dm')) :
    pid = dm.last_allocated_pid + 1 ∧ dm'.last_allocated_pid = pid := by
  unfold DiskManager.allocate_page at h
  split at h
  · simp at h
  · simp only at h
    split at h
    · simp at h
    · rename_i dm2 hw
      simp only [Prod.mk.injEq, Except.ok.injEq] at h
      obtain ⟨h1, h2⟩ := h
      subst h1
      subst h2
      refine ⟨rfl, ?_⟩
      exact write_preserves_last _ _ _ _ hw

theorem allocate_last_mono (dm : DiskManager) :
    dm.last_allocated_pid ≤ (dm.allocate_page).2.last_allocated_pid := by
  unfold DiskManager.allocate_page
  split
  · simp
  · simp only
    split
    · simp
    · rename_i dm2 hw
      simp only
      rw [write_preserves_last _ _ _ _ hw]
      simp

theorem diskEvolve_last_mono (dm dm' : DiskManager) (h : DiskEvolve dm dm') :
    dm.last_allocated_pid ≤ dm'.last_allocated_pid := by
  induction h with
  | refl => exact Nat.le_refl _
  | alloc h ih => exact Nat.le_trans ih (allocate_last_mono _)
  | dealloc h hd ih => rw [dealloc_preserves_last _ _ _ hd]; exact ih
  | writeOp h hw ih => rw [write_preserves_last _ _ _ _ hw]; exact ih

/-- C8: allocate_page returns strictly increasing PageIds: the counter
starts at 0, the first allocation returns 1, every successful allocation
returns the previous counter value plus one and advances the counter,
deallocate_page never touches the counter, the counter never decreases
under any sequence of disk operations, and hence an id handed out after
any evolution strictly exceeds every id handed out before — ids are
never recycled. -/
theorem C8_allocate_monotone :
    DiskManager.new.last_allocated_pid = 0 ∧
    (DiskManager.new.allocate_page).1 = .ok 1 ∧
    (∀ (dm : DiskManager) (pid : Nat) (dm' : DiskManager),
      dm.allocate_page = (.ok pid, dm') →
        pid = dm.last_allocated_pid + 1 ∧ dm'.last_allocated_pid = pid) ∧
    (∀ (dm dm' : DiskManager) (pid : Nat) (dm2 : DiskManager) (pid2 : Nat)
        (dm2' : DiskManager),
      dm.allocate_page = (.ok pid, dm') → dm'.allocate_page = (.ok pid2, dm2') →
        pid2 = pid + 1) ∧
    (∀ (dm : DiskManager) (pid : Nat) (dm' : DiskManager),
      dm.deallocate_page pid = .ok dm' →
        dm'.last_allocated_pid = dm.last_allocated_pid) ∧
    (∀ dm dm' : DiskManager, DiskEvolve dm dm' →
      dm.last_allocated_pid ≤ dm'.last_allocated_pid) ∧
    (∀ (dm dm' : DiskManager) (pid : Nat) (dm'' : DiskManager),
      DiskEvolve dm dm' → dm'.allocate_page = (.ok pid, dm'') →
        dm.last_allocated_pid < pid) := by
  refine ⟨rfl, ?_, ?_, ?_, ?_, ?_, ?_⟩
  · rw [allocate_ok_full DiskManager.new (by norm_num [PAGE_SIZE, U64_MAX, DiskManager.new])]
    rfl
  · exact allocate_ok_spec
  · intro dm dm' pid dm2 pid2 dm2' h1 h2
    obtain ⟨hp1, hl1⟩ := allocate_ok_spec _ _ _ h1
    obtain ⟨hp2, _⟩ := allocate_ok_spec _ _ _ h2
    rw [hp2, hl1]
  · exact dealloc_preserves_last
  · exact diskEvolve_last_mono
  · intro dm dm' pid dm'' hev hal
    obtain ⟨hp, _⟩ := allocate_ok_spec _ _ _ hal
    have := diskEvolve_last_mono _ _ hev
    omega

/-- Witness for C8: a fresh disk manager evolves to itself, and its next
allocation returns an id strictly above the counter value 0. -/
theorem C8_allocate_monotone_witness : DiskManager.new.last_allocated_pid < 1 :=
  C8_allocate_monotone.2.2.2.2.2.2 DiskManager.new DiskManager.new 1 _
    (DiskEvolve.refl _)
    (allocate_ok_full DiskManager.new (by norm_num [PAGE_SIZE, U64_MAX, DiskManager.new]))

end RustSqlSpec

namespace RustSqlSpec

/-! ## Claim C10 -/

/-- Symbolic evaluation of a successful deallocation. -/
theorem dealloc_ok_spec (dm : DiskManager) (pid : Nat)
    (h2 : pid * PAGE_SIZE ≤ U64_MAX) :
    dm.deallocate_page pid = .ok { dm with
      file := writeBytes dm.file (pid * PAGE_SIZE) [1]
      file_len := max dm.file_len (pid * PAGE_SIZE + 1) } := by
  unfold DiskManager.deallocate_page DiskManager.calculate_offset
  rw [if_pos h2]

/-- C10: DiskManager::read returns None exactly when the first byte of
the on-disk page record equals 1. Any written page whose content begins
with byte 0x01 — even one never deallocated — reads back as absent, and
a deallocated page reads back as absent. -/
theorem C10_read_none_iff_first_byte_one :
    (∀ (dm : DiskManager) (pid : Nat), pid * PAGE_SIZE ≤ U64_MAX →
      pid * PAGE_SIZE + 1 ≤ dm.file_len →
      (dm.read pid = .ok none ↔ byteAt dm.file (pid * PAGE_SIZE) = 1)) ∧
    (∀ (dm : DiskManager) (pid : Nat) (data : List Nat) (dm' : DiskManager),
      dm.write pid data = .ok dm' → data.headD 0 % 256 = 1 → data ≠ [] →
      dm'.read pid = .ok none) ∧
    (∀ (dm : DiskManager) (pid : Nat) (dm' : DiskManager),
      dm.deallocate_page pid = .ok dm' → dm'.read pid = .ok none) := by
  have hread_one : ∀ (dm : DiskManager) (pid : Nat), pid * PAGE_SIZE ≤ U64_MAX →
      pid * PAGE_SIZE + 1 ≤ dm.file_len → byteAt dm.file (pid * PAGE_SIZE) = 1 →
      dm.read pid = .ok none := by
    intro dm pid hoff hlen hbyte
    unfold DiskManager.read DiskManager.calculate_offset
    rw [if_pos hoff]
    simp only
    rw [if_neg (by omega), if_pos hbyte]
  refine ⟨?_, ?_, ?_⟩
  · intro dm pid hoff hlen
    constructor
    · intro h
      unfold DiskManager.read DiskManager.calculate_offset at h
      rw [if_pos hoff] at h
      simp only at h
      rw [if_neg (by omega)] at h
      by_cases hb : byteAt dm.file (pid * PAGE_SIZE) = 1
      · exact hb
      · rw [if_neg hb] at h
        split at h <;> simp at h
    · exact hread_one dm pid hoff hlen
  · intro dm pid data dm' hw hhead hne
    have hinv : data.length ≤ PAGE_SIZE ∧ pid * PAGE_SIZE ≤ U64_MAX := by
      unfold DiskManager.write DiskManager.calculate_offset at hw
      by_cases h1 : data.length > PAGE_SIZE
      · rw [if_pos h1] at hw
        exact absurd hw (by simp)
      · rw [if_neg h1] at hw
        by_cases h2 : pid * PAGE_SIZE ≤ U64_MAX
        · exact ⟨by omega, h2⟩
        · rw [if_neg h2] at hw
          simp at hw
    obtain ⟨hl, hoff⟩ := hinv
    rw [write_ok_spec dm pid data hl hoff] at hw
    simp only [Except.ok.injEq] at hw
    subst hw
    apply hread_one
    · exact hoff
    · simp only
      have : 1 ≤ data.length := by
        cases data with
        | nil => exact absurd rfl hne
        | cons a l => simp
      omega
    · show byteAt (writeBytes dm.file (pid * PAGE_SIZE) data) (pid * PAGE_SIZE) = 1
      cases data with
      | nil => exact absurd rfl hne
      | cons a l =>
        have := byteAt_writeBytes_inside (a :: l) dm.file (pid * PAGE_SIZE) 0 (by simp)
        simp only [Nat.add_zero] at this
        rw [this]
        simpa using hhead
  · intro dm pid dm' hd
    have hoff : pid * PAGE_SIZE ≤ U64_MAX := by
      unfold DiskManager.deallocate_page DiskManager.calculate_offset at hd
      by_cases h2 : pid * PAGE_SIZE ≤ U64_MAX
      · exact h2
      · rw [if_neg h2] at hd
        simp at hd
    rw [dealloc_ok_spec dm pid hoff] at hd
    simp only [Except.ok.injEq] at hd
    subst hd
    apply hread_one
    · exact hoff
    · simp
    · show byteAt (writeBytes dm.file (pid * PAGE_SIZE) [1]) (pid * PAGE_SIZE) = 1
      have := byteAt_writeBytes_inside [1] dm.file (pid * PAGE_SIZE) 0 (by simp)
      simp only [Nat.add_zero] at this
      rw [this]
      rfl

/-- Witness for C10: writing a page whose first byte is 1 (for example a
table page whose next_page_id is 1) makes the page read back as absent
although it was never deallocated. -/
theorem C10_read_none_iff_first_byte_one_witness :
    ({ last_allocated_pid := 0, file := writeBytes (fun _ => 0) 4096 [1, 0, 9]
       file_len := 4099 } : DiskManager).read 1 = .ok none :=
  C10_read_none_iff_first_byte_one.2.1 DiskManager.new 1 [1, 0, 9] _
    (write_ok_spec DiskManager.new 1 [1, 0, 9] (by norm_num [PAGE_SIZE])
      (by norm_num [PAGE_SIZE, U64_MAX]))
    (by decide) (by decide)

end RustSqlSpec


namespace RustSqlSpec

/-! ## Claims C2 and C7: the panic paths of the buffer pool -/

/-- A read that meets the tombstone byte yields Ok(None). -/
theorem read_tombstone (dm : DiskManager) (pid : Nat)
    (hoff : pid * PAGE_SIZE ≤ U64_MAX)
    (hlen : pid * PAGE_SIZE + 1 ≤ dm.file_len)
    (hbyte : byteAt dm.file (pid * PAGE_SIZE) = 1) :
    dm.read pid = .ok none := by
  unfold DiskManager.read DiskManager.calculate_offset
  rw [if_pos hoff]
  simp only
  rw [if_neg (by omega), if_pos hbyte]

/-- With an empty free list and no evictable frame, get_free_frame hits
the expect call: a panic, and the state is otherwise untouched. -/
theorem gff_full_panic (b : BufferPoolManager)
    (hfree : b.free_list = [])
    (hnoev : b.replacer.evictCandidate = none) :
    b.get_free_frame =
      (.error (.Panic "Failed to evict a frame. Either increase bpm capacity or make sure pages are unpinned."), b) := by
  obtain ⟨fr, pt, rep, fl, dm⟩ := b
  simp only at hfree hnoev
  subst hfree
  simp only [BufferPoolManager.get_free_frame, LruReplacer.evict, hnoev]

/-- create_page on a pool with an empty free list and no evictable frame
panics inside get_free_frame, after having allocated a page id. -/
theorem create_full_panic (b : BufferPoolManager) (pid : Nat) (dm1 : DiskManager)
    (halloc : b.disk_manager.allocate_page = (.ok pid, dm1))
    (hfree : b.free_list = [])
    (hnoev : b.replacer.evictCandidate = none) :
    b.create_page =
      (.error (.Panic "Failed to evict a frame. Either increase bpm capacity or make sure pages are unpinned."),
       { b with disk_manager := dm1 }) := by
  unfold BufferPoolManager.create_page
  rw [halloc]
  simp only
  rw [gff_full_panic { b with disk_manager := dm1 } hfree hnoev]

/-- C2 (amended): when the free list is empty and the replacer has no
evictable frame, get_free_frame panics through its expect call instead
of returning the typed error BufferPoolFull, and a create-page request
on such a pool (every frame pinned) surfaces the same panic to the
caller after allocating a fresh page id. -/
theorem C2_full_pool_panics (b : BufferPoolManager)
    (hfree : b.free_list = [])
    (hnoev : b.replacer.evictCandidate = none) :
    (b.get_free_frame).1 =
      .error (.Panic "Failed to evict a frame. Either increase bpm capacity or make sure pages are unpinned.") ∧
    (∀ (pid : Nat) (dm1 : DiskManager), b.disk_manager.allocate_page = (.ok pid, dm1) →
      (b.create_page).1 =
        .error (.Panic "Failed to evict a frame. Either increase bpm capacity or make sure pages are unpinned.")) := by
  constructor
  · rw [gff_full_panic b hfree hnoev]
  · intro pid dm1 halloc
    rw [create_full_panic b pid dm1 halloc hfree hnoev]

/-- Witness for C2 on a one-frame pool whose only frame is pinned. -/
theorem C2_full_pool_panics_witness :
    (BufferPoolManager.get_free_frame
      { frames := [{ page_id := 1, is_dirty := false, pin_cnt := 1, data := fun _ => 0 }]
        page_table := [(1, 0)]
        replacer := { node_store := [(0, { frame_id := 0, is_evictable := false,
                                           last_accessed_timestamp := 0 })]
                      evictable_count := 0, current_timestamp := 1 }
        free_list := []
        disk_manager := { last_allocated_pid := 1, file := fun _ => 0, file_len := 8192 } }).1 =
      .error (.Panic "Failed to evict a frame. Either increase bpm capacity or make sure pages are unpinned.") := by
  have h := C2_full_pool_panics
    { frames := [{ page_id := 1, is_dirty := false, pin_cnt := 1, data := fun _ => 0 }]
      page_table := [(1, 0)]
      replacer := { node_store := [(0, { frame_id := 0, is_evictable := false,
                                         last_accessed_timestamp := 0 })]
                    evictable_count := 0, current_timestamp := 1 }
      free_list := []
      disk_manager := { last_allocated_pid := 1, file := fun _ => 0, file_len := 8192 } }
    rfl rfl
  exact h.1

/-- Counterexample for C2 as stated: on a full pool of pinned pages the
create-page request does not return the recoverable BufferPoolFull
error; it panics. -/
theorem C2_counterexample :
    (BufferPoolManager.create_page
      { frames := [{ page_id := 1, is_dirty := false, pin_cnt := 1, data := fun _ => 0 }]
        page_table := [(1, 0)]
        replacer := { node_store := [(0, { frame_id := 0, is_evictable := false,
                                           last_accessed_timestamp := 0 })]
                      evictable_count := 0, current_timestamp := 1 }
        free_list := []
        disk_manager := { last_allocated_pid := 1, file := fun _ => 0, file_len := 8192 } }).1 =
      .error (.Panic "Failed to evict a frame. Either increase bpm capacity or make sure pages are unpinned.") ∧
    Error.Panic "Failed to evict a frame. Either increase bpm capacity or make sure pages are unpinned." ≠
      Error.BufferPoolFull := by
  have hal := allocate_ok_full
    { last_allocated_pid := 1, file := fun _ => 0, file_len := 8192 }
    (by norm_num [PAGE_SIZE, U64_MAX])
  have hc := create_full_panic
    { frames := [{ page_id := 1, is_dirty := false, pin_cnt := 1, data := fun _ => 0 }]
      page_table := [(1, 0)]
      replacer := { node_store := [(0, { frame_id := 0, is_evictable := false,
                                         last_accessed_timestamp := 0 })]
                    evictable_count := 0, current_timestamp := 1 }
      free_list := []
      disk_manager := { last_allocated_pid := 1, file := fun _ => 0, file_len := 8192 } }
    2 _ hal rfl rfl
  constructor
  · rw [hc]
  · simp

/-- Characterisation of a fetch miss whose disk read finds a tombstoned
page: the second unwrap panics. -/
theorem fetch_tombstoned_fst (b : BufferPoolManager) (pid fid : Nat) (rest : List Nat)
    (hmiss : alookup b.page_table pid = none)
    (hfree : b.free_list = fid :: rest)
    (hread : b.disk_manager.read pid = .ok none) :
    (b.fetch_page_mut pid).1 = .error (.Panic "called Option unwrap on a None value") := by
  obtain ⟨fr, pt, rep, fl, dm⟩ := b
  simp only at hmiss hfree hread
  subst hfree
  simp only [BufferPoolManager.fetch_page_mut, BufferPoolManager.get_free_frame, hmiss,
    hread]

/-- C7 (amended): when fetch_page is called for a page that is not
resident and the disk read returns None (tombstoned page), the fetch
panics on the unwrap of that None instead of failing with the typed,
recoverable IO error. -/
theorem C7_fetch_tombstoned_panics (b : BufferPoolManager) (pid fid : Nat)
    (rest : List Nat)
    (hmiss : alookup b.page_table pid = none)
    (hfree : b.free_list = fid :: rest)
    (hread : b.disk_manager.read pid = .ok none) :
    (b.fetch_page_mut pid).1 = .error (.Panic "called Option unwrap on a None value") ∧
    (match (b.fetch_page_mut pid).1 with
     | .error (.IOError _) => False
     | _ => True) := by
  have h := fetch_tombstoned_fst b pid fid rest hmiss hfree hread
  refine ⟨h, ?_⟩
  rw [h]
  trivial

/-- Witness for C7 on a fresh one-frame pool over a disk whose page 1 is
tombstoned. -/
theorem C7_fetch_tombstoned_panics_witness :
    (BufferPoolManager.fetch_page_mut
      (BufferPoolManager.new 1
        { last_allocated_pid := 1, file := fun o => if o = 4096 then 1 else 0
          file_len := 8192 }) 1).1 =
      .error (.Panic "called Option unwrap on a None value") := by
  have h := C7_fetch_tombstoned_panics
    (BufferPoolManager.new 1
      { last_allocated_pid := 1, file := fun o => if o = 4096 then 1 else 0
        file_len := 8192 }) 1 0 [] rfl rfl
    (read_tombstone _ 1 (by norm_num [PAGE_SIZE, U64_MAX])
      (by norm_num [PAGE_SIZE, BufferPoolManager.new]) (by decide))
  exact h.1

/-- Counterexample for C7 as stated: fetching the non-resident
tombstoned page 1 does not produce the typed IO error; it panics on the
unwrap of None. -/
theorem C7_counterexample :
    (BufferPoolManager.fetch_page_mut
      (BufferPoolManager.new 1
        { last_allocated_pid := 2, file := fun o => if o = 4096 then 1 else 0
          file_len := 12288 }) 1).1 =
      .error (.Panic "called Option unwrap on a None value") ∧
    (match
      (BufferPoolManager.fetch_page_mut
        (BufferPoolManager.new 1
          { last_allocated_pid := 2, file := fun o => if o = 4096 then 1 else 0
            file_len := 12288 }) 1).1 with
     | .error (.IOError _) => False
     | _ => True) := by
  have h := fetch_tombstoned_fst
    (BufferPoolManager.new 1
      { last_allocated_pid := 2, file := fun o => if o = 4096 then 1 else 0
        file_len := 12288 }) 1 0 [] rfl rfl
    (read_tombstone _ 1 (by norm_num [PAGE_SIZE, U64_MAX])
      (by norm_num [PAGE_SIZE, BufferPoolManager.new]) (by decide))
  refine ⟨h, ?_⟩
  rw [h]
  trivial

end RustSqlSpec

namespace RustSqlSpec

/-! ## Association list lemmas -/

theorem tableKeys_cons {α : Type} (kv : Nat × α) (l : List (Nat × α)) :
    tableKeys (kv :: l) = kv.1 :: tableKeys l := rfl

theorem mem_tableKeys {α : Type} (l : List (Nat × α)) (k : Nat) :
    k ∈ tableKeys l ↔ ∃ v, (k, v) ∈ l := by
  unfold tableKeys
  simp only [List.mem_map]
  constructor
  · rintro ⟨⟨a, b⟩, hm, rfl⟩
    exact ⟨b, hm⟩
  · rintro ⟨v, hm⟩
    exact ⟨(k, v), hm, rfl⟩

theorem alookup_eq_none {α : Type} (l : List (Nat × α)) (k : Nat) :
    alookup l k = none ↔ k ∉ tableKeys l := by
  induction l with
  | nil => simp [alookup, tableKeys]
  | cons kv rest ih =>
    obtain ⟨k', v⟩ := kv
    rw [tableKeys_cons]
    by_cases h : k' = k
    · subst h
      simp [alookup]
    · simp only [alookup, if_neg h, List.mem_cons]
      rw [ih]
      constructor
      · intro hn hc
        rcases hc with hc | hc
        · exact h hc.symm
        · exact hn hc
      · intro hn hc
        exact hn (Or.inr hc)

theorem alookup_mem {α : Type} (l : List (Nat × α)) (k : Nat) (v : α)
    (h : alookup l k = some v) : (k, v) ∈ l := by
  induction l with
  | nil => simp [alookup] at h
  | cons kv rest ih =>
    obtain ⟨k', w⟩ := kv
    by_cases hk : k' = k
    · subst hk
      rw [show alookup ((k', w) :: rest) k' = some w from by simp [alookup]] at h
      injection h with h
      subst h
      exact List.mem_cons_self _ _
    · simp only [alookup, if_neg hk] at h
      exact List.mem_cons_of_mem _ (ih h)

theorem mem_alookup {α : Type} (l : List (Nat × α)) (k : Nat) (v : α)
    (hnd : (tableKeys l).Nodup) (hm : (k, v) ∈ l) : alookup l k = some v := by
  induction l with
  | nil => simp at hm
  | cons kv rest ih =>
    obtain ⟨k', w⟩ := kv
    rw [tableKeys_cons] at hnd
    rcases List.mem_cons.mp hm with he | hm'
    · injection he with h1 h2
      subst h1
      subst h2
      simp [alookup]
    · have hk : k' ≠ k := by
        intro he
        subst he
        exact (List.nodup_cons.mp hnd).1 ((mem_tableKeys _ _).mpr ⟨v, hm'⟩)
      simp only [alookup, if_neg hk]
      exact ih (List.nodup_cons.mp hnd).2 hm'

theorem mem_aerase {α : Type} (l : List (Nat × α)) (k : Nat) :
    ∀ kv ∈ aerase l k, kv ∈ l := by
  induction l with
  | nil => intro kv h; simp [aerase] at h
  | cons kv' rest ih =>
    obtain ⟨k', v⟩ := kv'
    intro kv h
    by_cases hk : k' = k
    · subst hk
      simp only [aerase, if_pos rfl] at h
      exact List.mem_cons_of_mem _ h
    · simp only [aerase, if_neg hk] at h
      rcases List.mem_cons.mp h with he | hm
      · exact he ▸ List.mem_cons_self _ _
      · exact List.mem_cons_of_mem _ (ih kv hm)

theorem aerase_sublist {α : Type} (l : List (Nat × α)) (k : Nat) :
    (aerase l k).Sublist l := by
  induction l with
  | nil => simp [aerase]
  | cons kv rest ih =>
    obtain ⟨k', v⟩ := kv
    by_cases hk : k' = k
    · subst hk
      simp only [aerase, if_pos rfl]
      exact List.sublist_cons_self _ _
    · simp only [aerase, if_neg hk]
      exact ih.cons₂ _

theorem keys_aerase_sublist {α : Type} (l : List (Nat × α)) (k : Nat) :
    (tableKeys (aerase l k)).Sublist (tableKeys l) :=
  (aerase_sublist l k).map _

theorem alookup_aerase_self {α : Type} (l : List (Nat × α)) (k : Nat)
    (hnd : (tableKeys l).Nodup) : alookup (aerase l k) k = none := by
  induction l with
  | nil => rfl
  | cons kv rest ih =>
    obtain ⟨k', v⟩ := kv
    rw [tableKeys_cons] at hnd
    by_cases hk : k' = k
    · subst hk
      simp only [aerase, if_pos rfl]
      rw [alookup_eq_none]
      exact (List.nodup_cons.mp hnd).1
    · simp only [aerase, if_neg hk, alookup, if_neg hk]
      exact ih (List.nodup_cons.mp hnd).2

theorem alookup_aerase_ne {α : Type} (l : List (Nat × α)) (k k' : Nat) (h : k' ≠ k) :
    alookup (aerase l k) k' = alookup l k' := by
  induction l with
  | nil => rfl
  | cons kv rest ih =>
    obtain ⟨k0, v⟩ := kv
    by_cases hk : k0 = k
    · subst hk
      simp only [aerase, if_pos rfl]
      have hne : k0 ≠ k' := fun he => h he.symm
      simp [alookup, hne]
    · simp only [aerase, if_neg hk]
      by_cases h2 : k0 = k'
      · subst h2
        simp [alookup]
      · simp [alookup, h2, ih]

theorem aerase_length_mem {α : Type} (l : List (Nat × α)) (k : Nat)
    (h : k ∈ tableKeys l) : (aerase l k).length + 1 = l.length := by
  induction l with
  | nil => simp [tableKeys] at h
  | cons kv rest ih =>
    obtain ⟨k', v⟩ := kv
    by_cases hk : k' = k
    · subst hk
      simp [aerase]
    · rw [tableKeys_cons] at h
      rcases List.mem_cons.mp h with he | hm
      · exact absurd he.symm hk
      · simp only [aerase, if_neg hk, List.length_cons]
        rw [← ih hm]

theorem aerase_eq_of_not_mem {α : Type} (l : List (Nat × α)) (k : Nat)
    (h : k ∉ tableKeys l) : aerase l k = l := by
  induction l with
  | nil => rfl
  | cons kv rest ih =>
    obtain ⟨k', v⟩ := kv
    rw [tableKeys_cons] at h
    have h1 : k' ≠ k := fun he => h (he ▸ List.mem_cons_self _ _)
    have h2 : k ∉ tableKeys rest := fun hm => h (List.mem_cons_of_mem _ hm)
    simp only [aerase, if_neg h1]
    rw [ih h2]

theorem ainsert_eq_append {α : Type} (l : List (Nat × α)) (k : Nat) (v : α)
    (h : alookup l k = none) : ainsert l k v = l ++ [(k, v)] := by
  induction l with
  | nil => rfl
  | cons kv rest ih =>
    obtain ⟨k', w⟩ := kv
    by_cases hk : k' = k
    · subst hk
      simp [alookup] at h
    · simp only [alookup, if_neg hk] at h
      simp only [ainsert, if_neg hk, List.cons_append]
      rw [ih h]

theorem alookup_ainsert_self {α : Type} (l : List (Nat × α)) (k : Nat) (v : α) :
    alookup (ainsert l k v) k = some v := by
  induction l with
  | nil => simp [ainsert, alookup]
  | cons kv rest ih =>
    obtain ⟨k', w⟩ := kv
    by_cases hk : k' = k
    · subst hk
      simp [ainsert, alookup]
    · simp [ainsert, alookup, hk, ih]

theorem alookup_ainsert_ne {α : Type} (l : List (Nat × α)) (k k' : Nat) (v : α)
    (h : k' ≠ k) : alookup (ainsert l k v) k' = alookup l k' := by
  induction l with
  | nil =>
    have : k ≠ k' := fun he => h he.symm
    simp [ainsert, alookup, this]
  | cons kv rest ih =>
    obtain ⟨k0, w⟩ := kv
    by_cases hk : k0 = k
    · subst hk
      have hne : k0 ≠ k' := fun he => h he.symm
      simp [ainsert, alookup, hne]
    · by_cases h2 : k0 = k'
      · subst h2
        simp [ainsert, alookup, hk]
      · simp [ainsert, alookup, hk, h2, ih]

theorem mem_ainsert {α : Type} (l : List (Nat × α)) (k : Nat) (v : α) :
    ∀ kv ∈ ainsert l k v, kv = (k, v) ∨ kv ∈ l := by
  induction l with
  | nil => intro kv h; simp [ainsert] at h; exact Or.inl h
  | cons kv0 rest ih =>
    obtain ⟨k0, w⟩ := kv0
    intro kv h
    by_cases hk : k0 = k
    · subst hk
      simp only [ainsert, if_pos rfl] at h
      rcases List.mem_cons.mp h with he | hm
      · exact Or.inl he
      · exact Or.inr (List.mem_cons_of_mem _ hm)
    · simp only [ainsert, if_neg hk] at h
      rcases List.mem_cons.mp h with he | hm
      · exact Or.inr (he ▸ List.mem_cons_self _ _)
      · rcases ih kv hm with h1 | h1
        · exact Or.inl h1
        · exact Or.inr (List.mem_cons_of_mem _ h1)

theorem tableKeys_amodify {α : Type} (l : List (Nat × α)) (k : Nat) (f : α → α) :
    tableKeys (amodify l k f) = tableKeys l := by
  unfold tableKeys amodify
  rw [List.map_map]
  apply List.map_congr_left
  intro kv _
  by_cases h : kv.1 = k <;> simp [h]

theorem amodify_cons {α : Type} (k0 : Nat) (v : α) (rest : List (Nat × α))
    (k : Nat) (f : α → α) :
    amodify ((k0, v) :: rest) k f =
      (if k0 = k then (k0, f v) else (k0, v)) :: amodify rest k f := by
  unfold amodify
  simp only [List.map_cons]

theorem alookup_amodify_self {α : Type} (l : List (Nat × α)) (k : Nat) (f : α → α) :
    alookup (amodify l k f) k = (alookup l k).map f := by
  induction l with
  | nil => rfl
  | cons kv rest ih =>
    obtain ⟨k0, v⟩ := kv
    rw [amodify_cons]
    by_cases hk : k0 = k
    · rw [if_pos hk]
      subst hk
      simp [alookup]
    · rw [if_neg hk]
      simp only [alookup, if_neg hk]
      exact ih

theorem alookup_amodify_ne {α : Type} (l : List (Nat × α)) (k k' : Nat) (f : α → α)
    (h : k' ≠ k) : alookup (amodify l k f) k' = alookup l k' := by
  induction l with
  | nil => rfl
  | cons kv rest ih =>
    obtain ⟨k0, v⟩ := kv
    rw [amodify_cons]
    by_cases hk : k0 = k
    · rw [if_pos hk]
      subst hk
      have hne : k0 ≠ k' := fun he => h he.symm
      simp only [alookup, if_neg hne]
      exact ih
    · rw [if_neg hk]
      by_cases h2 : k0 = k'
      · subst h2
        simp [alookup]
      · simp only [alookup, if_neg h2]
        exact ih

theorem mem_amodify {α : Type} (l : List (Nat × α)) (k : Nat) (f : α → α) :
    ∀ kv ∈ amodify l k f, (kv ∈ l ∧ kv.1 ≠ k) ∨ ∃ w, (k, w) ∈ l ∧ kv = (k, f w) := by
  unfold amodify
  intro kv h
  rw [List.mem_map] at h
  obtain ⟨kv0, hm, he⟩ := h
  by_cases hk : kv0.1 = k
  · right
    rw [if_pos hk] at he
    refine ⟨kv0.2, ?_, ?_⟩
    · rw [← hk]
      exact hm
    · rw [← he, hk]
  · left
    rw [if_neg hk] at he
    subst he
    exact ⟨hm, hk⟩

end RustSqlSpec


namespace RustSqlSpec

/-! ## LRU replacer lemmas and claim C3 -/

theorem amodify_eq_of_not_mem {α : Type} (l : List (Nat × α)) (k : Nat) (f : α → α)
    (h : k ∉ tableKeys l) : amodify l k f = l := by
  unfold amodify
  conv_rhs => rw [← List.map_id l]
  apply List.map_congr_left
  intro kv hm
  have hne : kv.1 ≠ k := by
    intro he
    exact h (he ▸ (mem_tableKeys l kv.1).mpr ⟨kv.2, hm⟩)
  show (if kv.1 = k then (kv.1, f kv.2) else kv) = id kv
  rw [if_neg hne]
  rfl

theorem amodify_map_eq {α β : Type} (l : List (Nat × α)) (k : Nat) (f : α → α)
    (g : Nat × α → β) (hg : ∀ kv : Nat × α, g (kv.1, f kv.2) = g kv) :
    (amodify l k f).map g = l.map g := by
  unfold amodify
  rw [List.map_map]
  apply List.map_congr_left
  intro kv _
  show g (if kv.1 = k then (kv.1, f kv.2) else kv) = g kv
  by_cases h : kv.1 = k
  · rw [if_pos h]
    exact hg kv
  · rw [if_neg h]

theorem mem_map_amodify {α β : Type} (l : List (Nat × α)) (k : Nat) (f : α → α)
    (g : Nat × α → β) :
    ∀ x ∈ (amodify l k f).map g, x ∈ l.map g ∨ ∃ w, (k, w) ∈ l ∧ x = g (k, f w) := by
  intro x hx
  rw [List.mem_map] at hx
  obtain ⟨kv, hkv, rfl⟩ := hx
  rcases mem_amodify l k f kv hkv with ⟨hm, _⟩ | ⟨w, hw, rfl⟩
  · exact Or.inl (List.mem_map_of_mem _ hm)
  · exact Or.inr ⟨w, hw, rfl⟩

theorem ts_nodup_amodify (l : List (Nat × LruNode)) (f c : Nat)
    (hknd : (tableKeys l).Nodup)
    (hlt : ∀ kn ∈ l, kn.2.last_accessed_timestamp < c)
    (hnodup : (l.map (fun kn => kn.2.last_accessed_timestamp)).Nodup) :
    ((amodify l f (fun n => { n with last_accessed_timestamp := c })).map
      (fun kn => kn.2.last_accessed_timestamp)).Nodup := by
  induction l with
  | nil => simp [amodify]
  | cons kv rest ih =>
    obtain ⟨k0, n0⟩ := kv
    rw [amodify_cons, List.map_cons, List.nodup_cons]
    rw [List.map_cons, List.nodup_cons] at hnodup
    obtain ⟨hni, hnd⟩ := hnodup
    rw [tableKeys_cons, List.nodup_cons] at hknd
    obtain ⟨hkni, hknd'⟩ := hknd
    by_cases hk : k0 = f
    · rw [if_pos hk]
      subst hk
      rw [amodify_eq_of_not_mem rest k0 _ hkni]
      constructor
      · intro hc
        rw [List.mem_map] at hc
        obtain ⟨kn, hm, he⟩ := hc
        have := hlt kn (List.mem_cons_of_mem _ hm)
        simp only at he
        omega
      · exact hnd
    · rw [if_neg hk]
      constructor
      · intro hc
        simp only at hc
        rcases mem_map_amodify rest f _ _ _ hc with hm | ⟨w, hw, he⟩
        · exact hni hm
        · simp only at he
          have := hlt (k0, n0) (List.mem_cons_self _ _)
          simp only at this
          omega
      · exact ih hknd' (fun kn hm => hlt kn (List.mem_cons_of_mem _ hm)) hnd

theorem alookup_append_not_mem {α : Type} (l : List (Nat × α)) (k : Nat) (v : α)
    (h : alookup l k = none) : alookup (l ++ [(k, v)]) k = some v := by
  induction l with
  | nil => simp [alookup]
  | cons kv rest ih =>
    obtain ⟨k0, w⟩ := kv
    by_cases hk : k0 = k
    · subst hk
      simp [alookup] at h
    · simp only [alookup, if_neg hk] at h
      simp only [List.cons_append, alookup, if_neg hk]
      exact ih h

theorem minByTimestamp_none_iff (l : List (Nat × LruNode)) :
    minByTimestamp l = none ↔ l = [] := by
  cases l with
  | nil => simp [minByTimestamp]
  | cons kv rest =>
    constructor
    · intro h
      exfalso
      unfold minByTimestamp at h
      cases hm : minByTimestamp rest with
      | none =>
        rw [hm] at h
        exact Option.noConfusion h
      | some m =>
        rw [hm] at h
        have h2 : (if kv.2.last_accessed_timestamp ≤ m.last_accessed_timestamp
            then some kv.2 else some m) = (none : Option LruNode) := h
        by_cases hc : kv.2.last_accessed_timestamp ≤ m.last_accessed_timestamp
        · rw [if_pos hc] at h2
          exact Option.noConfusion h2
        · rw [if_neg hc] at h2
          exact Option.noConfusion h2
    · intro h
      exact absurd h (List.cons_ne_nil _ _)

theorem minByTimestamp_mem (l : List (Nat × LruNode)) (n : LruNode)
    (h : minByTimestamp l = some n) : ∃ k, (k, n) ∈ l := by
  induction l generalizing n with
  | nil => simp [minByTimestamp] at h
  | cons kv rest ih =>
    obtain ⟨k0, n0⟩ := kv
    unfold minByTimestamp at h
    cases hm : minByTimestamp rest with
    | none =>
      rw [hm] at h
      injection h with h
      subst h
      exact ⟨k0, List.mem_cons_self _ _⟩
    | some m =>
      rw [hm] at h
      have h2 : (if n0.last_accessed_timestamp ≤ m.last_accessed_timestamp
          then some n0 else some m) = some n := h
      by_cases hc : n0.last_accessed_timestamp ≤ m.last_accessed_timestamp
      · rw [if_pos hc] at h2
        injection h2 with h2
        subst h2
        exact ⟨k0, List.mem_cons_self _ _⟩
      · rw [if_neg hc] at h2
        injection h2 with h2
        subst h2
        obtain ⟨k, hk⟩ := ih m hm
        exact ⟨k, List.mem_cons_of_mem _ hk⟩

theorem minByTimestamp_min (l : List (Nat × LruNode)) (n : LruNode)
    (h : minByTimestamp l = some n) :
    ∀ kv ∈ l, n.last_accessed_timestamp ≤ kv.2.last_accessed_timestamp := by
  induction l generalizing n with
  | nil => intro kv hkv; simp at hkv
  | cons kv0 rest ih =>
    obtain ⟨k0, n0⟩ := kv0
    intro kv hkv
    unfold minByTimestamp at h
    cases hm : minByTimestamp rest with
    | none =>
      rw [hm] at h
      injection h with h
      subst h
      have hrest : rest = [] := (minByTimestamp_none_iff rest).mp hm
      subst hrest
      rcases List.mem_cons.mp hkv with he | he
      · subst he
        exact Nat.le_refl _
      · simp at he
    | some m =>
      rw [hm] at h
      have h2 : (if n0.last_accessed_timestamp ≤ m.last_accessed_timestamp
          then some n0 else some m) = some n := h
      by_cases hc : n0.last_accessed_timestamp ≤ m.last_accessed_timestamp
      · rw [if_pos hc] at h2
        injection h2 with h2
        subst h2
        rcases List.mem_cons.mp hkv with he | he
        · subst he
          exact Nat.le_refl _
        · exact Nat.le_trans hc (ih m hm kv he)
      · rw [if_neg hc] at h2
        injection h2 with h2
        rw [← h2]
        rcases List.mem_cons.mp hkv with he | he
        · subst he
          show m.last_accessed_timestamp ≤ n0.last_accessed_timestamp
          omega
        · exact ih m hm kv he

/-- The eviction candidate of a well-formed replacer is evictable and
has the strictly smallest timestamp among evictable frames. -/
theorem evictCandidate_spec (r : LruReplacer) (g : Nat) (hwf : r.tsWF)
    (h : r.evictCandidate = some g) :
    r.evictableB g = true ∧
    (∀ x, r.evictableB x = true → x ≠ g → r.tsOf g < r.tsOf x) := by
  obtain ⟨hknd, hfi, htsnd⟩ := hwf
  unfold LruReplacer.evictCandidate at h
  cases hmb : minByTimestamp (r.node_store.filter (fun kv => kv.2.is_evictable)) with
  | none =>
    rw [hmb] at h
    simp at h
  | some n =>
    rw [hmb] at h
    simp only [Option.map_some', Option.some.injEq] at h
    subst h
    obtain ⟨k, hkmem⟩ := minByTimestamp_mem _ _ hmb
    have hkstore : (k, n) ∈ r.node_store := (List.mem_filter.mp hkmem).1
    have hkev : n.is_evictable = true := by
      have := (List.mem_filter.mp hkmem).2
      simpa using this
    have hfk : n.frame_id = k := (hfi (k, n) hkstore).1
    have hlk : alookup r.node_store n.frame_id = some n := by
      rw [hfk]
      exact mem_alookup _ _ _ hknd hkstore
    constructor
    · unfold LruReplacer.evictableB
      rw [hlk]
      exact hkev
    · intro x hx hne
      unfold LruReplacer.evictableB at hx
      cases hlx : alookup r.node_store x with
      | none =>
        rw [hlx] at hx
        simp at hx
      | some nx =>
        rw [hlx] at hx
        have hxmem : (x, nx) ∈ r.node_store := alookup_mem _ _ _ hlx
        have hxfil : (x, nx) ∈ r.node_store.filter (fun kv => kv.2.is_evictable) := by
          rw [List.mem_filter]
          refine ⟨hxmem, ?_⟩
          simpa using hx
        have hle := minByTimestamp_min _ _ hmb (x, nx) hxfil
        simp only at hle
        have hneq : n.last_accessed_timestamp ≠ nx.last_accessed_timestamp := by
          intro he
          have heq := List.inj_on_of_nodup_map htsnd hkstore hxmem he
          injection heq with h1 h2
          apply hne
          rw [← h1, hfk]
        unfold LruReplacer.tsOf
        rw [hlk, hlx]
        show n.last_accessed_timestamp < nx.last_accessed_timestamp
        omega

/-- Evaluation of record_access when the frame is already tracked. -/
theorem record_access_some_eq (r : LruReplacer) (f : Nat) (n0 : LruNode)
    (h : alookup r.node_store f = some n0) :
    r.record_access f = { r with
      current_timestamp := r.current_timestamp + 1
      node_store := amodify r.node_store f
        (fun n => { n with last_accessed_timestamp := r.current_timestamp }) } := by
  unfold LruReplacer.record_access
  simp only [h]

/-- Evaluation of record_access when the frame is new. -/
theorem record_access_none_eq (r : LruReplacer) (f : Nat)
    (h : alookup r.node_store f = none) :
    r.record_access f = { r with
      current_timestamp := r.current_timestamp + 2
      node_store := r.node_store ++
        [(f, { frame_id := f, is_evictable := true
               last_accessed_timestamp := r.current_timestamp + 1 })]
      evictable_count := r.evictable_count + 1 } := by
  unfold LruReplacer.record_access
  simp only [h]

/-- Evaluation of pin on a tracked frame. -/
theorem pin_eval_some (r : LruReplacer) (f : Nat) (n : LruNode)
    (hl : alookup r.node_store f = some n) :
    r.pin f = if n.is_evictable = true then
      { r with
        node_store := amodify r.node_store f
          (fun m => { m with is_evictable := false })
        evictable_count := r.evictable_count - 1 }
      else r := by
  unfold LruReplacer.pin
  simp only [hl]

theorem pin_eval_none (r : LruReplacer) (f : Nat)
    (hl : alookup r.node_store f = none) : r.pin f = r := by
  unfold LruReplacer.pin
  simp only [hl]

/-- Evaluation of unpin on a tracked frame. -/
theorem unpin_eval_some (r : LruReplacer) (f : Nat) (n : LruNode)
    (hl : alookup r.node_store f = some n) :
    r.unpin f = if n.is_evictable = true then r
      else
      { r with
        node_store := amodify r.node_store f
          (fun m => { m with is_evictable := true })
        evictable_count := r.evictable_count + 1 } := by
  unfold LruReplacer.unpin
  simp only [hl]

theorem unpin_eval_none (r : LruReplacer) (f : Nat)
    (hl : alookup r.node_store f = none) : r.unpin f = r := by
  unfold LruReplacer.unpin
  simp only [hl]

/-- Evaluation of remove on an evictable tracked frame. -/
theorem remove_eval_some (r : LruReplacer) (f : Nat) (n : LruNode)
    (hl : alookup r.node_store f = some n) (hev : n.is_evictable = true) :
    r.remove f = .ok { r with node_store := aerase r.node_store f
                              evictable_count := r.evictable_count - 1 } := by
  unfold LruReplacer.remove
  simp only [hl, hev, if_true]

theorem remove_eval_some_pinned (r : LruReplacer) (f : Nat) (n : LruNode)
    (hl : alookup r.node_store f = some n) (hev : n.is_evictable = false) :
    r.remove f =
      .error (.Panic "replacer remoev should only be called on evictable frame") := by
  unfold LruReplacer.remove
  simp only [hl, hev]
  simp

theorem remove_eval_none (r : LruReplacer) (f : Nat)
    (hl : alookup r.node_store f = none) : r.remove f = .ok r := by
  unfold LruReplacer.remove
  simp only [hl]

/-- Evaluation of tsOf on a tracked frame. -/
theorem tsOf_eval (r : LruReplacer) (f : Nat) (n : LruNode)
    (hl : alookup r.node_store f = some n) :
    r.tsOf f = n.last_accessed_timestamp := by
  unfold LruReplacer.tsOf
  simp only [hl]

theorem tsWF_aerase (store : List (Nat × LruNode)) (ec ec' ts : Nat) (g : Nat)
    (h : LruReplacer.tsWF ⟨store, ec, ts⟩) :
    LruReplacer.tsWF ⟨aerase store g, ec', ts⟩ := by
  obtain ⟨h1, h2, h3⟩ := h
  refine ⟨List.Nodup.sublist (keys_aerase_sublist store g) h1, ?_, ?_⟩
  · intro kn hm
    exact h2 kn (mem_aerase store g kn hm)
  · exact List.Nodup.sublist ((aerase_sublist store g).map _) h3

theorem tsWF_flip (r : LruReplacer) (f : Nat) (bval : Bool) (ec' : Nat)
    (h : r.tsWF) :
    LruReplacer.tsWF ⟨amodify r.node_store f (fun n => { n with is_evictable := bval }),
      ec', r.current_timestamp⟩ := by
  obtain ⟨h1, h2, h3⟩ := h
  refine ⟨?_, ?_, ?_⟩
  · have hres : (tableKeys (amodify r.node_store f
        (fun n => { n with is_evictable := bval }))).Nodup := by
      rw [tableKeys_amodify]
      exact h1
    exact hres
  · intro kn hm
    simp only at hm
    rcases mem_amodify _ _ _ kn hm with ⟨hm', _⟩ | ⟨w, hw, rfl⟩
    · exact h2 kn hm'
    · have := h2 (f, w) hw
      simp only at this ⊢
      exact ⟨this.1, this.2⟩
  · have hres : ((amodify r.node_store f
        (fun n => { n with is_evictable := bval })).map
        (fun kn => kn.2.last_accessed_timestamp)).Nodup := by
      rw [amodify_map_eq _ _ _ _ (fun kv => rfl)]
      exact h3
    exact hres

theorem tsWF_record_access (r : LruReplacer) (f : Nat) (hwf : r.tsWF) :
    (r.record_access f).tsWF ∧
    r.current_timestamp < (r.record_access f).current_timestamp ∧
    (∀ kn ∈ r.node_store,
      kn.2.last_accessed_timestamp < (r.record_access f).tsOf f) := by
  obtain ⟨h1, h2, h3⟩ := hwf
  cases hl : alookup r.node_store f with
  | some n0 =>
    rw [record_access_some_eq r f n0 hl]
    refine ⟨⟨?_, ?_, ?_⟩, ?_, ?_⟩
    · have hres : (tableKeys (amodify r.node_store f
          (fun n => { n with last_accessed_timestamp := r.current_timestamp }))).Nodup := by
        rw [tableKeys_amodify]
        exact h1
      exact hres
    · intro kn hm
      simp only at hm
      rcases mem_amodify _ _ _ kn hm with ⟨hm', _⟩ | ⟨w, hw, rfl⟩
      · have := h2 kn hm'
        refine ⟨this.1, ?_⟩
        show kn.2.last_accessed_timestamp < r.current_timestamp + 1
        omega
      · have := h2 (f, w) hw
        simp only at this ⊢
        exact ⟨this.1, by omega⟩
    · exact ts_nodup_amodify r.node_store f r.current_timestamp h1
        (fun kn hm => (h2 kn hm).2) h3
    · show r.current_timestamp < r.current_timestamp + 1
      omega
    · intro kn hm
      have hl' : alookup (amodify r.node_store f
          (fun n => { n with last_accessed_timestamp := r.current_timestamp })) f =
          some { n0 with last_accessed_timestamp := r.current_timestamp } := by
        rw [alookup_amodify_self, hl]
        rfl
      rw [tsOf_eval _ f _ hl']
      exact (h2 kn hm).2
  | none =>
    rw [record_access_none_eq r f hl]
    have hf0 : f ∉ tableKeys r.node_store := (alookup_eq_none _ _).mp hl
    refine ⟨⟨?_, ?_, ?_⟩, ?_, ?_⟩
    · show (tableKeys (r.node_store ++ _)).Nodup
      unfold tableKeys
      rw [List.map_append, List.nodup_append]
      refine ⟨h1, by simp, ?_⟩
      intro a ha hb
      simp only [List.map_cons, List.map_nil, List.mem_singleton] at hb
      subst hb
      exact hf0 ha
    · intro kn hm
      simp only at hm
      rcases List.mem_append.mp hm with hm' | hm'
      · have := h2 kn hm'
        simp only
        exact ⟨this.1, by omega⟩
      · simp only [List.mem_singleton] at hm'
        subst hm'
        exact ⟨rfl, Nat.lt.base _⟩
    · show ((r.node_store ++ _).map _).Nodup
      rw [List.map_append, List.nodup_append]
      refine ⟨h3, by simp, ?_⟩
      intro a ha hb
      simp only [List.map_cons, List.map_nil, List.mem_singleton] at hb
      subst hb
      rw [List.mem_map] at ha
      obtain ⟨kn, hm, he⟩ := ha
      have := (h2 kn hm).2
      omega
    · show r.current_timestamp < r.current_timestamp + 2
      omega
    · intro kn hm
      have hl' : alookup (r.node_store ++
          [(f, { frame_id := f, is_evictable := true
                 last_accessed_timestamp := r.current_timestamp + 1 })]) f =
          some { frame_id := f, is_evictable := true
                 last_accessed_timestamp := r.current_timestamp + 1 } :=
        alookup_append_not_mem _ _ _ hl
      rw [tsOf_eval _ f _ hl']
      have := (h2 kn hm).2
      simp only
      omega

/-- C3: over well-formed replacer states (which record_access
establishes and every operation preserves), evict returns None exactly
when no frame is evictable, and otherwise removes the evictable frame
whose timestamp is strictly smallest, decrementing the evictable count;
record_access hands out strictly increasing timestamps, making that
minimum unique. -/
theorem C3_lru_evict_minimum :
    LruReplacer.new.tsWF ∧
    (∀ r : LruReplacer, r.tsWF →
      (((r.evict).1 = none) ↔ (∀ f, r.evictableB f = false)) ∧
      ((∀ f, r.evictableB f = false) → r.evict = (none, r)) ∧
      (∀ g, (r.evict).1 = some g →
        r.evictableB g = true ∧
        (∀ x, r.evictableB x = true → x ≠ g → r.tsOf g < r.tsOf x) ∧
        (r.evict).2.node_store = aerase r.node_store g ∧
        alookup (r.evict).2.node_store g = none ∧
        (r.evict).2.evictable_count = r.evictable_count - 1) ∧
      (∀ f, (r.record_access f).tsWF ∧
        r.current_timestamp < (r.record_access f).current_timestamp ∧
        (∀ kn ∈ r.node_store,
          kn.2.last_accessed_timestamp < (r.record_access f).tsOf f)) ∧
      (∀ f, (r.pin f).tsWF) ∧
      (∀ f, (r.unpin f).tsWF) ∧
      (r.evict).2.tsWF ∧
      (∀ f r', r.remove f = .ok r' → r'.tsWF)) := by
  have hnone_iff : ∀ r : LruReplacer, r.tsWF →
      (r.evictCandidate = none ↔ ∀ f, r.evictableB f = false) := by
    intro r hwf
    obtain ⟨h1, h2, h3⟩ := hwf
    constructor
    · intro h f
      unfold LruReplacer.evictCandidate at h
      cases hmb : minByTimestamp (r.node_store.filter (fun kv => kv.2.is_evictable)) with
      | some n =>
        rw [hmb] at h
        simp at h
      | none =>
        have hfil := (minByTimestamp_none_iff _).mp hmb
        unfold LruReplacer.evictableB
        cases hlx : alookup r.node_store f with
        | none => rfl
        | some nx =>
          have hxmem := alookup_mem _ _ _ hlx
          by_cases hev : nx.is_evictable = true
          · exfalso
            have hmem : (f, nx) ∈ r.node_store.filter (fun kv => kv.2.is_evictable) := by
              rw [List.mem_filter]
              refine ⟨hxmem, ?_⟩
              simpa using hev
            rw [hfil] at hmem
            simp at hmem
          · show nx.is_evictable = false
            simpa using hev
    · intro h
      have hfil : r.node_store.filter (fun kv => kv.2.is_evictable) = [] := by
        rw [List.filter_eq_nil_iff]
        intro kv hm
        have hlk : alookup r.node_store kv.1 = some kv.2 := by
          apply mem_alookup _ _ _ h1
          exact hm
        have hb : kv.2.is_evictable = false := by
          have h' := h kv.1
          unfold LruReplacer.evictableB at h'
          rw [hlk] at h'
          exact h'
        simp [hb]
      unfold LruReplacer.evictCandidate
      rw [hfil]
      rfl
  constructor
  · exact ⟨by simp [LruReplacer.new, tableKeys], by simp [LruReplacer.new],
      by simp [LruReplacer.new]⟩
  · intro r hwf
    have hev_iff : (r.evict).1 = none ↔ r.evictCandidate = none := by
      unfold LruReplacer.evict
      cases hc : r.evictCandidate with
      | none => simp
      | some g => simp
    refine ⟨?_, ?_, ?_, fun f => tsWF_record_access r f hwf, ?_, ?_, ?_, ?_⟩
    · rw [hev_iff]
      exact hnone_iff r hwf
    · intro h
      unfold LruReplacer.evict
      rw [(hnone_iff r hwf).mpr h]
    · intro g hg
      unfold LruReplacer.evict at hg ⊢
      cases hc : r.evictCandidate with
      | none =>
        rw [hc] at hg
        simp at hg
      | some g' =>
        rw [hc] at hg
        simp only [Option.some.injEq] at hg
        subst hg
        obtain ⟨hev, hmin⟩ := evictCandidate_spec r g' hwf hc
        refine ⟨hev, hmin, rfl, ?_, rfl⟩
        exact alookup_aerase_self _ _ hwf.1
    · intro f
      cases hl : alookup r.node_store f with
      | none =>
        rw [pin_eval_none r f hl]
        exact hwf
      | some n =>
        rw [pin_eval_some r f n hl]
        by_cases hev : n.is_evictable = true
        · rw [if_pos hev]
          exact tsWF_flip r f false _ hwf
        · rw [if_neg hev]
          exact hwf
    · intro f
      cases hl : alookup r.node_store f with
      | none =>
        rw [unpin_eval_none r f hl]
        exact hwf
      | some n =>
        rw [unpin_eval_some r f n hl]
        by_cases hev : n.is_evictable = true
        · rw [if_pos hev]
          exact hwf
        · rw [if_neg hev]
          exact tsWF_flip r f true _ hwf
    · unfold LruReplacer.evict
      cases hc : r.evictCandidate with
      | none => exact hwf
      | some g =>
        simp only
        obtain ⟨rn, re, rt⟩ := r
        exact tsWF_aerase rn re _ rt g hwf
    · intro f r' hr
      cases hl : alookup r.node_store f with
      | none =>
        rw [remove_eval_none r f hl] at hr
        injection hr with hr
        subst hr
        exact hwf
      | some n =>
        by_cases hev : n.is_evictable = true
        · rw [remove_eval_some r f n hl hev] at hr
          injection hr with hr
          subst hr
          obtain ⟨rn, re, rt⟩ := r
          exact tsWF_aerase rn re _ rt f hwf
        · rw [remove_eval_some_pinned r f n hl (by simpa using hev)] at hr
          exact Except.noConfusion hr

/-- Witness for C3: record_access keeps a concrete two-node replacer
state well formed. -/
theorem C3_lru_evict_minimum_witness :
    (LruReplacer.record_access
      { node_store := [(0, { frame_id := 0, is_evictable := true
                             last_accessed_timestamp := 0 }),
                       (1, { frame_id := 1, is_evictable := false
                             last_accessed_timestamp := 1 })]
        evictable_count := 1, current_timestamp := 2 } 7).tsWF :=
  ((C3_lru_evict_minimum.2
    { node_store := [(0, { frame_id := 0, is_evictable := true
                           last_accessed_timestamp := 0 }),
                     (1, { frame_id := 1, is_evictable := false
                           last_accessed_timestamp := 1 })]
      evictable_count := 1, current_timestamp := 2 }
    (by decide)).2.2.2.1 7).1

end RustSqlSpec

namespace RustSqlSpec

/-! ## Page-level lemmas for reads not consulting the deleted flag (C9) -/

theorem validate_ok (p : TablePage) (rid : RecordId)
    (hpid : rid.page_id = p.page_id) (hs : rid.slot_id < p.tupleCount) :
    p.validate_record_id rid = .ok () := by
  unfold TablePage.validate_record_id
  rw [if_neg]
  push_neg
  exact ⟨hpid, hs⟩

/-- get_tuple on a valid in-bounds slot returns the stored metadata and
bytes, regardless of the value of the deleted flag. -/
theorem get_tuple_ok (p : TablePage) (rid : RecordId)
    (hpid : rid.page_id = p.page_id) (hs : rid.slot_id < p.tupleCount)
    (hb : p.slotArrayInBounds)
    (hr : (p.slot rid.slot_id).offset + (p.slot rid.slot_id).size_bytes ≤ PAGE_SIZE) :
    p.get_tuple rid = .ok ((p.slot rid.slot_id).metadata,
      readBytes p.data (p.slot rid.slot_id).offset (p.slot rid.slot_id).size_bytes) := by
  unfold TablePage.get_tuple
  simp only [validate_ok p rid hpid hs]
  rw [dif_neg (not_not_intro hb)]
  rw [if_neg (by omega)]

/-- update_tuple_metadata on a valid slot overwrites exactly the two
metadata bytes of that slot. -/
theorem update_meta_spec (p : TablePage) (rid : RecordId) (m : TupleMetadata)
    (hpid : rid.page_id = p.page_id) (hs : rid.slot_id < p.tupleCount)
    (hb : p.slotArrayInBounds) :
    p.update_tuple_metadata rid m = .ok
      { page_id := p.page_id
        data := writeBytes p.data (slotPos rid.slot_id + 4) [m.is_deleted, m.padding] } := by
  unfold TablePage.update_tuple_metadata
  simp only [validate_ok p rid hpid hs]
  rw [dif_neg (not_not_intro hb)]

theorem tupleCount_after_metaWrite (p : TablePage) (s x y : Nat) :
    TablePage.tupleCount ⟨p.page_id, writeBytes p.data (slotPos s + 4) [x, y]⟩ =
      p.tupleCount := by
  unfold TablePage.tupleCount
  exact readU16_skip _ _ _ _ (Or.inr (by
    simp only [slotPos, TABLE_PAGE_HEADER_SIZE, TUPLE_INFO_SIZE]
    omega))

theorem nextPageId_after_metaWrite (p : TablePage) (s x y : Nat) :
    TablePage.nextPageId ⟨p.page_id, writeBytes p.data (slotPos s + 4) [x, y]⟩ =
      p.nextPageId := by
  unfold TablePage.nextPageId
  exact readU64_skip _ _ _ _ (Or.inr (by
    simp only [slotPos, TABLE_PAGE_HEADER_SIZE, TUPLE_INFO_SIZE]
    omega))

/-- Overwriting the metadata bytes of slot s rewrites that slot's
metadata and leaves every other slot component untouched. -/
theorem slot_after_metaWrite (p : TablePage) (s x y i : Nat) :
    TablePage.slot ⟨p.page_id, writeBytes p.data (slotPos s + 4) [x, y]⟩ i =
      if i = s then
        { offset := (p.slot i).offset, size_bytes := (p.slot i).size_bytes
          metadata := { is_deleted := x % 256, padding := y % 256 } }
      else p.slot i := by
  have hoff : readU16 (writeBytes p.data (slotPos s + 4) [x, y]) (slotPos i) =
      readU16 p.data (slotPos i) := by
    rcases Nat.lt_or_ge s i with h | h
    · exact readU16_skip _ _ _ _ (Or.inl (by
        simp only [slotPos, TABLE_PAGE_HEADER_SIZE, TUPLE_INFO_SIZE, List.length_cons,
          List.length_nil]
        omega))
    · exact readU16_skip _ _ _ _ (Or.inr (by
        simp only [slotPos, TABLE_PAGE_HEADER_SIZE, TUPLE_INFO_SIZE]
        omega))
  have hsize : readU16 (writeBytes p.data (slotPos s + 4) [x, y]) (slotPos i + 2) =
      readU16 p.data (slotPos i + 2) := by
    rcases Nat.lt_or_ge s i with h | h
    · exact readU16_skip _ _ _ _ (Or.inl (by
        simp only [slotPos, TABLE_PAGE_HEADER_SIZE, TUPLE_INFO_SIZE, List.length_cons,
          List.length_nil]
        omega))
    · exact readU16_skip _ _ _ _ (Or.inr (by
        simp only [slotPos, TABLE_PAGE_HEADER_SIZE, TUPLE_INFO_SIZE]
        omega))
  by_cases hi : i = s
  · subst hi
    rw [if_pos rfl]
    unfold TablePage.slot
    simp only
    rw [hoff, hsize]
    have hdel : byteAt (writeBytes p.data (slotPos i + 4) [x, y]) (slotPos i + 4) =
        x % 256 := by
      have := byteAt_writeBytes_inside [x, y] p.data (slotPos i + 4) 0 (by simp)
      simpa using this
    have hpad : byteAt (writeBytes p.data (slotPos i + 4) [x, y]) (slotPos i + 5) =
        y % 256 := by
      have := byteAt_writeBytes_inside [x, y] p.data (slotPos i + 4) 1 (by simp)
      rw [show slotPos i + 4 + 1 = slotPos i + 5 by omega] at this
      simpa using this
    rw [hdel, hpad]
  · rw [if_neg hi]
    unfold TablePage.slot
    simp only
    rw [hoff, hsize]
    have hdel : byteAt (writeBytes p.data (slotPos s + 4) [x, y]) (slotPos i + 4) =
        byteAt p.data (slotPos i + 4) := by
      rcases Nat.lt_or_ge i s with h | h
      · exact byteAt_skip _ _ _ _ (Or.inr (by
          simp only [slotPos, TABLE_PAGE_HEADER_SIZE, TUPLE_INFO_SIZE]
          omega))
      · have h' : s < i := by omega
        exact byteAt_skip _ _ _ _ (Or.inl (by
          simp only [slotPos, TABLE_PAGE_HEADER_SIZE, TUPLE_INFO_SIZE, List.length_cons,
            List.length_nil]
          omega))
    have hpad : byteAt (writeBytes p.data (slotPos s + 4) [x, y]) (slotPos i + 5) =
        byteAt p.data (slotPos i + 5) := by
      rcases Nat.lt_or_ge i s with h | h
      · exact byteAt_skip _ _ _ _ (Or.inr (by
          simp only [slotPos, TABLE_PAGE_HEADER_SIZE, TUPLE_INFO_SIZE]
          omega))
      · have h' : s < i := by omega
        exact byteAt_skip _ _ _ _ (Or.inl (by
          simp only [slotPos, TABLE_PAGE_HEADER_SIZE, TUPLE_INFO_SIZE, List.length_cons,
            List.length_nil]
          omega))
    rw [hdel, hpad]

/-- Tuple data stored past the slot array is untouched by a slot
metadata write. -/
theorem readBytes_after_metaWrite (p : TablePage) (s x y o n : Nat)
    (h : slotPos (s + 1) ≤ o) :
    readBytes (writeBytes p.data (slotPos s + 4) [x, y]) o n =
      readBytes p.data o n :=
  readBytes_skip _ _ _ _ _ (Or.inl (by
    simp only [slotPos, TABLE_PAGE_HEADER_SIZE, TUPLE_INFO_SIZE, List.length_cons,
      List.length_nil] at h ⊢
    omega))

theorem slotPos_le_slotPos {i j : Nat} (h : i ≤ j) : slotPos i ≤ slotPos j := by
  simp only [slotPos, TABLE_PAGE_HEADER_SIZE, TUPLE_INFO_SIZE]
  omega

/-! ## Frame-array indexing lemmas -/

theorem getD_set_self {α : Type} (l : List α) (i : Nat) (a dres : α)
    (h : i < l.length) : (l.set i a).getD i dres = a := by
  induction l generalizing i with
  | nil => simp at h
  | cons x xs ih =>
    cases i with
    | zero => rfl
    | succ n => exact ih n (by simpa using h)

theorem getD_set_ne {α : Type} (l : List α) (i j : Nat) (a dres : α)
    (h : j ≠ i) : (l.set i a).getD j dres = l.getD j dres := by
  induction l generalizing i j with
  | nil => rfl
  | cons x xs ih =>
    cases i with
    | zero =>
      cases j with
      | zero => exact absurd rfl h
      | succ m => rfl
    | succ n =>
      cases j with
      | zero => rfl
      | succ m => exact ih n m (fun he => h (by rw [he]))

theorem getFrame_set_self (frames : List PageFrame) (i : Nat) (f : PageFrame)
    (h : i < frames.length) : getFrame (frames.set i f) i = f :=
  getD_set_self frames i f PageFrame.new h

theorem getFrame_set_ne (frames : List PageFrame) (i j : Nat) (f : PageFrame)
    (h : j ≠ i) : getFrame (frames.set i f) j = getFrame frames j :=
  getD_set_ne frames i j f PageFrame.new h

/-! ## Buffer pool operation evaluation lemmas -/

/-- fetch_page_mut on a resident page: pin count up, replacer touched,
everything else unchanged. -/
theorem fetch_hit_eq (b : BufferPoolManager) (pid fid : Nat)
    (h : alookup b.page_table pid = some fid) :
    b.fetch_page_mut pid = (.ok fid,
      { b with
        frames := b.frames.set fid
          { getFrame b.frames fid with pin_cnt := (getFrame b.frames fid).pin_cnt + 1 }
        replacer := (b.replacer.record_access fid).pin fid }) := by
  unfold BufferPoolManager.fetch_page_mut
  simp only [h]

/-- unpin_page on a resident page with a positive pin count succeeds and
changes only the frame's dirty bit and pin count (and the replacer). -/
theorem unpin_ok_spec (b : BufferPoolManager) (pid fid : Nat) (dirty : Bool)
    (h : alookup b.page_table pid = some fid)
    (hp : (getFrame b.frames fid).pin_cnt ≠ 0) :
    ∃ b1 : BufferPoolManager, b.unpin_page pid dirty = (.ok (), b1) ∧
      b1.page_table = b.page_table ∧
      b1.disk_manager = b.disk_manager ∧
      b1.free_list = b.free_list ∧
      b1.frames = b.frames.set fid
        { getFrame b.frames fid with
          is_dirty := if dirty then true else (getFrame b.frames fid).is_dirty
          pin_cnt := (getFrame b.frames fid).pin_cnt - 1 } := by
  unfold BufferPoolManager.unpin_page
  simp only [h]
  cases dirty with
  | false =>
    simp only [if_neg (Bool.false_ne_true)]
    rw [if_neg hp]
    by_cases hz : (getFrame b.frames fid).pin_cnt - 1 = 0
    · rw [if_pos hz]
      exact ⟨_, rfl, rfl, rfl, rfl, rfl⟩
    · rw [if_neg hz]
      exact ⟨_, rfl, rfl, rfl, rfl, rfl⟩
  | true =>
    simp only [eq_self_iff_true, if_true]
    have hp1 : ({ getFrame b.frames fid with is_dirty := true } : PageFrame).pin_cnt ≠ 0 :=
      hp
    rw [if_neg hp1]
    by_cases hz : ({ getFrame b.frames fid with is_dirty := true } : PageFrame).pin_cnt - 1 = 0
    · rw [if_pos hz]
      exact ⟨_, rfl, rfl, rfl, rfl, rfl⟩
    · rw [if_neg hz]
      exact ⟨_, rfl, rfl, rfl, rfl, rfl⟩

end RustSqlSpec

namespace RustSqlSpec

/-- Unfolding of TableHeap::get_tuple along given fetch and unpin
behaviour. -/
theorem heap_get_eval (th : TableHeap) (b bf b2 : BufferPoolManager) (rid : RecordId)
    (fid : Nat)
    (hfetch : b.fetch_page rid.page_id = (.ok fid, bf))
    (hunp : bf.unpin_page (getFrame bf.frames fid).page_id false = (.ok (), b2)) :
    th.get_tuple b rid = ((pageOfFrame (getFrame bf.frames fid)).get_tuple rid, b2) := by
  unfold TableHeap.get_tuple
  simp only [hfetch, hunp]

/-- TableHeap::get_tuple on a resident page returns the page-level
get_tuple result and leaves page table, disk, free list and every
frame's page id, data and pin count unchanged. -/
theorem heap_get_hit (th : TableHeap) (b : BufferPoolManager) (rid : RecordId) (fid : Nat)
    (hl : alookup b.page_table rid.page_id = some fid)
    (hfl : fid < b.frames.length)
    (hpid : (getFrame b.frames fid).page_id = rid.page_id) :
    ∃ b1 : BufferPoolManager,
      th.get_tuple b rid = ((pageOfFrame (getFrame b.frames fid)).get_tuple rid, b1) ∧
      b1.page_table = b.page_table ∧
      b1.disk_manager = b.disk_manager ∧
      b1.free_list = b.free_list ∧
      b1.frames.length = b.frames.length ∧
      (∀ j, (getFrame b1.frames j).page_id = (getFrame b.frames j).page_id) ∧
      (∀ j, (getFrame b1.frames j).data = (getFrame b.frames j).data) ∧
      (∀ j, (getFrame b1.frames j).pin_cnt = (getFrame b.frames j).pin_cnt) := by
  have hfetch := fetch_hit_eq b rid.page_id fid hl
  have hgf1 : getFrame (b.frames.set fid
      { getFrame b.frames fid with pin_cnt := (getFrame b.frames fid).pin_cnt + 1 }) fid =
      { getFrame b.frames fid with pin_cnt := (getFrame b.frames fid).pin_cnt + 1 } :=
    getFrame_set_self _ _ _ hfl
  have hf1pid : ({ getFrame b.frames fid with
      pin_cnt := (getFrame b.frames fid).pin_cnt + 1 } : PageFrame).page_id =
      rid.page_id := hpid
  have hl2 : alookup ({ b with
      frames := b.frames.set fid
        { getFrame b.frames fid with pin_cnt := (getFrame b.frames fid).pin_cnt + 1 }
      replacer := (b.replacer.record_access fid).pin fid } :
        BufferPoolManager).page_table rid.page_id = some fid := hl
  have hp2 : (getFrame ({ b with
      frames := b.frames.set fid
        { getFrame b.frames fid with pin_cnt := (getFrame b.frames fid).pin_cnt + 1 }
      replacer := (b.replacer.record_access fid).pin fid } :
        BufferPoolManager).frames fid).pin_cnt ≠ 0 := by
    show (getFrame (b.frames.set fid
      { getFrame b.frames fid with pin_cnt := (getFrame b.frames fid).pin_cnt + 1 })
        fid).pin_cnt ≠ 0
    rw [hgf1]
    exact Nat.succ_ne_zero _
  obtain ⟨b2, hunp, hpt, hdm, hfls, hfr⟩ :=
    unpin_ok_spec
      { b with
        frames := b.frames.set fid
          { getFrame b.frames fid with pin_cnt := (getFrame b.frames fid).pin_cnt + 1 }
        replacer := (b.replacer.record_access fid).pin fid }
      rid.page_id fid false hl2 hp2
  have hflBF : fid < (({ b with
      frames := b.frames.set fid
        { getFrame b.frames fid with pin_cnt := (getFrame b.frames fid).pin_cnt + 1 }
      replacer := (b.replacer.record_access fid).pin fid } :
        BufferPoolManager).frames).length := by
    show fid < (b.frames.set fid
      { getFrame b.frames fid with pin_cnt := (getFrame b.frames fid).pin_cnt + 1 }).length
    rw [List.length_set]
    exact hfl
  have harg : (getFrame ({ b with
      frames := b.frames.set fid
        { getFrame b.frames fid with pin_cnt := (getFrame b.frames fid).pin_cnt + 1 }
      replacer := (b.replacer.record_access fid).pin fid } :
        BufferPoolManager).frames fid).page_id = rid.page_id := by
    show (getFrame (b.frames.set fid
      { getFrame b.frames fid with pin_cnt := (getFrame b.frames fid).pin_cnt + 1 })
        fid).page_id = rid.page_id
    rw [hgf1]
    exact hpid
  have hunpS : ({ b with
      frames := b.frames.set fid
        { getFrame b.frames fid with pin_cnt := (getFrame b.frames fid).pin_cnt + 1 }
      replacer := (b.replacer.record_access fid).pin fid } :
        BufferPoolManager).unpin_page
      (getFrame ({ b with
        frames := b.frames.set fid
          { getFrame b.frames fid with pin_cnt := (getFrame b.frames fid).pin_cnt + 1 }
        replacer := (b.replacer.record_access fid).pin fid } :
          BufferPoolManager).frames fid).page_id false = (.ok (), b2) := by
    rw [harg]
    exact hunp
  have hpov : pageOfFrame (getFrame ({ b with
      frames := b.frames.set fid
        { getFrame b.frames fid with pin_cnt := (getFrame b.frames fid).pin_cnt + 1 }
      replacer := (b.replacer.record_access fid).pin fid } :
        BufferPoolManager).frames fid) = pageOfFrame (getFrame b.frames fid) := by
    show pageOfFrame (getFrame (b.frames.set fid
      { getFrame b.frames fid with pin_cnt := (getFrame b.frames fid).pin_cnt + 1 })
        fid) = pageOfFrame (getFrame b.frames fid)
    rw [hgf1]
    rfl
  have hmain := heap_get_eval th b
    { b with
      frames := b.frames.set fid
        { getFrame b.frames fid with pin_cnt := (getFrame b.frames fid).pin_cnt + 1 }
      replacer := (b.replacer.record_access fid).pin fid }
    b2 rid fid (by exact hfetch) hunpS
  rw [hpov] at hmain
  refine ⟨b2, hmain, ?_, ?_, ?_, ?_, ?_, ?_, ?_⟩
  · exact hpt
  · exact hdm
  · exact hfls
  · rw [hfr, List.length_set]
    show (b.frames.set fid
      { getFrame b.frames fid with pin_cnt := (getFrame b.frames fid).pin_cnt + 1 }).length =
      b.frames.length
    rw [List.length_set]
  · intro j
    rw [hfr]
    by_cases hj : j = fid
    · subst hj
      rw [getFrame_set_self _ _ _ hflBF]
      show (getFrame (b.frames.set j
        { getFrame b.frames j with pin_cnt := (getFrame b.frames j).pin_cnt + 1 })
          j).page_id = (getFrame b.frames j).page_id
      rw [getFrame_set_self _ _ _ hfl]
    · rw [getFrame_set_ne _ _ _ _ hj]
      show (getFrame (b.frames.set fid
        { getFrame b.frames fid with pin_cnt := (getFrame b.frames fid).pin_cnt + 1 })
          j).page_id = (getFrame b.frames j).page_id
      rw [getFrame_set_ne _ _ _ _ hj]
  · intro j
    rw [hfr]
    by_cases hj : j = fid
    · subst hj
      rw [getFrame_set_self _ _ _ hflBF]
      show (getFrame (b.frames.set j
        { getFrame b.frames j with pin_cnt := (getFrame b.frames j).pin_cnt + 1 })
          j).data = (getFrame b.frames j).data
      rw [getFrame_set_self _ _ _ hfl]
    · rw [getFrame_set_ne _ _ _ _ hj]
      show (getFrame (b.frames.set fid
        { getFrame b.frames fid with pin_cnt := (getFrame b.frames fid).pin_cnt + 1 })
          j).data = (getFrame b.frames j).data
      rw [getFrame_set_ne _ _ _ _ hj]
  · intro j
    rw [hfr]
    by_cases hj : j = fid
    · subst hj
      rw [getFrame_set_self _ _ _ hflBF]
      show (getFrame (b.frames.set j
        { getFrame b.frames j with pin_cnt := (getFrame b.frames j).pin_cnt + 1 })
          j).pin_cnt - 1 = (getFrame b.frames j).pin_cnt
      rw [getFrame_set_self _ _ _ hfl]
      show (getFrame b.frames j).pin_cnt + 1 - 1 = (getFrame b.frames j).pin_cnt
      omega
    · rw [getFrame_set_ne _ _ _ _ hj]
      show (getFrame (b.frames.set fid
        { getFrame b.frames fid with pin_cnt := (getFrame b.frames fid).pin_cnt + 1 })
          j).pin_cnt = (getFrame b.frames j).pin_cnt
      rw [getFrame_set_ne _ _ _ _ hj]

end RustSqlSpec

namespace RustSqlSpec

/-- Unfolding of TableHeap::delete_tuple along given behaviour of its
four steps. -/
theorem heap_delete_eval (th : TableHeap) (b b1 b2 b4 : BufferPoolManager)
    (rid : RecordId) (fid : Nat) (old : TupleMetadata × List Nat) (page1 : TablePage)
    (hget : th.get_tuple b rid = (.ok old, b1))
    (hfetch : b1.fetch_page_mut rid.page_id = (.ok fid, b2))
    (hupd : (pageOfFrame (getFrame b2.frames fid)).update_tuple_metadata rid
      (old.1.set_deleted true) = .ok page1)
    (hunp : ({ b2 with
        frames := b2.frames.set fid
          { getFrame b2.frames fid with data := page1.data } } :
          BufferPoolManager).unpin_page
        (getFrame b2.frames fid).page_id true = (.ok (), b4)) :
    th.delete_tuple b rid = (.ok old, b4) := by
  unfold TableHeap.delete_tuple
  simp only [hget, hfetch, hupd, hunp]

/-- TableHeap::delete_tuple on a resident, in-bounds record id returns
the pre-delete metadata and tuple bytes, and its only effect on the
page data is overwriting the slot's two metadata bytes with the deleted
flag. -/
theorem heap_delete_spec (th : TableHeap) (b : BufferPoolManager) (rid : RecordId)
    (fid : Nat)
    (hl : alookup b.page_table rid.page_id = some fid)
    (hfl : fid < b.frames.length)
    (hpid : (getFrame b.frames fid).page_id = rid.page_id)
    (hs : rid.slot_id < (pageOfFrame (getFrame b.frames fid)).tupleCount)
    (hb : (pageOfFrame (getFrame b.frames fid)).slotArrayInBounds)
    (hr : ((pageOfFrame (getFrame b.frames fid)).slot rid.slot_id).offset +
      ((pageOfFrame (getFrame b.frames fid)).slot rid.slot_id).size_bytes ≤ PAGE_SIZE) :
    ∃ b4 : BufferPoolManager,
      th.delete_tuple b rid = (.ok
        (((pageOfFrame (getFrame b.frames fid)).slot rid.slot_id).metadata,
         readBytes (getFrame b.frames fid).data
           ((pageOfFrame (getFrame b.frames fid)).slot rid.slot_id).offset
           ((pageOfFrame (getFrame b.frames fid)).slot rid.slot_id).size_bytes), b4) ∧
      b4.page_table = b.page_table ∧
      b4.disk_manager = b.disk_manager ∧
      b4.free_list = b.free_list ∧
      b4.frames.length = b.frames.length ∧
      (∀ j, (getFrame b4.frames j).page_id = (getFrame b.frames j).page_id) ∧
      (∀ j, (getFrame b4.frames j).pin_cnt = (getFrame b.frames j).pin_cnt) ∧
      (∀ j, j ≠ fid → (getFrame b4.frames j).data = (getFrame b.frames j).data) ∧
      (getFrame b4.frames fid).data =
        writeBytes (getFrame b.frames fid).data (slotPos rid.slot_id + 4)
          [1, ((pageOfFrame (getFrame b.frames fid)).slot rid.slot_id).metadata.padding] := by
  obtain ⟨b1, hget1, hpt1, hdm1, hfls1, hlen1, hpg1, hdat1, hpin1⟩ :=
    heap_get_hit th b rid fid hl hfl hpid
  have hgt : (pageOfFrame (getFrame b.frames fid)).get_tuple rid = .ok
      (((pageOfFrame (getFrame b.frames fid)).slot rid.slot_id).metadata,
       readBytes (getFrame b.frames fid).data
         ((pageOfFrame (getFrame b.frames fid)).slot rid.slot_id).offset
         ((pageOfFrame (getFrame b.frames fid)).slot rid.slot_id).size_bytes) :=
    get_tuple_ok _ rid hpid.symm hs hb hr
  rw [hgt] at hget1
  have hfl1 : fid < b1.frames.length := by rw [hlen1]; exact hfl
  have hl1 : alookup b1.page_table rid.page_id = some fid := by rw [hpt1]; exact hl
  set F1 : PageFrame :=
    { getFrame b1.frames fid with pin_cnt := (getFrame b1.frames fid).pin_cnt + 1 }
    with hF1def
  set B2 : BufferPoolManager :=
    { b1 with frames := b1.frames.set fid F1,
              replacer := (b1.replacer.record_access fid).pin fid } with hB2def
  have hfetch2 : b1.fetch_page_mut rid.page_id = (.ok fid, B2) :=
    fetch_hit_eq b1 rid.page_id fid hl1
  have hgf2 : getFrame B2.frames fid = F1 := by
    show getFrame (b1.frames.set fid F1) fid = F1
    exact getFrame_set_self _ _ _ hfl1
  have hpeq : pageOfFrame (getFrame B2.frames fid) =
      pageOfFrame (getFrame b.frames fid) := by
    rw [hgf2]
    show pageOfFrame (getFrame b1.frames fid) = pageOfFrame (getFrame b.frames fid)
    unfold pageOfFrame
    rw [hpg1 fid, hdat1 fid]
  set mdel : TupleMetadata :=
    (((pageOfFrame (getFrame b.frames fid)).slot rid.slot_id).metadata).set_deleted true
    with hmdel
  set page1 : TablePage :=
    { page_id := (pageOfFrame (getFrame b.frames fid)).page_id
      data := writeBytes (getFrame b.frames fid).data (slotPos rid.slot_id + 4)
        [mdel.is_deleted, mdel.padding] } with hpage1
  have hupd : (pageOfFrame (getFrame B2.frames fid)).update_tuple_metadata rid mdel =
      .ok page1 := by
    rw [hpeq]
    exact update_meta_spec _ rid mdel hpid.symm hs hb
  set FX : PageFrame := { getFrame B2.frames fid with data := page1.data } with hFX
  set B3 : BufferPoolManager := { B2 with frames := B2.frames.set fid FX } with hB3
  have hfl2 : fid < B2.frames.length := by
    show fid < (b1.frames.set fid F1).length
    rw [List.length_set]
    exact hfl1
  have hflB3 : fid < B3.frames.length := by
    show fid < (B2.frames.set fid FX).length
    rw [List.length_set]
    exact hfl2
  have hgf3 : getFrame B3.frames fid = FX := by
    show getFrame (B2.frames.set fid FX) fid = FX
    exact getFrame_set_self _ _ _ hfl2
  have hlk3 : alookup B3.page_table rid.page_id = some fid := hl1
  have hp3 : (getFrame B3.frames fid).pin_cnt ≠ 0 := by
    rw [hgf3]
    show (getFrame B2.frames fid).pin_cnt ≠ 0
    rw [hgf2]
    exact Nat.succ_ne_zero _
  obtain ⟨b4, hunp4, hpt4, hdm4, hfls4, hfr4⟩ :=
    unpin_ok_spec B3 rid.page_id fid true hlk3 hp3
  have hpidA : (getFrame B2.frames fid).page_id = rid.page_id := by
    rw [hgf2]
    show (getFrame b1.frames fid).page_id = rid.page_id
    rw [hpg1 fid]
    exact hpid
  have hunpS : B3.unpin_page (getFrame B2.frames fid).page_id true = (.ok (), b4) := by
    rw [hpidA]
    exact hunp4
  have hdel : th.delete_tuple b rid = (.ok
      (((pageOfFrame (getFrame b.frames fid)).slot rid.slot_id).metadata,
       readBytes (getFrame b.frames fid).data
         ((pageOfFrame (getFrame b.frames fid)).slot rid.slot_id).offset
         ((pageOfFrame (getFrame b.frames fid)).slot rid.slot_id).size_bytes), b4) :=
    heap_delete_eval th b b1 B2 b4 rid fid _ page1 hget1 hfetch2 hupd hunpS
  refine ⟨b4, hdel, ?_, ?_, ?_, ?_, ?_, ?_, ?_, ?_⟩
  · rw [show b4.page_table = b1.page_table from hpt4]
    exact hpt1
  · rw [show b4.disk_manager = b1.disk_manager from hdm4]
    exact hdm1
  · rw [show b4.free_list = b1.free_list from hfls4]
    exact hfls1
  · rw [hfr4, List.length_set]
    show (B2.frames.set fid FX).length = b.frames.length
    rw [List.length_set]
    show (b1.frames.set fid F1).length = b.frames.length
    rw [List.length_set]
    exact hlen1
  · intro j
    rw [hfr4]
    by_cases hj : j = fid
    · subst hj
      rw [getFrame_set_self _ _ _ hflB3]
      show (getFrame B3.frames j).page_id = (getFrame b.frames j).page_id
      rw [hgf3]
      show (getFrame B2.frames j).page_id = (getFrame b.frames j).page_id
      exact hpidA.trans hpid.symm
    · rw [getFrame_set_ne _ _ _ _ hj]
      show (getFrame (B2.frames.set fid FX) j).page_id = (getFrame b.frames j).page_id
      rw [getFrame_set_ne _ _ _ _ hj]
      show (getFrame (b1.frames.set fid F1) j).page_id = (getFrame b.frames j).page_id
      rw [getFrame_set_ne _ _ _ _ hj]
      exact hpg1 j
  · intro j
    rw [hfr4]
    by_cases hj : j = fid
    · subst hj
      rw [getFrame_set_self _ _ _ hflB3]
      show (getFrame B3.frames j).pin_cnt - 1 = (getFrame b.frames j).pin_cnt
      rw [hgf3]
      show (getFrame B2.frames j).pin_cnt - 1 = (getFrame b.frames j).pin_cnt
      rw [hgf2]
      show (getFrame b1.frames j).pin_cnt + 1 - 1 = (getFrame b.frames j).pin_cnt
      rw [hpin1 j]
      omega
    · rw [getFrame_set_ne _ _ _ _ hj]
      show (getFrame (B2.frames.set fid FX) j).pin_cnt = (getFrame b.frames j).pin_cnt
      rw [getFrame_set_ne _ _ _ _ hj]
      show (getFrame (b1.frames.set fid F1) j).pin_cnt = (getFrame b.frames j).pin_cnt
      rw [getFrame_set_ne _ _ _ _ hj]
      exact hpin1 j
  · intro j hj
    rw [hfr4]
    rw [getFrame_set_ne _ _ _ _ hj]
    show (getFrame (B2.frames.set fid FX) j).data = (getFrame b.frames j).data
    rw [getFrame_set_ne _ _ _ _ hj]
    show (getFrame (b1.frames.set fid F1) j).data = (getFrame b.frames j).data
    rw [getFrame_set_ne _ _ _ _ hj]
    exact hdat1 j
  · rw [hfr4]
    rw [getFrame_set_self _ _ _ hflB3]
    show (getFrame B3.frames fid).data =
      writeBytes (getFrame b.frames fid).data (slotPos rid.slot_id + 4)
        [1, ((pageOfFrame (getFrame b.frames fid)).slot rid.slot_id).metadata.padding]
    rw [hgf3]
    rfl

end RustSqlSpec

namespace RustSqlSpec

theorem slot_data_congr (p q : TablePage) (h : p.data = q.data) (i : Nat) :
    p.slot i = q.slot i := by
  unfold TablePage.slot
  rw [h]

/-- C9: logical deletion never blocks reads. A valid in-bounds slot
whose metadata carries the deleted flag is still returned by table-page
get_tuple as Ok with its stored bytes and is_deleted-true metadata
(the deleted check is commented out in the source); consequently
TableHeap::delete_tuple returns the pre-delete snapshot, and a second
delete_tuple of the same rid succeeds, returning the same bytes with
is_deleted-true metadata and leaving the slot deleted. -/
theorem C9_deleted_reads_not_blocked :
    (∀ (p : TablePage) (rid : RecordId),
      rid.page_id = p.page_id →
      rid.slot_id < p.tupleCount →
      p.slotArrayInBounds →
      (p.slot rid.slot_id).offset + (p.slot rid.slot_id).size_bytes ≤ PAGE_SIZE →
      (p.slot rid.slot_id).metadata.is_deleted ≠ 0 →
      (p.slot rid.slot_id).metadata.isDeleted = true ∧
      p.get_tuple rid = .ok ((p.slot rid.slot_id).metadata,
        readBytes p.data (p.slot rid.slot_id).offset (p.slot rid.slot_id).size_bytes)) ∧
    (∀ (th : TableHeap) (b : BufferPoolManager) (rid : RecordId) (fid : Nat),
      alookup b.page_table rid.page_id = some fid →
      fid < b.frames.length →
      (getFrame b.frames fid).page_id = rid.page_id →
      rid.slot_id < (pageOfFrame (getFrame b.frames fid)).tupleCount →
      (pageOfFrame (getFrame b.frames fid)).slotArrayInBounds →
      slotPos (pageOfFrame (getFrame b.frames fid)).tupleCount ≤
        ((pageOfFrame (getFrame b.frames fid)).slot rid.slot_id).offset →
      ((pageOfFrame (getFrame b.frames fid)).slot rid.slot_id).offset +
        ((pageOfFrame (getFrame b.frames fid)).slot rid.slot_id).size_bytes ≤ PAGE_SIZE →
      ∃ b4 b8 : BufferPoolManager, ∃ m2 : TupleMetadata,
        th.delete_tuple b rid = (.ok
          (((pageOfFrame (getFrame b.frames fid)).slot rid.slot_id).metadata,
           readBytes (getFrame b.frames fid).data
             ((pageOfFrame (getFrame b.frames fid)).slot rid.slot_id).offset
             ((pageOfFrame (getFrame b.frames fid)).slot rid.slot_id).size_bytes), b4) ∧
        th.delete_tuple b4 rid = (.ok
          (m2, readBytes (getFrame b.frames fid).data
             ((pageOfFrame (getFrame b.frames fid)).slot rid.slot_id).offset
             ((pageOfFrame (getFrame b.frames fid)).slot rid.slot_id).size_bytes), b8) ∧
        m2.isDeleted = true ∧
        ((pageOfFrame (getFrame b8.frames fid)).slot rid.slot_id).metadata.is_deleted
          = 1) := by
  constructor
  · intro p rid hpid hs hb hr hdel
    refine ⟨?_, get_tuple_ok p rid hpid hs hb hr⟩
    unfold TupleMetadata.isDeleted
    simpa using hdel
  · intro th b rid fid hl hfl hpid hs hb hoffArr hr
    obtain ⟨b4, hd1, hpt, hdm, hfls, hlen, hpg, hpin, hdato, hdatf⟩ :=
      heap_delete_spec th b rid fid hl hfl hpid hs hb hr
    have hl4 : alookup b4.page_table rid.page_id = some fid := by
      rw [hpt]; exact hl
    have hfl4 : fid < b4.frames.length := by rw [hlen]; exact hfl
    have hpid4 : (getFrame b4.frames fid).page_id = rid.page_id := by
      rw [hpg fid]; exact hpid
    have hteq : (pageOfFrame (getFrame b4.frames fid)).tupleCount =
        (pageOfFrame (getFrame b.frames fid)).tupleCount := by
      show readU16 (getFrame b4.frames fid).data 8 =
        readU16 (getFrame b.frames fid).data 8
      rw [hdatf]
      exact readU16_skip _ _ _ _ (Or.inr (by
        simp only [slotPos, TABLE_PAGE_HEADER_SIZE, TUPLE_INFO_SIZE]
        omega))
    have hs4 : rid.slot_id < (pageOfFrame (getFrame b4.frames fid)).tupleCount := by
      rw [hteq]; exact hs
    have hb4 : (pageOfFrame (getFrame b4.frames fid)).slotArrayInBounds := by
      show slotPos (pageOfFrame (getFrame b4.frames fid)).tupleCount ≤ PAGE_SIZE
      rw [hteq]; exact hb
    have h2 : (pageOfFrame (getFrame b4.frames fid)).slot rid.slot_id =
        TablePage.slot ⟨(pageOfFrame (getFrame b.frames fid)).page_id,
          writeBytes (pageOfFrame (getFrame b.frames fid)).data (slotPos rid.slot_id + 4)
            [1, ((pageOfFrame (getFrame b.frames fid)).slot rid.slot_id).metadata.padding]⟩
          rid.slot_id :=
      slot_data_congr _ _ hdatf rid.slot_id
    have h1 := slot_after_metaWrite (pageOfFrame (getFrame b.frames fid)) rid.slot_id 1
      ((pageOfFrame (getFrame b.frames fid)).slot rid.slot_id).metadata.padding
      rid.slot_id
    rw [if_pos rfl] at h1
    have hslot4 := h2.trans h1
    have hr4 : ((pageOfFrame (getFrame b4.frames fid)).slot rid.slot_id).offset +
        ((pageOfFrame (getFrame b4.frames fid)).slot rid.slot_id).size_bytes ≤
        PAGE_SIZE := by
      rw [hslot4]
      show ((pageOfFrame (getFrame b.frames fid)).slot rid.slot_id).offset +
        ((pageOfFrame (getFrame b.frames fid)).slot rid.slot_id).size_bytes ≤ PAGE_SIZE
      exact hr
    obtain ⟨b8, hd2, hpt8, hdm8, hfls8, hlen8, hpg8, hpin8, hdato8, hdatf8⟩ :=
      heap_delete_spec th b4 rid fid hl4 hfl4 hpid4 hs4 hb4 hr4
    have hbytes8 : readBytes (getFrame b4.frames fid).data
        ((pageOfFrame (getFrame b4.frames fid)).slot rid.slot_id).offset
        ((pageOfFrame (getFrame b4.frames fid)).slot rid.slot_id).size_bytes =
        readBytes (getFrame b.frames fid).data
        ((pageOfFrame (getFrame b.frames fid)).slot rid.slot_id).offset
        ((pageOfFrame (getFrame b.frames fid)).slot rid.slot_id).size_bytes := by
      rw [hslot4, hdatf]
      show readBytes (writeBytes (getFrame b.frames fid).data (slotPos rid.slot_id + 4)
        [1, ((pageOfFrame (getFrame b.frames fid)).slot rid.slot_id).metadata.padding])
        ((pageOfFrame (getFrame b.frames fid)).slot rid.slot_id).offset
        ((pageOfFrame (getFrame b.frames fid)).slot rid.slot_id).size_bytes = _
      exact readBytes_after_metaWrite (pageOfFrame (getFrame b.frames fid)) rid.slot_id
        1 _ _ _ (le_trans (slotPos_le_slotPos hs) hoffArr)
    rw [hbytes8] at hd2
    refine ⟨b4, b8,
      ((pageOfFrame (getFrame b4.frames fid)).slot rid.slot_id).metadata,
      hd1, hd2, ?_, ?_⟩
    · rw [hslot4]
      rfl
    · have h8 : (pageOfFrame (getFrame b8.frames fid)).slot rid.slot_id =
          TablePage.slot ⟨(pageOfFrame (getFrame b4.frames fid)).page_id,
            writeBytes (pageOfFrame (getFrame b4.frames fid)).data
              (slotPos rid.slot_id + 4)
              [1, ((pageOfFrame (getFrame b4.frames fid)).slot
                rid.slot_id).metadata.padding]⟩ rid.slot_id :=
        slot_data_congr _ _ hdatf8 rid.slot_id
      have h9 := slot_after_metaWrite (pageOfFrame (getFrame b4.frames fid)) rid.slot_id
        1 ((pageOfFrame (getFrame b4.frames fid)).slot rid.slot_id).metadata.padding
        rid.slot_id
      rw [if_pos rfl] at h9
      rw [h8.trans h9]

/-- Witness for C9 at a concrete one-page, one-tuple fixture whose slot
is marked deleted. -/
theorem C9_deleted_reads_not_blocked_witness :
    ((TablePage.slot ⟨1, c9Bytes⟩ 0).metadata.isDeleted = true ∧
     TablePage.get_tuple ⟨1, c9Bytes⟩ ⟨1, 0⟩ = .ok
       ((TablePage.slot ⟨1, c9Bytes⟩ 0).metadata,
        readBytes c9Bytes (TablePage.slot ⟨1, c9Bytes⟩ 0).offset
          (TablePage.slot ⟨1, c9Bytes⟩ 0).size_bytes)) ∧
    (∃ b4 b8 : BufferPoolManager, ∃ m2 : TupleMetadata,
      c9Heap.delete_tuple c9Pool ⟨1, 0⟩ = (.ok
        (((pageOfFrame (getFrame c9Pool.frames 0)).slot 0).metadata,
         readBytes (getFrame c9Pool.frames 0).data
           ((pageOfFrame (getFrame c9Pool.frames 0)).slot 0).offset
           ((pageOfFrame (getFrame c9Pool.frames 0)).slot 0).size_bytes), b4) ∧
      c9Heap.delete_tuple b4 ⟨1, 0⟩ = (.ok
        (m2, readBytes (getFrame c9Pool.frames 0).data
           ((pageOfFrame (getFrame c9Pool.frames 0)).slot 0).offset
           ((pageOfFrame (getFrame c9Pool.frames 0)).slot 0).size_bytes), b8) ∧
      m2.isDeleted = true ∧
      ((pageOfFrame (getFrame b8.frames 0)).slot 0).metadata.is_deleted = 1) :=
  ⟨C9_deleted_reads_not_blocked.1 ⟨1, c9Bytes⟩ ⟨1, 0⟩ rfl (by decide) (by decide)
    (by decide) (by decide),
   C9_deleted_reads_not_blocked.2 c9Heap c9Pool ⟨1, 0⟩ 0 (by decide) (by decide)
    (by decide) (by decide) (by decide) (by decide) (by decide)⟩

end RustSqlSpec

namespace RustSqlSpec

/-- get_free_frame pops the head of a nonempty free list. -/
theorem gff_free_eq (b : BufferPoolManager) (fid : Nat) (rest : List Nat)
    (h : b.free_list = fid :: rest) :
    b.get_free_frame = (.ok fid, { b with free_list := rest }) := by
  unfold BufferPoolManager.get_free_frame
  simp only [h]

/-- create_page with a successful allocation and a nonempty free list:
install the table entry, initialise the frame pinned once, touch the
replacer. -/
theorem create_eval (b : BufferPoolManager) (npid : Nat) (dm1 : DiskManager)
    (fid : Nat) (rest : List Nat)
    (halloc : b.disk_manager.allocate_page = (.ok npid, dm1))
    (hfree : b.free_list = fid :: rest) :
    b.create_page = (.ok fid,
      { b with
        disk_manager := dm1
        free_list := rest
        page_table := ainsert b.page_table npid fid
        frames := b.frames.set fid
          { getFrame b.frames fid with
              page_id := npid, is_dirty := false, pin_cnt := 1 }
        replacer := (b.replacer.record_access fid).pin fid }) := by
  unfold BufferPoolManager.create_page
  simp only [halloc]
  have hg : ({ b with disk_manager := dm1 } : BufferPoolManager).get_free_frame =
      (.ok fid, { b with disk_manager := dm1, free_list := rest }) := by
    apply gff_free_eq
    show b.free_list = fid :: rest
    exact hfree
  simp only [hg]

/-- get_tuple only depends on the page id and the bytes. -/
theorem get_tuple_congr (p q : TablePage) (hpg : p.page_id = q.page_id)
    (hd : p.data = q.data) (rid : RecordId) : p.get_tuple rid = q.get_tuple rid := by
  obtain ⟨pp, pd⟩ := p
  obtain ⟨qp, qd⟩ := q
  simp only at hpg hd
  subst hpg
  subst hd
  rfl

/-- Overwriting the 8-byte next_page_id header word does not change
get_tuple, provided the slot's tuple bytes live past the header word. -/
theorem get_tuple_skip_header (p : TablePage) (v : Nat) (rid : RecordId)
    (hoff : 8 ≤ (p.slot rid.slot_id).offset) :
    TablePage.get_tuple ⟨p.page_id, writeU64 p.data 0 v⟩ rid = p.get_tuple rid := by
  have hlen8 : (leBytes v 8).length = 8 := leBytes_length v 8
  have htc : TablePage.tupleCount ⟨p.page_id, writeU64 p.data 0 v⟩ = p.tupleCount := by
    show readU16 (writeBytes p.data 0 (leBytes v 8)) 8 = readU16 p.data 8
    exact readU16_skip _ _ _ _ (Or.inl (by rw [hlen8]))
  have hslot : ∀ i, TablePage.slot ⟨p.page_id, writeU64 p.data 0 v⟩ i = p.slot i := by
    intro i
    have h1 : readU16 (writeU64 p.data 0 v) (slotPos i) =
        readU16 p.data (slotPos i) :=
      readU16_skip _ _ _ _ (Or.inl (by
        rw [hlen8]
        simp only [slotPos, TABLE_PAGE_HEADER_SIZE, TUPLE_INFO_SIZE]
        omega))
    have h2 : readU16 (writeU64 p.data 0 v) (slotPos i + 2) =
        readU16 p.data (slotPos i + 2) :=
      readU16_skip _ _ _ _ (Or.inl (by
        rw [hlen8]
        simp only [slotPos, TABLE_PAGE_HEADER_SIZE, TUPLE_INFO_SIZE]
        omega))
    have h3 : byteAt (writeU64 p.data 0 v) (slotPos i + 4) =
        byteAt p.data (slotPos i + 4) :=
      byteAt_skip _ _ _ _ (Or.inl (by
        rw [hlen8]
        simp only [slotPos, TABLE_PAGE_HEADER_SIZE, TUPLE_INFO_SIZE]
        omega))
    have h4 : byteAt (writeU64 p.data 0 v) (slotPos i + 5) =
        byteAt p.data (slotPos i + 5) :=
      byteAt_skip _ _ _ _ (Or.inl (by
        rw [hlen8]
        simp only [slotPos, TABLE_PAGE_HEADER_SIZE, TUPLE_INFO_SIZE]
        omega))
    unfold TablePage.slot
    simp only
    rw [h1, h2, h3, h4]
  have hval : TablePage.validate_record_id ⟨p.page_id, writeU64 p.data 0 v⟩ rid =
      p.validate_record_id rid := by
    unfold TablePage.validate_record_id
    rw [htc]
  have hrb : readBytes (writeU64 p.data 0 v) (p.slot rid.slot_id).offset
      (p.slot rid.slot_id).size_bytes =
      readBytes p.data (p.slot rid.slot_id).offset (p.slot rid.slot_id).size_bytes :=
    readBytes_skip _ _ _ _ _ (Or.inl (by rw [hlen8]; omega))
  unfold TablePage.get_tuple
  rw [hval]
  cases hv : p.validate_record_id rid with
  | error e => rfl
  | ok u =>
    by_cases hbnd : p.slotArrayInBounds
    · have hqbnd : TablePage.slotArrayInBounds ⟨p.page_id, writeU64 p.data 0 v⟩ := by
        show slotPos (TablePage.tupleCount ⟨p.page_id, writeU64 p.data 0 v⟩) ≤ PAGE_SIZE
        rw [htc]
        exact hbnd
      rw [dif_neg (not_not_intro hqbnd), dif_neg (not_not_intro hbnd)]
      simp only [hslot rid.slot_id]
      by_cases hov : (p.slot rid.slot_id).offset + (p.slot rid.slot_id).size_bytes >
          PAGE_SIZE
      · rw [if_pos hov, if_pos hov]
      · rw [if_neg hov, if_neg hov]
        rw [hrb]
    · have hqbnd : ¬ TablePage.slotArrayInBounds ⟨p.page_id, writeU64 p.data 0 v⟩ := by
        intro hc
        apply hbnd
        show slotPos p.tupleCount ≤ PAGE_SIZE
        rw [← htc]
        exact hc
      rw [dif_pos hqbnd, dif_pos hbnd]

/-- Unfolding of the OutOfBounds path of TableHeap::insert_tuple along
given behaviour of its steps. -/
theorem heap_insert_oob_eval (th : TableHeap) (b b1 b2 b5 b6 : BufferPoolManager)
    (t : List Nat) (fid nfid : Nat) (rid : RecordId) (newPage1 : TablePage)
    (hfetch : b.fetch_page_mut th.last_page_id = (.ok fid, b1))
    (hfail : (pageOfFrame (getFrame b1.frames fid)).insert_tuple
      (TupleMetadata.new false) t = .error .OutOfBounds)
    (hcreate : b1.create_page = (.ok nfid, b2))
    (hinsnew : ((pageOfFrame (getFrame (b2.frames.set fid { page_id := (getFrame b2.frames fid).page_id, is_dirty := (getFrame b2.frames fid).is_dirty, pin_cnt := (getFrame b2.frames fid).pin_cnt, data := ((pageOfFrame (getFrame b2.frames fid)).set_next_page_id (getFrame b2.frames nfid).page_id).data }) nfid)).init_header
        INVALID_PAGE_ID).insert_tuple (TupleMetadata.new false) t = .ok (rid, newPage1))
    (hunp1 : ({
        frames := (b2.frames.set fid { page_id := (getFrame b2.frames fid).page_id, is_dirty := (getFrame b2.frames fid).is_dirty, pin_cnt := (getFrame b2.frames fid).pin_cnt, data := ((pageOfFrame (getFrame b2.frames fid)).set_next_page_id (getFrame b2.frames nfid).page_id).data }).set nfid { page_id := (getFrame (b2.frames.set fid { page_id := (getFrame b2.frames fid).page_id, is_dirty := (getFrame b2.frames fid).is_dirty, pin_cnt := (getFrame b2.frames fid).pin_cnt, data := ((pageOfFrame (getFrame b2.frames fid)).set_next_page_id (getFrame b2.frames nfid).page_id).data }) nfid).page_id, is_dirty := (getFrame (b2.frames.set fid { page_id := (getFrame b2.frames fid).page_id, is_dirty := (getFrame b2.frames fid).is_dirty, pin_cnt := (getFrame b2.frames fid).pin_cnt, data := ((pageOfFrame (getFrame b2.frames fid)).set_next_page_id (getFrame b2.frames nfid).page_id).data }) nfid).is_dirty, pin_cnt := (getFrame (b2.frames.set fid { page_id := (getFrame b2.frames fid).page_id, is_dirty := (getFrame b2.frames fid).is_dirty, pin_cnt := (getFrame b2.frames fid).pin_cnt, data := ((pageOfFrame (getFrame b2.frames fid)).set_next_page_id (getFrame b2.frames nfid).page_id).data }) nfid).pin_cnt, data := newPage1.data }
        page_table := b2.page_table
        replacer := b2.replacer
        free_list := b2.free_list
        disk_manager := b2.disk_manager } : BufferPoolManager).unpin_page
        (getFrame b2.frames nfid).page_id true = (.ok (), b5))
    (hunp2 : b5.unpin_page (getFrame b2.frames fid).page_id true = (.ok (), b6)) :
    th.insert_tuple b t = (.ok rid,
      ({ th with last_page_id := (getFrame b2.frames nfid).page_id
                 page_cnt := th.page_cnt + 1 }, b6)) := by
  unfold TableHeap.insert_tuple
  simp only [hfetch, hfail, hcreate, hinsnew, hunp1, hunp2]

end RustSqlSpec

namespace RustSqlSpec

/-- C4: when the current last page rejects an insert with OutOfBounds,
TableHeap::insert_tuple creates exactly one new page (one fresh id, page
count up by one), links it from the old last page, initialises its
header with next = INVALID_PAGE_ID, inserts the tuple there, advances
last_page_id; the returned record id lives on the new page, and both the
new tuple and every tuple stored on the old page remain retrievable. -/
theorem C4_insert_oob_new_page
    (th : TableHeap) (b : BufferPoolManager) (t : List Nat) (fid : Nat)
    (nfid : Nat) (rest : List Nat)
    (hl : alookup b.page_table th.last_page_id = some fid)
    (hfl : fid < b.frames.length)
    (hpid : (getFrame b.frames fid).page_id = th.last_page_id)
    (hfail : (pageOfFrame (getFrame b.frames fid)).insert_tuple
      (TupleMetadata.new false) t = .error .OutOfBounds)
    (hfree : b.free_list = nfid :: rest)
    (hnfl : nfid < b.frames.length)
    (hne : nfid ≠ fid)
    (halloc64 : (b.disk_manager.last_allocated_pid + 1) * PAGE_SIZE ≤ U64_MAX)
    (hple : th.last_page_id ≤ b.disk_manager.last_allocated_pid)
    (hlen : t.length ≤ PAGE_SIZE - TABLE_PAGE_HEADER_SIZE - TUPLE_INFO_SIZE)
    (hbytes : ∀ x ∈ t, x < 256) :
    ∃ (h1 : TableHeap) (b6 : BufferPoolManager) (rid : RecordId),
      th.insert_tuple b t = (.ok rid, (h1, b6)) ∧
      rid.page_id = b.disk_manager.last_allocated_pid + 1 ∧
      rid.page_id ≠ th.last_page_id ∧
      rid.slot_id = 0 ∧
      h1.last_page_id = rid.page_id ∧
      h1.page_cnt = th.page_cnt + 1 ∧
      h1.first_page_id = th.first_page_id ∧
      b6.disk_manager.last_allocated_pid = b.disk_manager.last_allocated_pid + 1 ∧
      (pageOfFrame (getFrame b6.frames fid)).nextPageId = rid.page_id ∧
      alookup b6.page_table rid.page_id = some nfid ∧
      (getFrame b6.frames nfid).page_id = rid.page_id ∧
      (pageOfFrame (getFrame b6.frames nfid)).nextPageId = INVALID_PAGE_ID ∧
      (pageOfFrame (getFrame b6.frames nfid)).tupleCount = 1 ∧
      (pageOfFrame (getFrame b6.frames nfid)).get_tuple rid =
        .ok ({ is_deleted := 0, padding := 0 }, t) ∧
      alookup b6.page_table th.last_page_id = some fid ∧
      (getFrame b6.frames fid).page_id = th.last_page_id ∧
      (∀ rid2 : RecordId,
        8 ≤ ((pageOfFrame (getFrame b.frames fid)).slot rid2.slot_id).offset →
        (pageOfFrame (getFrame b6.frames fid)).get_tuple rid2 =
          (pageOfFrame (getFrame b.frames fid)).get_tuple rid2) := by
  have hfneqn : fid ≠ nfid := fun he => hne he.symm
  set F1 : PageFrame :=
    { getFrame b.frames fid with pin_cnt := (getFrame b.frames fid).pin_cnt + 1 }
    with hF1def
  set B1 : BufferPoolManager :=
    { b with frames := b.frames.set fid F1,
             replacer := (b.replacer.record_access fid).pin fid } with hB1def
  have hfetchB1 : b.fetch_page_mut th.last_page_id = (.ok fid, B1) :=
    fetch_hit_eq b th.last_page_id fid hl
  have hflB1 : fid < B1.frames.length := by
    show fid < (b.frames.set fid F1).length
    rw [List.length_set]
    exact hfl
  have hnflB1 : nfid < B1.frames.length := by
    show nfid < (b.frames.set fid F1).length
    rw [List.length_set]
    exact hnfl
  have hgB1f : getFrame B1.frames fid = F1 := by
    show getFrame (b.frames.set fid F1) fid = F1
    exact getFrame_set_self _ _ _ hfl
  have hpeq1 : pageOfFrame (getFrame B1.frames fid) =
      pageOfFrame (getFrame b.frames fid) := by
    rw [hgB1f]
    rfl
  have hfail1 : (pageOfFrame (getFrame B1.frames fid)).insert_tuple
      (TupleMetadata.new false) t = .error .OutOfBounds := by
    rw [hpeq1]
    exact hfail
  set npid : Nat := b.disk_manager.last_allocated_pid + 1 with hnpid
  set DM2 : DiskManager :=
    { b.disk_manager with
      last_allocated_pid := b.disk_manager.last_allocated_pid + 1
      file := writeBytes b.disk_manager.file
        ((b.disk_manager.last_allocated_pid + 1) * PAGE_SIZE)
        (List.replicate PAGE_SIZE 0)
      file_len := max b.disk_manager.file_len
        ((b.disk_manager.last_allocated_pid + 1) * PAGE_SIZE + PAGE_SIZE) } with hDM2
  have hallocB1 : B1.disk_manager.allocate_page = (.ok npid, DM2) :=
    allocate_ok_full b.disk_manager halloc64
  have hfreeB1 : B1.free_list = nfid :: rest := hfree
  set FN : PageFrame :=
    { getFrame B1.frames nfid with
        page_id := npid, is_dirty := false, pin_cnt := 1 } with hFNdef
  set B2 : BufferPoolManager :=
    { B1 with
      disk_manager := DM2
      free_list := rest
      page_table := ainsert B1.page_table npid nfid
      frames := B1.frames.set nfid FN
      replacer := (B1.replacer.record_access nfid).pin nfid } with hB2def
  have hcreate : B1.create_page = (.ok nfid, B2) :=
    create_eval B1 npid DM2 nfid rest hallocB1 hfreeB1
  have hflB2 : fid < B2.frames.length := by
    show fid < (B1.frames.set nfid FN).length
    rw [List.length_set]
    exact hflB1
  have hnflB2 : nfid < B2.frames.length := by
    show nfid < (B1.frames.set nfid FN).length
    rw [List.length_set]
    exact hnflB1
  have hgB2n : getFrame B2.frames nfid = FN := by
    show getFrame (B1.frames.set nfid FN) nfid = FN
    exact getFrame_set_self _ _ _ hnflB1
  have hgB2f : getFrame B2.frames fid = F1 := by
    show getFrame (B1.frames.set nfid FN) fid = F1
    rw [getFrame_set_ne _ _ _ _ hfneqn]
    exact hgB1f
  set FOLD : PageFrame :=
    { getFrame B2.frames fid with
        data := ((pageOfFrame (getFrame B2.frames fid)).set_next_page_id
          (getFrame B2.frames nfid).page_id).data } with hFOLDdef
  set B3 : BufferPoolManager := { B2 with frames := B2.frames.set fid FOLD }
    with hB3def
  have hflB3 : fid < B3.frames.length := by
    show fid < (B2.frames.set fid FOLD).length
    rw [List.length_set]
    exact hflB2
  have hnflB3 : nfid < B3.frames.length := by
    show nfid < (B2.frames.set fid FOLD).length
    rw [List.length_set]
    exact hnflB2
  have hgB3n : getFrame B3.frames nfid = FN := by
    show getFrame (B2.frames.set fid FOLD) nfid = FN
    rw [getFrame_set_ne _ _ _ _ hne]
    exact hgB2n
  obtain ⟨p1, hins, hp1pid, hp1tc, hp1next, hp1get⟩ :=
    insert_fresh_spec npid INVALID_PAGE_ID (getFrame B1.frames nfid).data
      (TupleMetadata.new false) t hlen hbytes
  have hinsnew : ((pageOfFrame (getFrame B3.frames nfid)).init_header
      INVALID_PAGE_ID).insert_tuple (TupleMetadata.new false) t =
      .ok (⟨npid, 0⟩, p1) := by
    rw [hgB3n]
    exact hins
  set FNEW : PageFrame := { getFrame B3.frames nfid with data := p1.data }
    with hFNEWdef
  set B4 : BufferPoolManager := { B3 with frames := B3.frames.set nfid FNEW }
    with hB4def
  have hflB4 : fid < B4.frames.length := by
    show fid < (B3.frames.set nfid FNEW).length
    rw [List.length_set]
    exact hflB3
  have hnflB4 : nfid < B4.frames.length := by
    show nfid < (B3.frames.set nfid FNEW).length
    rw [List.length_set]
    exact hnflB3
  have hgB4n : getFrame B4.frames nfid = FNEW := by
    show getFrame (B3.frames.set nfid FNEW) nfid = FNEW
    exact getFrame_set_self _ _ _ hnflB3
  have hlkB4 : alookup B4.page_table npid = some nfid := by
    show alookup (ainsert b.page_table npid nfid) npid = some nfid
    exact alookup_ainsert_self _ _ _
  have hpB4n : (getFrame B4.frames nfid).pin_cnt ≠ 0 := by
    rw [hgB4n]
    show (getFrame B3.frames nfid).pin_cnt ≠ 0
    rw [hgB3n]
    exact one_ne_zero
  obtain ⟨b5, hunp5, hpt5, hdm5, hfls5, hfr5⟩ :=
    unpin_ok_spec B4 npid nfid true hlkB4 hpB4n
  have hargn : (getFrame B2.frames nfid).page_id = npid := by
    rw [hgB2n]
  have hunp1E : B4.unpin_page (getFrame B2.frames nfid).page_id true =
      (.ok (), b5) := by
    rw [hargn]
    exact hunp5
  have hargf : (getFrame B2.frames fid).page_id = th.last_page_id := by
    rw [hgB2f]
    show (getFrame b.frames fid).page_id = th.last_page_id
    exact hpid
  have hlne : th.last_page_id ≠ npid := by omega
  have hlk5 : alookup b5.page_table th.last_page_id = some fid := by
    rw [hpt5]
    show alookup (ainsert b.page_table npid nfid) th.last_page_id = some fid
    rw [alookup_ainsert_ne _ _ _ _ hlne]
    exact hl
  have hflb5 : fid < b5.frames.length := by
    rw [hfr5, List.length_set]
    exact hflB4
  have hp5f : (getFrame b5.frames fid).pin_cnt ≠ 0 := by
    rw [hfr5, getFrame_set_ne _ _ _ _ hfneqn]
    show (getFrame (B3.frames.set nfid FNEW) fid).pin_cnt ≠ 0
    rw [getFrame_set_ne _ _ _ _ hfneqn]
    show (getFrame (B2.frames.set fid FOLD) fid).pin_cnt ≠ 0
    rw [getFrame_set_self _ _ _ hflB2]
    show (getFrame B2.frames fid).pin_cnt ≠ 0
    rw [hgB2f]
    exact Nat.succ_ne_zero _
  obtain ⟨b6, hunp6, hpt6, hdm6, hfls6, hfr6⟩ :=
    unpin_ok_spec b5 th.last_page_id fid true hlk5 hp5f
  have hunp2E : b5.unpin_page (getFrame B2.frames fid).page_id true =
      (.ok (), b6) := by
    rw [hargf]
    exact hunp6
  have hmain := heap_insert_oob_eval th b B1 B2 b5 b6 t fid nfid ⟨npid, 0⟩ p1
    hfetchB1 hfail1 hcreate hinsnew hunp1E hunp2E
  rw [hargn] at hmain
  have hflb6 : fid < b6.frames.length := by
    rw [hfr6, List.length_set]
    exact hflb5
  have hgb6n_data : (getFrame b6.frames nfid).data = p1.data := by
    rw [hfr6, getFrame_set_ne _ _ _ _ hne, hfr5, getFrame_set_self _ _ _ hnflB4]
    show (getFrame B4.frames nfid).data = p1.data
    rw [hgB4n]
  have hgb6n_pid : (getFrame b6.frames nfid).page_id = npid := by
    rw [hfr6, getFrame_set_ne _ _ _ _ hne, hfr5, getFrame_set_self _ _ _ hnflB4]
    show (getFrame B4.frames nfid).page_id = npid
    rw [hgB4n]
    show (getFrame B3.frames nfid).page_id = npid
    rw [hgB3n]
  have hgb6f_data : (getFrame b6.frames fid).data =
      writeU64 (getFrame b.frames fid).data 0 npid := by
    rw [hfr6, getFrame_set_self _ _ _ hflb5]
    show (getFrame b5.frames fid).data = writeU64 (getFrame b.frames fid).data 0 npid
    rw [hfr5, getFrame_set_ne _ _ _ _ hfneqn]
    show (getFrame (B3.frames.set nfid FNEW) fid).data =
      writeU64 (getFrame b.frames fid).data 0 npid
    rw [getFrame_set_ne _ _ _ _ hfneqn]
    show (getFrame (B2.frames.set fid FOLD) fid).data =
      writeU64 (getFrame b.frames fid).data 0 npid
    rw [getFrame_set_self _ _ _ hflB2]
    show writeU64 (getFrame B2.frames fid).data 0 ((getFrame B2.frames nfid).page_id) =
      writeU64 (getFrame b.frames fid).data 0 npid
    rw [hargn, hgB2f]
  have hgb6f_pid : (getFrame b6.frames fid).page_id = th.last_page_id := by
    rw [hfr6, getFrame_set_self _ _ _ hflb5]
    show (getFrame b5.frames fid).page_id = th.last_page_id
    rw [hfr5, getFrame_set_ne _ _ _ _ hfneqn]
    show (getFrame (B3.frames.set nfid FNEW) fid).page_id = th.last_page_id
    rw [getFrame_set_ne _ _ _ _ hfneqn]
    show (getFrame (B2.frames.set fid FOLD) fid).page_id = th.last_page_id
    rw [getFrame_set_self _ _ _ hflB2]
    show (getFrame B2.frames fid).page_id = th.last_page_id
    exact hargf
  have hnp64 : npid < 2 ^ 64 := by
    have h1 : (b.disk_manager.last_allocated_pid + 1) * 4096 ≤ 2 ^ 64 - 1 := by
      simpa [PAGE_SIZE, U64_MAX] using halloc64
    omega
  refine ⟨{ th with last_page_id := npid, page_cnt := th.page_cnt + 1 }, b6,
    ⟨npid, 0⟩, hmain, ?_, ?_, rfl, rfl, rfl, rfl, ?_, ?_, ?_, ?_, ?_, ?_, ?_, ?_, ?_,
    ?_⟩
  · show npid = b.disk_manager.last_allocated_pid + 1
    exact hnpid
  · show npid ≠ th.last_page_id
    omega
  · rw [show b6.disk_manager = b5.disk_manager from hdm6,
        show b5.disk_manager = B4.disk_manager from hdm5]
  · show readU64 (getFrame b6.frames fid).data 0 = npid
    rw [hgb6f_data]
    rw [show readU64 (writeU64 (getFrame b.frames fid).data 0 npid) 0 = npid % 2 ^ 64
      from readU64_writeBytes_leBytes _ 0 npid]
    exact Nat.mod_eq_of_lt hnp64
  · rw [show b6.page_table = b5.page_table from hpt6,
        show b5.page_table = B4.page_table from hpt5]
    show alookup (ainsert b.page_table npid nfid) npid = some nfid
    exact alookup_ainsert_self _ _ _
  · exact hgb6n_pid
  · show readU64 (getFrame b6.frames nfid).data 0 = INVALID_PAGE_ID
    rw [hgb6n_data]
    rw [show readU64 p1.data 0 = INVALID_PAGE_ID % 2 ^ 64 from hp1next]
    exact Nat.mod_eq_of_lt (by decide)
  · show readU16 (getFrame b6.frames nfid).data 8 = 1
    rw [hgb6n_data]
    exact hp1tc
  · have hcong := get_tuple_congr (pageOfFrame (getFrame b6.frames nfid)) p1
      (by show (getFrame b6.frames nfid).page_id = p1.page_id
          rw [hgb6n_pid, hp1pid])
      (by show (getFrame b6.frames nfid).data = p1.data
          exact hgb6n_data) ⟨npid, 0⟩
    exact hcong.trans hp1get
  · rw [show b6.page_table = b5.page_table from hpt6,
        show b5.page_table = B4.page_table from hpt5]
    show alookup (ainsert b.page_table npid nfid) th.last_page_id = some fid
    rw [alookup_ainsert_ne _ _ _ _ hlne]
    exact hl
  · exact hgb6f_pid
  · intro rid2 hoff8
    have hcong := get_tuple_congr (pageOfFrame (getFrame b6.frames fid))
      ⟨(pageOfFrame (getFrame b.frames fid)).page_id,
       writeU64 (pageOfFrame (getFrame b.frames fid)).data 0 npid⟩
      (by show (getFrame b6.frames fid).page_id = (getFrame b.frames fid).page_id
          rw [hgb6f_pid]
          exact hpid.symm)
      (by show (getFrame b6.frames fid).data =
            writeU64 (getFrame b.frames fid).data 0 npid
          exact hgb6f_data) rid2
    exact hcong.trans
      (get_tuple_skip_header (pageOfFrame (getFrame b.frames fid)) npid rid2 hoff8)

end RustSqlSpec

namespace RustSqlSpec

/-- Witness for C4 at a concrete two-frame pool whose page 1 has no room
left for a 3-byte tuple. -/
theorem C4_insert_oob_new_page_witness :
    ∃ (h1 : TableHeap) (b6 : BufferPoolManager) (rid : RecordId),
      c4Heap.insert_tuple c4Pool [7, 8, 9] = (.ok rid, (h1, b6)) ∧
      rid.page_id = c4Pool.disk_manager.last_allocated_pid + 1 ∧
      rid.page_id ≠ c4Heap.last_page_id ∧
      rid.slot_id = 0 ∧
      h1.last_page_id = rid.page_id ∧
      h1.page_cnt = c4Heap.page_cnt + 1 ∧
      h1.first_page_id = c4Heap.first_page_id ∧
      b6.disk_manager.last_allocated_pid =
        c4Pool.disk_manager.last_allocated_pid + 1 ∧
      (pageOfFrame (getFrame b6.frames 0)).nextPageId = rid.page_id ∧
      alookup b6.page_table rid.page_id = some 1 ∧
      (getFrame b6.frames 1).page_id = rid.page_id ∧
      (pageOfFrame (getFrame b6.frames 1)).nextPageId = INVALID_PAGE_ID ∧
      (pageOfFrame (getFrame b6.frames 1)).tupleCount = 1 ∧
      (pageOfFrame (getFrame b6.frames 1)).get_tuple rid =
        .ok ({ is_deleted := 0, padding := 0 }, [7, 8, 9]) ∧
      alookup b6.page_table c4Heap.last_page_id = some 0 ∧
      (getFrame b6.frames 0).page_id = c4Heap.last_page_id ∧
      (∀ rid2 : RecordId,
        8 ≤ ((pageOfFrame (getFrame c4Pool.frames 0)).slot rid2.slot_id).offset →
        (pageOfFrame (getFrame b6.frames 0)).get_tuple rid2 =
          (pageOfFrame (getFrame c4Pool.frames 0)).get_tuple rid2) :=
  C4_insert_oob_new_page c4Heap c4Pool [7, 8, 9] 0 1 [] (by decide) (by decide) rfl
    rfl rfl (by decide) (by decide) (by decide) (by decide) (by decide) (by decide)

end RustSqlSpec

namespace RustSqlSpec

/-! ## Support lemmas for the pool invariant (C6) -/

theorem readBytes_length (d : Bytes) (o n : Nat) : (readBytes d o n).length = n := by
  induction n generalizing o with
  | zero => rfl
  | succ n ih =>
    show (byteAt d o :: readBytes d (o + 1) n).length = n + 1
    simp [ih]

theorem alookup_append_left {α : Type} (l m : List (Nat × α)) (k : Nat) (v : α)
    (h : alookup l k = some v) : alookup (l ++ m) k = some v := by
  induction l with
  | nil => simp [alookup] at h
  | cons kv rest ih =>
    obtain ⟨k0, w⟩ := kv
    by_cases hk : k0 = k
    · subst hk
      simp only [alookup, if_pos rfl] at h
      simp only [List.cons_append, alookup, if_pos rfl]
      exact h
    · simp only [alookup, if_neg hk] at h
      simp only [List.cons_append, alookup, if_neg hk]
      exact ih h

theorem alookup_append_right {α : Type} (l m : List (Nat × α)) (k : Nat)
    (h : alookup l k = none) : alookup (l ++ m) k = alookup m k := by
  induction l with
  | nil => rfl
  | cons kv rest ih =>
    obtain ⟨k0, w⟩ := kv
    by_cases hk : k0 = k
    · subst hk
      simp [alookup] at h
    · simp only [alookup, if_neg hk] at h
      simp only [List.cons_append, alookup, if_neg hk]
      exact ih h

theorem alookup_aerase_none {α : Type} (l : List (Nat × α)) (k j : Nat)
    (h : alookup l j = none) : alookup (aerase l k) j = none := by
  rw [alookup_eq_none] at h ⊢
  intro hc
  exact h ((keys_aerase_sublist l k).subset hc)

theorem mem_tableVals (l : List (Nat × Nat)) (k v : Nat) (h : (k, v) ∈ l) :
    v ∈ tableVals l :=
  List.mem_map_of_mem _ h

theorem vals_aerase_sublist (l : List (Nat × Nat)) (k : Nat) :
    (tableVals (aerase l k)).Sublist (tableVals l) :=
  (aerase_sublist l k).map _

theorem vals_aerase_not_mem (l : List (Nat × Nat)) (k v : Nat)
    (hvnd : (tableVals l).Nodup) (h : alookup l k = some v) :
    v ∉ tableVals (aerase l k) := by
  induction l with
  | nil => simp [alookup] at h
  | cons kv rest ih =>
    obtain ⟨k0, w⟩ := kv
    have hvnd' : (w :: tableVals rest).Nodup := hvnd
    by_cases hk : k0 = k
    · subst hk
      simp only [alookup, if_pos rfl] at h
      injection h with h
      subst h
      simp only [aerase, if_pos rfl]
      exact (List.nodup_cons.mp hvnd').1
    · simp only [alookup, if_neg hk] at h
      simp only [aerase, if_neg hk]
      intro hc
      have hc' : v ∈ w :: tableVals (aerase rest k) := hc
      rcases List.mem_cons.mp hc' with he | hm
      · subst he
        exact (List.nodup_cons.mp hvnd').1
          (mem_tableVals _ _ _ (alookup_mem _ _ _ h))
      · exact ih (List.nodup_cons.mp hvnd').2 h hm

/-- Two page table entries with the same value have the same key, when
the values are duplicate free. -/
theorem vals_nodup_unique (l : List (Nat × Nat)) (k1 k2 v : Nat)
    (hvnd : (tableVals l).Nodup) (h1 : (k1, v) ∈ l) (h2 : (k2, v) ∈ l) :
    k1 = k2 := by
  have heq := List.inj_on_of_nodup_map hvnd h1 h2 rfl
  exact congrArg Prod.fst heq

theorem write_ok_inv (dm : DiskManager) (pid : Nat) (data : List Nat)
    (dm1 : DiskManager) (h : dm.write pid data = .ok dm1) :
    dm1.last_allocated_pid = dm.last_allocated_pid ∧
    dm1.file_len = max dm.file_len (pid * PAGE_SIZE + data.length) := by
  unfold DiskManager.write DiskManager.calculate_offset at h
  by_cases h1 : data.length > PAGE_SIZE
  · rw [if_pos h1] at h
    exact absurd h (by simp)
  · rw [if_neg h1] at h
    by_cases h2 : pid * PAGE_SIZE ≤ U64_MAX
    · rw [if_pos h2] at h
      have hq : Except.ok { dm with
          file := writeBytes dm.file (pid * PAGE_SIZE) data
          file_len := max dm.file_len (pid * PAGE_SIZE + data.length) } =
          Except.ok dm1 := h
      injection hq with hq
      subst hq
      exact ⟨rfl, rfl⟩
    · rw [if_neg h2] at h
      have hq : (Except.error Error.ArithmeticOverflow : Except Error DiskManager) =
          Except.ok dm1 := h
      exact absurd hq (by simp)

theorem allocate_ok_inv (dm : DiskManager) (pid : Nat) (dm1 : DiskManager)
    (h : dm.allocate_page = (.ok pid, dm1)) :
    pid = dm.last_allocated_pid + 1 ∧
    dm1.last_allocated_pid = pid ∧
    dm1.file_len = max dm.file_len (pid * PAGE_SIZE + PAGE_SIZE) := by
  unfold DiskManager.allocate_page at h
  split at h
  · simp at h
  · simp only at h
    split at h
    · simp at h
    · rename_i dm2 hw
      simp only [Prod.mk.injEq, Except.ok.injEq] at h
      obtain ⟨h1, h2⟩ := h
      subst h1
      subst h2
      obtain ⟨hl, hf⟩ := write_ok_inv _ _ _ _ hw
      refine ⟨rfl, hl, ?_⟩
      rw [hf]
      simp [List.length_replicate]

theorem dealloc_ok_inv (dm : DiskManager) (pid : Nat) (dm1 : DiskManager)
    (h : dm.deallocate_page pid = .ok dm1) :
    dm1.last_allocated_pid = dm.last_allocated_pid ∧
    dm1.file_len = max dm.file_len (pid * PAGE_SIZE + 1) := by
  unfold DiskManager.deallocate_page DiskManager.calculate_offset at h
  by_cases h2 : pid * PAGE_SIZE ≤ U64_MAX
  · rw [if_pos h2] at h
    have hq : Except.ok { dm with
        file := writeBytes dm.file (pid * PAGE_SIZE) [1]
        file_len := max dm.file_len (pid * PAGE_SIZE + 1) } = Except.ok dm1 := h
    injection hq with hq
    subst hq
    exact ⟨rfl, rfl⟩
  · rw [if_neg h2] at h
    have hq : (Except.error Error.ArithmeticOverflow : Except Error DiskManager) =
        Except.ok dm1 := h
    exact absurd hq (by simp)

/-- A successful non-tombstone read implies the whole page lies inside
the file. -/
theorem read_ok_some_bound (dm : DiskManager) (pid : Nat) (data : List Nat)
    (h : dm.read pid = .ok (some data)) :
    pid * PAGE_SIZE + PAGE_SIZE ≤ dm.file_len := by
  unfold DiskManager.read DiskManager.calculate_offset at h
  by_cases h2 : pid * PAGE_SIZE ≤ U64_MAX
  · rw [if_pos h2] at h
    have hq : (if pid * PAGE_SIZE + 1 > dm.file_len then
        (Except.error (Error.IOError "failed to fill whole buffer") :
          Except Error (Option (List Nat)))
        else if byteAt dm.file (pid * PAGE_SIZE) = 1 then .ok none
        else if pid * PAGE_SIZE + PAGE_SIZE > dm.file_len then
          .error (.IOError "failed to fill whole buffer")
        else .ok (some (readBytes dm.file (pid * PAGE_SIZE) PAGE_SIZE))) =
        .ok (some data) := h
    by_cases hb1 : pid * PAGE_SIZE + 1 > dm.file_len
    · rw [if_pos hb1] at hq
      exact absurd hq (by simp)
    · rw [if_neg hb1] at hq
      by_cases hb2 : byteAt dm.file (pid * PAGE_SIZE) = 1
      · rw [if_pos hb2] at hq
        exact absurd hq (by simp)
      · rw [if_neg hb2] at hq
        by_cases hb3 : pid * PAGE_SIZE + PAGE_SIZE > dm.file_len
        · rw [if_pos hb3] at hq
          exact absurd hq (by simp)
        · omega
  · rw [if_neg h2] at h
    have hq : (Except.error Error.ArithmeticOverflow :
        Except Error (Option (List Nat))) = .ok (some data) := h
    exact absurd hq (by simp)

theorem evict_eq_of_candidate (r : LruReplacer) (g : Nat)
    (hc : r.evictCandidate = some g) :
    r.evict = (some g, { r with node_store := aerase r.node_store g
                                evictable_count := r.evictable_count - 1 }) := by
  unfold LruReplacer.evict
  simp only [hc]

theorem evict_none_of_candidate (r : LruReplacer)
    (hc : r.evictCandidate = none) : r.evict = (none, r) := by
  unfold LruReplacer.evict
  simp only [hc]

/-- The eviction candidate of a well-keyed store is evictable. -/
theorem evictCandidate_some_evictableB (r : LruReplacer) (g : Nat)
    (hknd : (tableKeys r.node_store).Nodup)
    (hfi : ∀ kn ∈ r.node_store, kn.2.frame_id = kn.1)
    (hc : r.evictCandidate = some g) : r.evictableB g = true := by
  unfold LruReplacer.evictCandidate at hc
  cases hmb : minByTimestamp (r.node_store.filter (fun kv => kv.2.is_evictable)) with
  | none => rw [hmb] at hc; simp at hc
  | some n =>
    rw [hmb] at hc
    simp only [Option.map_some', Option.some.injEq] at hc
    subst hc
    obtain ⟨k, hkmem⟩ := minByTimestamp_mem _ _ hmb
    have hkstore : (k, n) ∈ r.node_store := (List.mem_filter.mp hkmem).1
    have hkev : n.is_evictable = true := by
      have := (List.mem_filter.mp hkmem).2
      simpa using this
    have hfk : n.frame_id = k := hfi (k, n) hkstore
    have hlk : alookup r.node_store n.frame_id = some n := by
      rw [hfk]
      exact mem_alookup _ _ _ hknd hkstore
    show (match alookup r.node_store n.frame_id with
      | some n => n.is_evictable | none => false) = true
    rw [hlk]
    exact hkev

/-! ### evictableB across replacer operations -/

theorem evictableB_pin_self (r : LruReplacer) (f : Nat) :
    (r.pin f).evictableB f = false := by
  cases hl : alookup r.node_store f with
  | none =>
    rw [pin_eval_none r f hl]
    show (match alookup r.node_store f with
      | some n => n.is_evictable | none => false) = false
    rw [hl]
  | some n =>
    rw [pin_eval_some r f n hl]
    by_cases hev : n.is_evictable = true
    · rw [if_pos hev]
      show (match alookup (amodify r.node_store f
        (fun m => { m with is_evictable := false })) f with
        | some n => n.is_evictable | none => false) = false
      rw [alookup_amodify_self, hl]
      rfl
    · rw [if_neg hev]
      show (match alookup r.node_store f with
        | some n => n.is_evictable | none => false) = false
      rw [hl]
      simpa using hev

theorem evictableB_pin_ne (r : LruReplacer) (f g : Nat) (h : g ≠ f) :
    (r.pin f).evictableB g = r.evictableB g := by
  cases hl : alookup r.node_store f with
  | none => rw [pin_eval_none r f hl]
  | some n =>
    rw [pin_eval_some r f n hl]
    by_cases hev : n.is_evictable = true
    · rw [if_pos hev]
      show (match alookup (amodify r.node_store f
        (fun m => { m with is_evictable := false })) g with
        | some n => n.is_evictable | none => false) = r.evictableB g
      rw [alookup_amodify_ne _ _ _ _ h]
      rfl
    · rw [if_neg hev]

theorem evictableB_unpin_ne (r : LruReplacer) (f g : Nat) (h : g ≠ f) :
    (r.unpin f).evictableB g = r.evictableB g := by
  cases hl : alookup r.node_store f with
  | none => rw [unpin_eval_none r f hl]
  | some n =>
    rw [unpin_eval_some r f n hl]
    by_cases hev : n.is_evictable = true
    · rw [if_pos hev]
    · rw [if_neg hev]
      show (match alookup (amodify r.node_store f
        (fun m => { m with is_evictable := true })) g with
        | some n => n.is_evictable | none => false) = r.evictableB g
      rw [alookup_amodify_ne _ _ _ _ h]
      rfl

theorem evictableB_record_access_ne (r : LruReplacer) (f g : Nat) (h : g ≠ f) :
    (r.record_access f).evictableB g = r.evictableB g := by
  cases hl : alookup r.node_store f with
  | some n0 =>
    rw [record_access_some_eq r f n0 hl]
    show (match alookup (amodify r.node_store f
      (fun n => { n with last_accessed_timestamp := r.current_timestamp })) g with
      | some n => n.is_evictable | none => false) = r.evictableB g
    rw [alookup_amodify_ne _ _ _ _ h]
    rfl
  | none =>
    rw [record_access_none_eq r f hl]
    have hsing : alookup (r.node_store ++
        [(f, { frame_id := f, is_evictable := true
               last_accessed_timestamp := r.current_timestamp + 1 })]) g =
        alookup r.node_store g := by
      cases hg : alookup r.node_store g with
      | some w => rw [alookup_append_left _ _ _ _ hg]
      | none =>
        rw [alookup_append_right _ _ _ hg]
        have hfg : f ≠ g := fun he => h he.symm
        simp [alookup, hfg]
    show (match alookup (r.node_store ++
        [(f, { frame_id := f, is_evictable := true
               last_accessed_timestamp := r.current_timestamp + 1 })]) g with
      | some n => n.is_evictable | none => false) = r.evictableB g
    rw [hsing]
    rfl


/-! ### Replacer node store well-keying across operations -/

/-- evictableB only depends on the lookup of the frame. -/
theorem evictableB_eq_of_alookup (r1 r2 : LruReplacer) (g : Nat)
    (h : alookup r1.node_store g = alookup r2.node_store g) :
    r1.evictableB g = r2.evictableB g := by
  unfold LruReplacer.evictableB
  rw [h]

theorem store_wk_amodify (l : List (Nat × LruNode)) (k : Nat) (f : LruNode → LruNode)
    (hpres : ∀ n, (f n).frame_id = n.frame_id)
    (hknd : (tableKeys l).Nodup) (hfi : ∀ kn ∈ l, kn.2.frame_id = kn.1) :
    (tableKeys (amodify l k f)).Nodup ∧ ∀ kn ∈ amodify l k f, kn.2.frame_id = kn.1 := by
  refine ⟨by rw [tableKeys_amodify]; exact hknd, ?_⟩
  intro kn hkn
  rcases mem_amodify l k f kn hkn with ⟨hm, _⟩ | ⟨w, hw, he⟩
  · exact hfi kn hm
  · subst he
    show (f w).frame_id = k
    rw [hpres w]
    exact hfi (k, w) hw

theorem store_wk_aerase (l : List (Nat × LruNode)) (k : Nat)
    (hknd : (tableKeys l).Nodup) (hfi : ∀ kn ∈ l, kn.2.frame_id = kn.1) :
    (tableKeys (aerase l k)).Nodup ∧ ∀ kn ∈ aerase l k, kn.2.frame_id = kn.1 :=
  ⟨List.Nodup.sublist (keys_aerase_sublist l k) hknd,
   fun kn hm => hfi kn ((aerase_sublist l k).subset hm)⟩

theorem store_wk_record_access (r : LruReplacer) (f : Nat)
    (hknd : (tableKeys r.node_store).Nodup)
    (hfi : ∀ kn ∈ r.node_store, kn.2.frame_id = kn.1) :
    (tableKeys (r.record_access f).node_store).Nodup ∧
    (∀ kn ∈ (r.record_access f).node_store, kn.2.frame_id = kn.1) := by
  cases hl : alookup r.node_store f with
  | some n0 =>
    have hst : (r.record_access f).node_store = amodify r.node_store f
        (fun n => { n with last_accessed_timestamp := r.current_timestamp }) := by
      rw [record_access_some_eq r f n0 hl]
    rw [hst]
    exact store_wk_amodify _ _ _ (fun n => rfl) hknd hfi
  | none =>
    have hst : (r.record_access f).node_store = r.node_store ++
        [(f, { frame_id := f, is_evictable := true
               last_accessed_timestamp := r.current_timestamp + 1 })] := by
      rw [record_access_none_eq r f hl]
    rw [hst]
    have hf : f ∉ tableKeys r.node_store := (alookup_eq_none _ _).mp hl
    constructor
    · have hkeq : tableKeys (r.node_store ++
          [(f, { frame_id := f, is_evictable := true
                 last_accessed_timestamp := r.current_timestamp + 1 })]) =
          tableKeys r.node_store ++ [f] := by
        unfold tableKeys
        rw [List.map_append]
        rfl
      rw [hkeq, List.nodup_append]
      refine ⟨hknd, by simp, ?_⟩
      intro a ha hb
      simp at hb
      subst hb
      exact hf ha
    · intro kn hkn
      rcases List.mem_append.mp hkn with hm | hm
      · exact hfi kn hm
      · simp at hm
        subst hm
        rfl

theorem store_wk_pin (r : LruReplacer) (f : Nat)
    (hknd : (tableKeys r.node_store).Nodup)
    (hfi : ∀ kn ∈ r.node_store, kn.2.frame_id = kn.1) :
    (tableKeys (r.pin f).node_store).Nodup ∧
    (∀ kn ∈ (r.pin f).node_store, kn.2.frame_id = kn.1) := by
  cases hl : alookup r.node_store f with
  | none =>
    rw [pin_eval_none r f hl]
    exact ⟨hknd, hfi⟩
  | some n =>
    rw [pin_eval_some r f n hl]
    by_cases he : n.is_evictable = true
    · rw [if_pos he]
      exact store_wk_amodify r.node_store f (fun m => { m with is_evictable := false })
        (fun m => rfl) hknd hfi
    · rw [if_neg he]
      exact ⟨hknd, hfi⟩

theorem store_wk_unpin (r : LruReplacer) (f : Nat)
    (hknd : (tableKeys r.node_store).Nodup)
    (hfi : ∀ kn ∈ r.node_store, kn.2.frame_id = kn.1) :
    (tableKeys (r.unpin f).node_store).Nodup ∧
    (∀ kn ∈ (r.unpin f).node_store, kn.2.frame_id = kn.1) := by
  cases hl : alookup r.node_store f with
  | none =>
    rw [unpin_eval_none r f hl]
    exact ⟨hknd, hfi⟩
  | some n =>
    rw [unpin_eval_some r f n hl]
    by_cases he : n.is_evictable = true
    · rw [if_pos he]
      exact ⟨hknd, hfi⟩
    · rw [if_neg he]
      exact store_wk_amodify r.node_store f (fun m => { m with is_evictable := true })
        (fun m => rfl) hknd hfi

/-! ### The structural invariant (claim C6) -/

/-- A fresh pool over a fresh disk satisfies the invariant. -/
theorem poolInv_new (n : Nat) : PoolInv (BufferPoolManager.new n DiskManager.new) n := by
  refine ⟨?_, ?_, ?_, ?_, ?_, ?_, ?_, ?_, ?_, ?_, ?_⟩
  · show (List.range n).length + ([] : List (Nat × Nat)).length = n
    simp
  · show (List.replicate n PageFrame.new).length = n
    simp
  · show (tableKeys ([] : List (Nat × Nat))).Nodup
    simp [tableKeys]
  · show (tableVals ([] : List (Nat × Nat))).Nodup
    simp [tableVals]
  · intro kv hkv
    exact absurd hkv (List.not_mem_nil kv)
  · exact List.nodup_range n
  · intro f hf
    have hf2 : f ∈ List.range n := hf
    rw [List.mem_range] at hf2
    constructor
    · show f < (List.replicate n PageFrame.new).length
      simpa using hf2
    · show f ∉ tableVals ([] : List (Nat × Nat))
      simp [tableVals]
  · intro g hg
    have hg2 : LruReplacer.new.evictableB g = false := rfl
    have hg3 : LruReplacer.new.evictableB g = true := hg
    rw [hg2] at hg3
    exact absurd hg3 (by simp)
  · show (tableKeys ([] : List (Nat × LruNode))).Nodup
    simp [tableKeys]
  · intro kn hkn
    exact absurd hkn (List.not_mem_nil kn)
  · show PAGE_SIZE ≤ (0 + 1) * PAGE_SIZE
    simp

/-- get_free_frame, on success, hands out a frame that is outside the
page table, the free list and the evictable set, keeps every other
invariant component, and accounts for exactly one slot: the free list
and page table sizes now sum to one less than the pool size. -/
theorem gff_inv (b b1 : BufferPoolManager) (n fid : Nat)
    (hinv : PoolInv b n) (h : b.get_free_frame = (.ok fid, b1)) :
    b1.free_list.length + b1.page_table.length + 1 = n ∧
    b1.frames.length = n ∧
    (tableKeys b1.page_table).Nodup ∧
    (tableVals b1.page_table).Nodup ∧
    (∀ kv ∈ b1.page_table, kv.2 < b1.frames.length ∧
       (getFrame b1.frames kv.2).page_id = kv.1 ∧
       kv.1 ≤ b1.disk_manager.last_allocated_pid) ∧
    b1.free_list.Nodup ∧
    (∀ g ∈ b1.free_list, g < b1.frames.length ∧ g ∉ tableVals b1.page_table) ∧
    (∀ g, b1.replacer.evictableB g = true →
       alookup b1.page_table (getFrame b1.frames g).page_id = some g) ∧
    (tableKeys b1.replacer.node_store).Nodup ∧
    (∀ kn ∈ b1.replacer.node_store, kn.2.frame_id = kn.1) ∧
    b1.disk_manager.file_len ≤ (b1.disk_manager.last_allocated_pid + 1) * PAGE_SIZE ∧
    fid < n ∧
    fid ∉ tableVals b1.page_table ∧
    fid ∉ b1.free_list ∧
    b1.replacer.evictableB fid = false ∧
    b1.disk_manager.last_allocated_pid = b.disk_manager.last_allocated_pid ∧
    (∀ p, alookup b.page_table p = none → alookup b1.page_table p = none) := by
  obtain ⟨h1, h2, h3, h4, h5, h6, h7, h8, h9, h10, h11⟩ := hinv
  unfold BufferPoolManager.get_free_frame at h
  cases hfl : b.free_list with
  | cons f0 rest =>
    rw [hfl] at h
    have h2p : ((Except.ok f0 : Except Error Nat),
        ({ b with free_list := rest } : BufferPoolManager)) = (.ok fid, b1) := h
    simp only [Prod.mk.injEq, Except.ok.injEq] at h2p
    obtain ⟨hf0, hb1⟩ := h2p
    subst hf0
    subst hb1
    have h6c : (f0 :: rest).Nodup := by rw [← hfl]; exact h6
    have hmemf : f0 ∈ b.free_list := by rw [hfl]; exact List.mem_cons_self _ _
    refine ⟨?_, h2, h3, h4, ?_, (List.nodup_cons.mp h6c).2, ?_, ?_, h9, h10, h11,
      ?_, (h7 f0 hmemf).2, (List.nodup_cons.mp h6c).1, ?_, rfl, ?_⟩
    · show rest.length + b.page_table.length + 1 = n
      rw [hfl] at h1
      simp only [List.length_cons] at h1
      omega
    · intro kv hkv
      exact h5 kv hkv
    · intro g hg
      have hg2 : g ∈ b.free_list := by
        rw [hfl]
        exact List.mem_cons_of_mem _ hg
      exact h7 g hg2
    · intro g hg
      exact h8 g hg
    · have := (h7 f0 hmemf).1
      omega
    · cases hev : b.replacer.evictableB f0 with
      | false => rfl
      | true =>
        have hres := h8 f0 hev
        have hvm : f0 ∈ tableVals b.page_table :=
          mem_tableVals _ _ _ (alookup_mem _ _ _ hres)
        exact absurd hvm (h7 f0 hmemf).2
    · intro p hp
      exact hp
  | nil =>
    rw [hfl] at h
    cases hev : b.replacer.evict with
    | mk o r1 =>
      rw [hev] at h
      cases o with
      | none =>
        have hh : ((Except.error (Error.Panic "Failed to evict a frame. Either increase bpm capacity or make sure pages are unpinned.") : Except Error Nat),
            ({ frames := b.frames, page_table := b.page_table, replacer := r1,
               free_list := [], disk_manager := b.disk_manager } :
              BufferPoolManager)) = (.ok fid, b1) := h
        simp at hh
      | some g =>
        have hh : (if (getFrame b.frames g).pin_cnt ≠ 0 then
            ((Except.error (Error.Panic "If page is evicted from replacer, its pin count must be 0.") : Except Error Nat),
             ({ frames := b.frames, page_table := b.page_table, replacer := r1,
                free_list := [], disk_manager := b.disk_manager } :
               BufferPoolManager))
          else
            match (if (getFrame b.frames g).is_dirty = true then
                     b.disk_manager.write (getFrame b.frames g).page_id
                       (readBytes (getFrame b.frames g).data 0 PAGE_SIZE)
                   else Except.ok b.disk_manager) with
            | Except.error e =>
              ((Except.error (Error.Panic "disk write during eviction failed") : Except Error Nat),
               ({ frames := b.frames, page_table := b.page_table, replacer := r1,
                  free_list := [], disk_manager := b.disk_manager } :
                 BufferPoolManager))
            | Except.ok dm1 =>
              (Except.ok g,
               ({ frames := b.frames.set g ((getFrame b.frames g).reset),
                  page_table := aerase b.page_table (getFrame b.frames g).page_id,
                  replacer := r1, free_list := [], disk_manager := dm1 } :
                 BufferPoolManager))) = (.ok fid, b1) := h
        by_cases hpin : (getFrame b.frames g).pin_cnt ≠ 0
        · rw [if_pos hpin] at hh
          simp at hh
        · rw [if_neg hpin] at hh
          cases hdw : (if (getFrame b.frames g).is_dirty = true then
              b.disk_manager.write (getFrame b.frames g).page_id
                (readBytes (getFrame b.frames g).data 0 PAGE_SIZE)
            else Except.ok b.disk_manager) with
          | error e =>
            rw [hdw] at hh
            have hh2 : ((Except.error (Error.Panic "disk write during eviction failed") : Except Error Nat),
                ({ frames := b.frames, page_table := b.page_table, replacer := r1,
                   free_list := [], disk_manager := b.disk_manager } :
                  BufferPoolManager)) = (.ok fid, b1) := hh
            simp at hh2
          | ok dm1 =>
            rw [hdw] at hh
            have hh2 : ((Except.ok g : Except Error Nat),
                ({ frames := b.frames.set g ((getFrame b.frames g).reset),
                   page_table := aerase b.page_table (getFrame b.frames g).page_id,
                   replacer := r1, free_list := [], disk_manager := dm1 } :
                  BufferPoolManager)) = (.ok fid, b1) := hh
            simp only [Prod.mk.injEq, Except.ok.injEq] at hh2
            obtain ⟨hgfid, hb1⟩ := hh2
            subst g
            subst b1
            cases hcand : b.replacer.evictCandidate with
            | none =>
              rw [evict_none_of_candidate _ hcand] at hev
              simp at hev
            | some g2 =>
              rw [evict_eq_of_candidate _ _ hcand] at hev
              simp only [Prod.mk.injEq, Option.some.injEq] at hev
              obtain ⟨hg2, hr1⟩ := hev
              subst g2
              subst r1
              have hevB : b.replacer.evictableB fid = true :=
                evictCandidate_some_evictableB _ _ h9 h10 hcand
              have hres : alookup b.page_table (getFrame b.frames fid).page_id =
                  some fid := h8 fid hevB
              have hmem : ((getFrame b.frames fid).page_id, fid) ∈ b.page_table :=
                alookup_mem _ _ _ hres
              have hkeymem : (getFrame b.frames fid).page_id ∈ tableKeys b.page_table :=
                (mem_tableKeys _ _).mpr ⟨fid, hmem⟩
              obtain ⟨hfidlt, hfrpid, hfidpid⟩ := h5 _ hmem
              have hdm : dm1.last_allocated_pid = b.disk_manager.last_allocated_pid ∧
                  (dm1.file_len = b.disk_manager.file_len ∨
                   dm1.file_len = max b.disk_manager.file_len
                     ((getFrame b.frames fid).page_id * PAGE_SIZE + PAGE_SIZE)) := by
                cases hd : (getFrame b.frames fid).is_dirty with
                | false =>
                  rw [hd] at hdw
                  simp at hdw
                  subst hdw
                  exact ⟨rfl, Or.inl rfl⟩
                | true =>
                  rw [hd] at hdw
                  simp at hdw
                  obtain ⟨hwl, hwf⟩ := write_ok_inv _ _ _ _ hdw
                  rw [readBytes_length] at hwf
                  exact ⟨hwl, Or.inr hwf⟩
              obtain ⟨hlastEq, hfileOr⟩ := hdm
              have hlen := aerase_length_mem b.page_table
                (getFrame b.frames fid).page_id hkeymem
              have hvne : fid ∉ tableVals
                  (aerase b.page_table (getFrame b.frames fid).page_id) :=
                vals_aerase_not_mem _ _ _ h4 hres
              refine ⟨?_, ?_, ?_, ?_, ?_, ?_, ?_, ?_, ?_, ?_, ?_, ?_, hvne, ?_, ?_,
                hlastEq, ?_⟩
              · show ([] : List Nat).length +
                  (aerase b.page_table (getFrame b.frames fid).page_id).length + 1 = n
                simp only [List.length_nil]
                rw [hfl] at h1
                simp only [List.length_nil] at h1
                omega
              · show (b.frames.set fid ((getFrame b.frames fid).reset)).length = n
                rw [List.length_set]
                exact h2
              · exact List.Nodup.sublist (keys_aerase_sublist _ _) h3
              · exact List.Nodup.sublist (vals_aerase_sublist _ _) h4
              · intro kv hkv
                obtain ⟨pk, pv⟩ := kv
                have hkv0 : (pk, pv) ∈ b.page_table := (aerase_sublist _ _).subset hkv
                obtain ⟨ha, hb, hc⟩ := h5 _ hkv0
                have hne : pv ≠ fid := by
                  intro he
                  subst he
                  exact hvne (mem_tableVals _ _ _ hkv)
                refine ⟨?_, ?_, ?_⟩
                · show pv < (b.frames.set fid ((getFrame b.frames fid).reset)).length
                  rw [List.length_set]
                  exact ha
                · show (getFrame (b.frames.set fid ((getFrame b.frames fid).reset)) pv).page_id = pk
                  rw [getFrame_set_ne _ _ _ _ hne]
                  exact hb
                · show pk ≤ dm1.last_allocated_pid
                  rw [hlastEq]
                  exact hc
              · show ([] : List Nat).Nodup
                exact List.nodup_nil
              · intro q hq
                exact absurd hq (List.not_mem_nil q)
              · intro q hq
                have hq2 : ({ b.replacer with
                    node_store := aerase b.replacer.node_store fid
                    evictable_count := b.replacer.evictable_count - 1 } :
                    LruReplacer).evictableB q = true := hq
                by_cases hqfid : q = fid
                · subst hqfid
                  have hqf : ({ b.replacer with
                      node_store := aerase b.replacer.node_store q
                      evictable_count := b.replacer.evictable_count - 1 } :
                      LruReplacer).evictableB q = false := by
                    show (match alookup (aerase b.replacer.node_store q) q with
                      | some n => n.is_evictable | none => false) = false
                    rw [alookup_aerase_self _ _ h9]
                  rw [hqf] at hq2
                  exact absurd hq2 (by simp)
                · have hEB : ({ b.replacer with
                      node_store := aerase b.replacer.node_store fid
                      evictable_count := b.replacer.evictable_count - 1 } :
                      LruReplacer).evictableB q = b.replacer.evictableB q :=
                    evictableB_eq_of_alookup _ _ q (alookup_aerase_ne _ _ _ hqfid)
                  rw [hEB] at hq2
                  have hresq := h8 q hq2
                  show alookup (aerase b.page_table (getFrame b.frames fid).page_id)
                    (getFrame (b.frames.set fid ((getFrame b.frames fid).reset)) q).page_id =
                    some q
                  rw [getFrame_set_ne _ _ _ _ hqfid]
                  have hpidne : (getFrame b.frames q).page_id ≠
                      (getFrame b.frames fid).page_id := by
                    intro he
                    rw [he] at hresq
                    rw [hresq] at hres
                    injection hres with hres
                    exact hqfid hres
                  rw [alookup_aerase_ne _ _ _ hpidne]
                  exact hresq
              · exact (store_wk_aerase _ _ h9 h10).1
              · intro kn hkn
                exact (store_wk_aerase _ _ h9 h10).2 kn hkn
              · show dm1.file_len ≤ (dm1.last_allocated_pid + 1) * PAGE_SIZE
                rw [hlastEq]
                rcases hfileOr with hf | hf
                · rw [hf]
                  exact h11
                · rw [hf]
                  have hps : PAGE_SIZE = 4096 := rfl
                  refine max_le h11 ?_
                  rw [hps]
                  rw [hps] at h11
                  omega
              · rw [← h2]
                exact hfidlt
              · show fid ∉ ([] : List Nat)
                exact List.not_mem_nil fid
              · show (match alookup (aerase b.replacer.node_store fid) fid with
                  | some n => n.is_evictable | none => false) = false
                rw [alookup_aerase_self _ _ h9]
              · intro p hp
                exact alookup_aerase_none _ _ _ hp


/-! ### Page table append helpers -/

theorem keys_append_nodup (l : List (Nat × Nat)) (k v : Nat)
    (hnd : (tableKeys l).Nodup) (hnm : alookup l k = none) :
    (tableKeys (l ++ [(k, v)])).Nodup := by
  have hkeq : tableKeys (l ++ [(k, v)]) = tableKeys l ++ [k] := by
    unfold tableKeys
    rw [List.map_append]
    rfl
  rw [hkeq, List.nodup_append]
  refine ⟨hnd, by simp, ?_⟩
  intro a ha hb
  simp at hb
  subst hb
  exact (alookup_eq_none _ _).mp hnm ha

theorem vals_append_nodup (l : List (Nat × Nat)) (k v : Nat)
    (hnd : (tableVals l).Nodup) (hnm : v ∉ tableVals l) :
    (tableVals (l ++ [(k, v)])).Nodup := by
  have hkeq : tableVals (l ++ [(k, v)]) = tableVals l ++ [v] := by
    unfold tableVals
    rw [List.map_append]
    rfl
  rw [hkeq, List.nodup_append]
  refine ⟨hnd, by simp, ?_⟩
  intro a ha hb
  simp at hb
  subst hb
  exact hnm ha

theorem mem_vals_append (l : List (Nat × Nat)) (k w v : Nat)
    (h : v ∈ tableVals (l ++ [(k, w)])) : v ∈ tableVals l ∨ v = w := by
  unfold tableVals at h
  rw [List.map_append] at h
  rcases List.mem_append.mp h with hm | hm
  · exact Or.inl hm
  · right
    simpa using hm

/-- remove on an ok result either left the replacer alone (untracked
frame) or erased the node. -/
theorem remove_ok_cases (r : LruReplacer) (f : Nat) (r2 : LruReplacer)
    (h : r.remove f = .ok r2) :
    (alookup r.node_store f = none ∧ r2 = r) ∨
    r2 = { r with node_store := aerase r.node_store f
                  evictable_count := r.evictable_count - 1 } := by
  cases hl : alookup r.node_store f with
  | none =>
    rw [remove_eval_none r f hl] at h
    injection h with h
    exact Or.inl ⟨rfl, h.symm⟩
  | some nd =>
    cases hev : nd.is_evictable with
    | true =>
      rw [remove_eval_some r f nd hl hev] at h
      injection h with h
      exact Or.inr h.symm
    | false =>
      rw [remove_eval_some_pinned r f nd hl hev] at h
      exact absurd h (by simp)

/-! ### Invariant preservation under a single-frame update -/

theorem poolInv_frame_update (b : BufferPoolManager) (n pid fid : Nat) (F : PageFrame)
    (hinv : PoolInv b n) (hl : alookup b.page_table pid = some fid)
    (hFpid : F.page_id = (getFrame b.frames fid).page_id) :
    PoolInv { b with frames := b.frames.set fid F } n := by
  obtain ⟨h1, h2, h3, h4, h5, h6, h7, h8, h9, h10, h11⟩ := hinv
  have hmem : (pid, fid) ∈ b.page_table := alookup_mem _ _ _ hl
  obtain ⟨hflt, hfpid, hfle⟩ := h5 _ hmem
  refine ⟨h1, ?_, h3, h4, ?_, h6, ?_, ?_, h9, h10, h11⟩
  · show (b.frames.set fid F).length = n
    rw [List.length_set]
    exact h2
  · intro kv hkv
    obtain ⟨pk, pv⟩ := kv
    obtain ⟨ha, hb, hc⟩ := h5 _ hkv
    by_cases hpv : pv = fid
    · subst hpv
      refine ⟨by rw [List.length_set]; exact ha, ?_, hc⟩
      show (getFrame (b.frames.set pv F) pv).page_id = pk
      rw [getFrame_set_self _ _ _ hflt, hFpid, hfpid]
      exact vals_nodup_unique _ _ _ _ h4 hmem hkv
    · refine ⟨by rw [List.length_set]; exact ha, ?_, hc⟩
      show (getFrame (b.frames.set fid F) pv).page_id = pk
      rw [getFrame_set_ne _ _ _ _ hpv]
      exact hb
  · intro q hq
    exact ⟨by rw [List.length_set]; exact (h7 q hq).1, (h7 q hq).2⟩
  · intro q hq
    have hq2 : b.replacer.evictableB q = true := hq
    by_cases hqf : q = fid
    · subst hqf
      show alookup b.page_table (getFrame (b.frames.set q F) q).page_id = some q
      rw [getFrame_set_self _ _ _ hflt, hFpid]
      exact h8 q hq2
    · show alookup b.page_table (getFrame (b.frames.set fid F) q).page_id = some q
      rw [getFrame_set_ne _ _ _ _ hqf]
      exact h8 q hq2

theorem poolInv_frame_update_unpin (b : BufferPoolManager) (n pid fid : Nat)
    (F : PageFrame)
    (hinv : PoolInv b n) (hl : alookup b.page_table pid = some fid)
    (hFpid : F.page_id = (getFrame b.frames fid).page_id) :
    PoolInv { b with frames := b.frames.set fid F
                     replacer := b.replacer.unpin fid } n := by
  obtain ⟨h1, h2, h3, h4, h5, h6, h7, h8, h9, h10, h11⟩ := hinv
  have hmem : (pid, fid) ∈ b.page_table := alookup_mem _ _ _ hl
  obtain ⟨hflt, hfpid, hfle⟩ := h5 _ hmem
  refine ⟨h1, ?_, h3, h4, ?_, h6, ?_, ?_, ?_, ?_, h11⟩
  · show (b.frames.set fid F).length = n
    rw [List.length_set]
    exact h2
  · intro kv hkv
    obtain ⟨pk, pv⟩ := kv
    obtain ⟨ha, hb, hc⟩ := h5 _ hkv
    by_cases hpv : pv = fid
    · subst hpv
      refine ⟨by rw [List.length_set]; exact ha, ?_, hc⟩
      show (getFrame (b.frames.set pv F) pv).page_id = pk
      rw [getFrame_set_self _ _ _ hflt, hFpid, hfpid]
      exact vals_nodup_unique _ _ _ _ h4 hmem hkv
    · refine ⟨by rw [List.length_set]; exact ha, ?_, hc⟩
      show (getFrame (b.frames.set fid F) pv).page_id = pk
      rw [getFrame_set_ne _ _ _ _ hpv]
      exact hb
  · intro q hq
    exact ⟨by rw [List.length_set]; exact (h7 q hq).1, (h7 q hq).2⟩
  · intro q hq
    have hq2 : (b.replacer.unpin fid).evictableB q = true := hq
    by_cases hqf : q = fid
    · subst hqf
      show alookup b.page_table (getFrame (b.frames.set q F) q).page_id = some q
      rw [getFrame_set_self _ _ _ hflt, hFpid, hfpid]
      exact hl
    · rw [evictableB_unpin_ne _ _ _ hqf] at hq2
      show alookup b.page_table (getFrame (b.frames.set fid F) q).page_id = some q
      rw [getFrame_set_ne _ _ _ _ hqf]
      exact h8 q hq2
  · exact (store_wk_unpin _ _ h9 h10).1
  · intro kn hkn
    exact (store_wk_unpin _ _ h9 h10).2 kn hkn

theorem poolInv_frame_update_touch (b : BufferPoolManager) (n pid fid : Nat)
    (F : PageFrame)
    (hinv : PoolInv b n) (hl : alookup b.page_table pid = some fid)
    (hFpid : F.page_id = (getFrame b.frames fid).page_id) :
    PoolInv { b with frames := b.frames.set fid F
                     replacer := (b.replacer.record_access fid).pin fid } n := by
  obtain ⟨h1, h2, h3, h4, h5, h6, h7, h8, h9, h10, h11⟩ := hinv
  have hmem : (pid, fid) ∈ b.page_table := alookup_mem _ _ _ hl
  obtain ⟨hflt, hfpid, hfle⟩ := h5 _ hmem
  have hra := store_wk_record_access b.replacer fid h9 h10
  have hpn := store_wk_pin (b.replacer.record_access fid) fid hra.1 hra.2
  refine ⟨h1, ?_, h3, h4, ?_, h6, ?_, ?_, hpn.1, hpn.2, h11⟩
  · show (b.frames.set fid F).length = n
    rw [List.length_set]
    exact h2
  · intro kv hkv
    obtain ⟨pk, pv⟩ := kv
    obtain ⟨ha, hb, hc⟩ := h5 _ hkv
    by_cases hpv : pv = fid
    · subst hpv
      refine ⟨by rw [List.length_set]; exact ha, ?_, hc⟩
      show (getFrame (b.frames.set pv F) pv).page_id = pk
      rw [getFrame_set_self _ _ _ hflt, hFpid, hfpid]
      exact vals_nodup_unique _ _ _ _ h4 hmem hkv
    · refine ⟨by rw [List.length_set]; exact ha, ?_, hc⟩
      show (getFrame (b.frames.set fid F) pv).page_id = pk
      rw [getFrame_set_ne _ _ _ _ hpv]
      exact hb
  · intro q hq
    exact ⟨by rw [List.length_set]; exact (h7 q hq).1, (h7 q hq).2⟩
  · intro q hq
    have hq2 : ((b.replacer.record_access fid).pin fid).evictableB q = true := hq
    by_cases hqf : q = fid
    · subst hqf
      rw [evictableB_pin_self] at hq2
      exact absurd hq2 (by simp)
    · rw [evictableB_pin_ne _ _ _ hqf, evictableB_record_access_ne _ _ _ hqf] at hq2
      show alookup b.page_table (getFrame (b.frames.set fid F) q).page_id = some q
      rw [getFrame_set_ne _ _ _ _ hqf]
      exact h8 q hq2

/-! ### Evaluation of create_page and fetch_page_mut by the outcome of
their sub-operations -/

theorem create_eval_allocfail (b : BufferPoolManager) (e : Error) (dm1 : DiskManager)
    (hall : b.disk_manager.allocate_page = (.error e, dm1)) :
    b.create_page = (.error (.Panic "allocate_page failed"),
      { b with disk_manager := dm1 }) := by
  unfold BufferPoolManager.create_page
  simp only [hall]

theorem create_eval_gfffail (b : BufferPoolManager) (npid : Nat) (dm1 : DiskManager)
    (e : Error) (b2 : BufferPoolManager)
    (hall : b.disk_manager.allocate_page = (.ok npid, dm1))
    (hgff : BufferPoolManager.get_free_frame { b with disk_manager := dm1 } =
      (.error e, b2)) :
    b.create_page = (.error e, b2) := by
  unfold BufferPoolManager.create_page
  simp only [hall, hgff]

theorem create_eval_gen (b : BufferPoolManager) (npid : Nat) (dm1 : DiskManager)
    (fid : Nat) (b2 : BufferPoolManager)
    (hall : b.disk_manager.allocate_page = (.ok npid, dm1))
    (hgff : BufferPoolManager.get_free_frame { b with disk_manager := dm1 } =
      (.ok fid, b2)) :
    b.create_page = (.ok fid,
      { b2 with
        page_table := ainsert b2.page_table npid fid
        frames := b2.frames.set fid
          { getFrame b2.frames fid with
              page_id := npid, is_dirty := false, pin_cnt := 1 }
        replacer := (b2.replacer.record_access fid).pin fid }) := by
  unfold BufferPoolManager.create_page
  simp only [hall, hgff]

theorem fetch_miss_gfffail (b : BufferPoolManager) (pid : Nat) (e : Error)
    (b1 : BufferPoolManager)
    (hl : alookup b.page_table pid = none)
    (hgff : b.get_free_frame = (.error e, b1)) :
    b.fetch_page_mut pid = (.error e, b1) := by
  unfold BufferPoolManager.fetch_page_mut
  simp only [hl, hgff]

theorem fetch_miss_read_err (b : BufferPoolManager) (pid fid : Nat)
    (b1 : BufferPoolManager) (e : Error)
    (hl : alookup b.page_table pid = none)
    (hgff : b.get_free_frame = (.ok fid, b1))
    (hrd : b1.disk_manager.read pid = .error e) :
    b.fetch_page_mut pid = (.error (.Panic "disk read during fetch failed"),
      { b1 with
        page_table := ainsert b1.page_table pid fid
        frames := b1.frames.set fid
          { getFrame b1.frames fid with
              page_id := pid, is_dirty := false, pin_cnt := 1 } }) := by
  unfold BufferPoolManager.fetch_page_mut
  simp only [hl, hgff, hrd]

theorem fetch_miss_read_none (b : BufferPoolManager) (pid fid : Nat)
    (b1 : BufferPoolManager)
    (hl : alookup b.page_table pid = none)
    (hgff : b.get_free_frame = (.ok fid, b1))
    (hrd : b1.disk_manager.read pid = .ok none) :
    b.fetch_page_mut pid = (.error (.Panic "called Option unwrap on a None value"),
      { b1 with
        page_table := ainsert b1.page_table pid fid
        frames := b1.frames.set fid
          { getFrame b1.frames fid with
              page_id := pid, is_dirty := false, pin_cnt := 1 } }) := by
  unfold BufferPoolManager.fetch_page_mut
  simp only [hl, hgff, hrd]

theorem fetch_miss_eval (b : BufferPoolManager) (pid fid : Nat)
    (b1 : BufferPoolManager) (data : List Nat)
    (hl : alookup b.page_table pid = none)
    (hgff : b.get_free_frame = (.ok fid, b1))
    (hrd : b1.disk_manager.read pid = .ok (some data)) :
    b.fetch_page_mut pid = (.ok fid,
      { b1 with
        page_table := ainsert b1.page_table pid fid
        frames := (b1.frames.set fid
          { getFrame b1.frames fid with
              page_id := pid, is_dirty := false, pin_cnt := 1 }).set fid
          { getFrame b1.frames fid with
              page_id := pid, is_dirty := false, pin_cnt := 1
              data := writeBytes (getFrame b1.frames fid).data 0 data } }) := by
  unfold BufferPoolManager.fetch_page_mut
  simp only [hl, hgff, hrd]


/-- create_page preserves the structural invariant. -/
theorem create_inv (b b4 : BufferPoolManager) (n fid : Nat)
    (hinv : PoolInv b n) (h : b.create_page = (.ok fid, b4)) : PoolInv b4 n := by
  obtain ⟨h1, h2, h3, h4, h5, h6, h7, h8, h9, h10, h11⟩ := hinv
  cases hall : b.disk_manager.allocate_page with
  | mk res dm1 =>
    cases res with
    | error e =>
      rw [create_eval_allocfail b e dm1 hall] at h
      simp at h
    | ok npid =>
      cases hgff : BufferPoolManager.get_free_frame { b with disk_manager := dm1 } with
      | mk res2 b2 =>
        cases res2 with
        | error e =>
          rw [create_eval_gfffail b npid dm1 e b2 hall hgff] at h
          simp at h
        | ok fid2 =>
          rw [create_eval_gen b npid dm1 fid2 b2 hall hgff] at h
          simp only [Prod.mk.injEq, Except.ok.injEq] at h
          obtain ⟨hf2, hb4⟩ := h
          subst fid2
          subst b4
          obtain ⟨ha1, ha2, ha3⟩ := allocate_ok_inv _ _ _ hall
          have hinv1 : PoolInv { b with disk_manager := dm1 } n := by
            refine ⟨h1, h2, h3, h4, ?_, h6, h7, h8, h9, h10, ?_⟩
            · intro kv hkv
              obtain ⟨ha, hb, hc⟩ := h5 kv hkv
              refine ⟨ha, hb, ?_⟩
              show kv.1 ≤ dm1.last_allocated_pid
              rw [ha2, ha1]
              omega
            · show dm1.file_len ≤ (dm1.last_allocated_pid + 1) * PAGE_SIZE
              rw [ha3, ha2, ha1]
              have hps : PAGE_SIZE = 4096 := rfl
              rw [hps]
              rw [hps] at h11
              omega
          obtain ⟨g1, g2, g3, g4, g5, g6, g7, g8, g9, g10, g11, g12, g13, g14,
            g15, g16, g17⟩ := gff_inv _ _ n fid hinv1 hgff
          have hnm : alookup b.page_table npid = none := by
            rw [alookup_eq_none]
            intro hk
            obtain ⟨v, hv⟩ := (mem_tableKeys _ _).mp hk
            have hle := (h5 (npid, v) hv).2.2
            omega
          have hnm2 : alookup b2.page_table npid = none := g17 npid hnm
          have hins : ainsert b2.page_table npid fid = b2.page_table ++ [(npid, fid)] :=
            ainsert_eq_append _ _ _ hnm2
          have hfl2 : fid < b2.frames.length := by
            rw [g2]
            exact g12
          have hra := store_wk_record_access b2.replacer fid g9 g10
          have hpn := store_wk_pin (b2.replacer.record_access fid) fid hra.1 hra.2
          refine ⟨?_, ?_, ?_, ?_, ?_, g6, ?_, ?_, hpn.1, ?_, g11⟩
          · show b2.free_list.length + (ainsert b2.page_table npid fid).length = n
            rw [hins, List.length_append]
            simp only [List.length_singleton]
            omega
          · simp only [List.length_set]
            exact g2
          · show (tableKeys (ainsert b2.page_table npid fid)).Nodup
            rw [hins]
            exact keys_append_nodup _ _ _ g3 hnm2
          · show (tableVals (ainsert b2.page_table npid fid)).Nodup
            rw [hins]
            exact vals_append_nodup _ _ _ g4 g13
          · intro kv hkv
            obtain ⟨pk, pv⟩ := kv
            have hkv2 : (pk, pv) ∈ ainsert b2.page_table npid fid := hkv
            rw [hins] at hkv2
            rcases List.mem_append.mp hkv2 with hm | hm
            · obtain ⟨ga, gb, gc⟩ := g5 _ hm
              have hne : pv ≠ fid := by
                intro he
                subst he
                exact g13 (mem_tableVals _ _ _ hm)
              refine ⟨?_, ?_, ?_⟩
              · simp only [List.length_set]
                exact ga
              · show (getFrame (b2.frames.set fid { getFrame b2.frames fid with page_id := npid, is_dirty := false, pin_cnt := 1 }) pv).page_id = pk
                rw [getFrame_set_ne _ _ _ _ hne]
                exact gb
              · show pk ≤ b2.disk_manager.last_allocated_pid
                exact gc
            · have hm2 : (pk, pv) = (npid, fid) := by simpa using hm
              simp only [Prod.mk.injEq] at hm2
              obtain ⟨he1, he2⟩ := hm2
              subst pk
              subst pv
              refine ⟨?_, ?_, ?_⟩
              · simp only [List.length_set]
                exact hfl2
              · show (getFrame (b2.frames.set fid { getFrame b2.frames fid with page_id := npid, is_dirty := false, pin_cnt := 1 }) fid).page_id = npid
                simp [getFrame_set_self _ _ _ hfl2]
              · show npid ≤ b2.disk_manager.last_allocated_pid
                rw [g16]
                show npid ≤ dm1.last_allocated_pid
                omega
          · intro q hq
            have hq2 : q ∈ b2.free_list := hq
            refine ⟨?_, ?_⟩
            · simp only [List.length_set]
              exact (g7 q hq2).1
            · intro hc
              have hc2 : q ∈ tableVals (ainsert b2.page_table npid fid) := hc
              rw [hins] at hc2
              rcases mem_vals_append _ _ _ _ hc2 with hm | hm
              · exact (g7 q hq2).2 hm
              · subst hm
                exact g14 hq2
          · intro q hq
            have hq2 : ((b2.replacer.record_access fid).pin fid).evictableB q = true := hq
            by_cases hqf : q = fid
            · subst hqf
              rw [evictableB_pin_self] at hq2
              exact absurd hq2 (by simp)
            · rw [evictableB_pin_ne _ _ _ hqf,
                evictableB_record_access_ne _ _ _ hqf] at hq2
              show alookup (ainsert b2.page_table npid fid)
                (getFrame (b2.frames.set fid { getFrame b2.frames fid with page_id := npid, is_dirty := false, pin_cnt := 1 }) q).page_id = some q
              rw [getFrame_set_ne _ _ _ _ hqf, hins]
              exact alookup_append_left _ _ _ _ (g8 q hq2)
          · intro kn hkn
            exact hpn.2 kn hkn

/-- fetch_page_mut preserves the structural invariant. -/
theorem fetch_inv (b b2 : BufferPoolManager) (n pid fid : Nat)
    (hinv : PoolInv b n) (h : b.fetch_page_mut pid = (.ok fid, b2)) : PoolInv b2 n := by
  cases hl : alookup b.page_table pid with
  | some fid0 =>
    rw [fetch_hit_eq b pid fid0 hl] at h
    simp only [Prod.mk.injEq, Except.ok.injEq] at h
    obtain ⟨hf0, hb2⟩ := h
    subst fid0
    subst b2
    exact poolInv_frame_update_touch b n pid fid
      { getFrame b.frames fid with pin_cnt := (getFrame b.frames fid).pin_cnt + 1 }
      hinv hl rfl
  | none =>
    cases hgff : b.get_free_frame with
    | mk res b1 =>
      cases res with
      | error e =>
        rw [fetch_miss_gfffail b pid e b1 hl hgff] at h
        simp at h
      | ok fid2 =>
        cases hrd : b1.disk_manager.read pid with
        | error e =>
          rw [fetch_miss_read_err b pid fid2 b1 e hl hgff hrd] at h
          simp at h
        | ok o =>
          cases o with
          | none =>
            rw [fetch_miss_read_none b pid fid2 b1 hl hgff hrd] at h
            simp at h
          | some data =>
            rw [fetch_miss_eval b pid fid2 b1 data hl hgff hrd] at h
            simp only [Prod.mk.injEq, Except.ok.injEq] at h
            obtain ⟨hf2, hb2⟩ := h
            subst fid2
            subst b2
            obtain ⟨g1, g2, g3, g4, g5, g6, g7, g8, g9, g10, g11, g12, g13, g14,
              g15, g16, g17⟩ := gff_inv _ _ n fid hinv hgff
            have hnm1 : alookup b1.page_table pid = none := g17 pid hl
            have hins : ainsert b1.page_table pid fid = b1.page_table ++ [(pid, fid)] :=
              ainsert_eq_append _ _ _ hnm1
            have hfl1 : fid < b1.frames.length := by
              rw [g2]
              exact g12
            have hfl1s : fid < (b1.frames.set fid { getFrame b1.frames fid with page_id := pid, is_dirty := false, pin_cnt := 1 }).length := by
              rw [List.length_set]
              exact hfl1
            have hpidle : pid ≤ b1.disk_manager.last_allocated_pid := by
              have hrb := read_ok_some_bound _ _ _ hrd
              have g11c := g11
              have hps : PAGE_SIZE = 4096 := rfl
              rw [hps] at hrb
              rw [hps] at g11c
              omega
            refine ⟨?_, ?_, ?_, ?_, ?_, g6, ?_, ?_, g9, ?_, g11⟩
            · show b1.free_list.length + (ainsert b1.page_table pid fid).length = n
              rw [hins, List.length_append]
              simp only [List.length_singleton]
              omega
            · simp only [List.length_set]
              exact g2
            · show (tableKeys (ainsert b1.page_table pid fid)).Nodup
              rw [hins]
              exact keys_append_nodup _ _ _ g3 hnm1
            · show (tableVals (ainsert b1.page_table pid fid)).Nodup
              rw [hins]
              exact vals_append_nodup _ _ _ g4 g13
            · intro kv hkv
              obtain ⟨pk, pv⟩ := kv
              have hkv2 : (pk, pv) ∈ ainsert b1.page_table pid fid := hkv
              rw [hins] at hkv2
              rcases List.mem_append.mp hkv2 with hm | hm
              · obtain ⟨ga, gb, gc⟩ := g5 _ hm
                have hne : pv ≠ fid := by
                  intro he
                  subst he
                  exact g13 (mem_tableVals _ _ _ hm)
                refine ⟨?_, ?_, ?_⟩
                · simp only [List.length_set]
                  exact ga
                · show (getFrame ((b1.frames.set fid { getFrame b1.frames fid with page_id := pid, is_dirty := false, pin_cnt := 1 }).set fid { getFrame b1.frames fid with page_id := pid, is_dirty := false, pin_cnt := 1, data := writeBytes (getFrame b1.frames fid).data 0 data }) pv).page_id = pk
                  rw [getFrame_set_ne _ _ _ _ hne, getFrame_set_ne _ _ _ _ hne]
                  exact gb
                · show pk ≤ b1.disk_manager.last_allocated_pid
                  exact gc
              · have hm2 : (pk, pv) = (pid, fid) := by simpa using hm
                simp only [Prod.mk.injEq] at hm2
                obtain ⟨he1, he2⟩ := hm2
                subst pk
                subst pv
                refine ⟨?_, ?_, ?_⟩
                · simp only [List.length_set]
                  exact hfl1
                · show (getFrame ((b1.frames.set fid { getFrame b1.frames fid with page_id := pid, is_dirty := false, pin_cnt := 1 }).set fid { getFrame b1.frames fid with page_id := pid, is_dirty := false, pin_cnt := 1, data := writeBytes (getFrame b1.frames fid).data 0 data }) fid).page_id = pid
                  rw [List.set_set]
                  simp [getFrame_set_self _ _ _ hfl1]
                · show pid ≤ b1.disk_manager.last_allocated_pid
                  exact hpidle
            · intro q hq
              have hq2 : q ∈ b1.free_list := hq
              refine ⟨?_, ?_⟩
              · simp only [List.length_set]
                exact (g7 q hq2).1
              · intro hc
                have hc2 : q ∈ tableVals (ainsert b1.page_table pid fid) := hc
                rw [hins] at hc2
                rcases mem_vals_append _ _ _ _ hc2 with hm | hm
                · exact (g7 q hq2).2 hm
                · subst hm
                  exact g14 hq2
            · intro q hq
              have hq2 : b1.replacer.evictableB q = true := hq
              by_cases hqf : q = fid
              · subst hqf
                rw [g15] at hq2
                exact absurd hq2 (by simp)
              · show alookup (ainsert b1.page_table pid fid)
                  (getFrame ((b1.frames.set fid { getFrame b1.frames fid with page_id := pid, is_dirty := false, pin_cnt := 1 }).set fid { getFrame b1.frames fid with page_id := pid, is_dirty := false, pin_cnt := 1, data := writeBytes (getFrame b1.frames fid).data 0 data }) q).page_id = some q
                rw [getFrame_set_ne _ _ _ _ hqf, getFrame_set_ne _ _ _ _ hqf, hins]
                exact alookup_append_left _ _ _ _ (g8 q hq2)
            · intro kn hkn
              exact g10 kn hkn


/-- unpin_page preserves the structural invariant. -/
theorem unpin_inv (b b1 : BufferPoolManager) (n pid : Nat) (dirty : Bool)
    (hinv : PoolInv b n) (h : b.unpin_page pid dirty = (.ok (), b1)) : PoolInv b1 n := by
  cases hl : alookup b.page_table pid with
  | none =>
    unfold BufferPoolManager.unpin_page at h
    rw [hl] at h
    have hh : ((Except.ok () : Except Error Unit), b) = (.ok (), b1) := h
    simp only [Prod.mk.injEq] at hh
    obtain ⟨-, hb1⟩ := hh
    subst b1
    exact hinv
  | some fid =>
    unfold BufferPoolManager.unpin_page at h
    rw [hl] at h
    cases dirty with
    | false =>
      have hh : (if (getFrame b.frames fid).pin_cnt = 0 then
          ((Except.error (Error.Panic "assertion failed: pin count is zero before decrement") : Except Error Unit),
           ({ b with frames := b.frames.set fid (getFrame b.frames fid) } : BufferPoolManager))
        else
          if (getFrame b.frames fid).pin_cnt - 1 = 0 then
            ((Except.ok () : Except Error Unit), ({ b with frames := b.frames.set fid { getFrame b.frames fid with pin_cnt := (getFrame b.frames fid).pin_cnt - 1 }, replacer := b.replacer.unpin fid } : BufferPoolManager))
          else
            ((Except.ok () : Except Error Unit), ({ b with frames := b.frames.set fid { getFrame b.frames fid with pin_cnt := (getFrame b.frames fid).pin_cnt - 1 } } : BufferPoolManager))) = (.ok (), b1) := h
      by_cases hz : (getFrame b.frames fid).pin_cnt = 0
      · rw [if_pos hz] at hh
        simp at hh
      · rw [if_neg hz] at hh
        by_cases hz2 : (getFrame b.frames fid).pin_cnt - 1 = 0
        · rw [if_pos hz2] at hh
          simp only [Prod.mk.injEq] at hh
          obtain ⟨-, hb1⟩ := hh
          subst b1
          exact poolInv_frame_update_unpin b n pid fid
            { getFrame b.frames fid with pin_cnt := (getFrame b.frames fid).pin_cnt - 1 } hinv hl rfl
        · rw [if_neg hz2] at hh
          simp only [Prod.mk.injEq] at hh
          obtain ⟨-, hb1⟩ := hh
          subst b1
          exact poolInv_frame_update b n pid fid
            { getFrame b.frames fid with pin_cnt := (getFrame b.frames fid).pin_cnt - 1 } hinv hl rfl
    | true =>
      have hh : (if (getFrame b.frames fid).pin_cnt = 0 then
          ((Except.error (Error.Panic "assertion failed: pin count is zero before decrement") : Except Error Unit),
           ({ b with frames := b.frames.set fid { getFrame b.frames fid with is_dirty := true } } : BufferPoolManager))
        else
          if (getFrame b.frames fid).pin_cnt - 1 = 0 then
            ((Except.ok () : Except Error Unit), ({ b with frames := b.frames.set fid { getFrame b.frames fid with is_dirty := true, pin_cnt := (getFrame b.frames fid).pin_cnt - 1 }, replacer := b.replacer.unpin fid } : BufferPoolManager))
          else
            ((Except.ok () : Except Error Unit), ({ b with frames := b.frames.set fid { getFrame b.frames fid with is_dirty := true, pin_cnt := (getFrame b.frames fid).pin_cnt - 1 } } : BufferPoolManager))) = (.ok (), b1) := h
      by_cases hz : (getFrame b.frames fid).pin_cnt = 0
      · rw [if_pos hz] at hh
        simp at hh
      · rw [if_neg hz] at hh
        by_cases hz2 : (getFrame b.frames fid).pin_cnt - 1 = 0
        · rw [if_pos hz2] at hh
          simp only [Prod.mk.injEq] at hh
          obtain ⟨-, hb1⟩ := hh
          subst b1
          exact poolInv_frame_update_unpin b n pid fid
            { getFrame b.frames fid with is_dirty := true, pin_cnt := (getFrame b.frames fid).pin_cnt - 1 } hinv hl rfl
        · rw [if_neg hz2] at hh
          simp only [Prod.mk.injEq] at hh
          obtain ⟨-, hb1⟩ := hh
          subst b1
          exact poolInv_frame_update b n pid fid
            { getFrame b.frames fid with is_dirty := true, pin_cnt := (getFrame b.frames fid).pin_cnt - 1 } hinv hl rfl

/-- Common part of delete_page invariant preservation, for either outcome
of the replacer removal. -/
theorem delete_inv_helper (b : BufferPoolManager) (n pid fid : Nat) (r2 : LruReplacer)
    (dm1 : DiskManager)
    (hinv : PoolInv b n)
    (hl : alookup b.page_table pid = some fid)
    (hda : b.disk_manager.deallocate_page pid = .ok dm1)
    (hev8 : ∀ q, r2.evictableB q = true → q ≠ fid ∧ b.replacer.evictableB q = true)
    (hst1 : (tableKeys r2.node_store).Nodup)
    (hst2 : ∀ kn ∈ r2.node_store, kn.2.frame_id = kn.1) :
    PoolInv { b with replacer := r2, page_table := aerase b.page_table pid, free_list := b.free_list ++ [fid], disk_manager := dm1, frames := b.frames.set fid ((getFrame b.frames fid).reset) } n := by
  obtain ⟨h1, h2, h3, h4, h5, h6, h7, h8, h9, h10, h11⟩ := hinv
  have hmem : (pid, fid) ∈ b.page_table := alookup_mem _ _ _ hl
  obtain ⟨hflt, hfpid, hfle⟩ := h5 _ hmem
  obtain ⟨hdl, hdf⟩ := dealloc_ok_inv _ _ _ hda
  have hkeymem : pid ∈ tableKeys b.page_table := (mem_tableKeys _ _).mpr ⟨fid, hmem⟩
  have hlen := aerase_length_mem b.page_table pid hkeymem
  have hvne : fid ∉ tableVals (aerase b.page_table pid) :=
    vals_aerase_not_mem _ _ _ h4 hl
  have hfnf : fid ∉ b.free_list := fun hm => (h7 fid hm).2 (mem_tableVals _ _ _ hmem)
  refine ⟨?_, ?_, ?_, ?_, ?_, ?_, ?_, ?_, hst1, hst2, ?_⟩
  · show (b.free_list ++ [fid]).length + (aerase b.page_table pid).length = n
    rw [List.length_append]
    simp only [List.length_singleton]
    omega
  · simp only [List.length_set]
    exact h2
  · exact List.Nodup.sublist (keys_aerase_sublist _ _) h3
  · exact List.Nodup.sublist (vals_aerase_sublist _ _) h4
  · intro kv hkv
    obtain ⟨pk, pv⟩ := kv
    have hkv0 : (pk, pv) ∈ b.page_table := (aerase_sublist _ _).subset hkv
    obtain ⟨ha, hb, hc⟩ := h5 _ hkv0
    have hne : pv ≠ fid := by
      intro he
      subst he
      exact hvne (mem_tableVals _ _ _ hkv)
    refine ⟨?_, ?_, ?_⟩
    · simp only [List.length_set]
      exact ha
    · show (getFrame (b.frames.set fid ((getFrame b.frames fid).reset)) pv).page_id = pk
      rw [getFrame_set_ne _ _ _ _ hne]
      exact hb
    · show pk ≤ dm1.last_allocated_pid
      rw [hdl]
      exact hc
  · show (b.free_list ++ [fid]).Nodup
    rw [List.nodup_append]
    refine ⟨h6, by simp, ?_⟩
    intro a ha hb
    simp at hb
    subst hb
    exact hfnf ha
  · intro q hq
    have hq2 : q ∈ b.free_list ++ [fid] := hq
    rcases List.mem_append.mp hq2 with hm | hm
    · refine ⟨?_, ?_⟩
      · simp only [List.length_set]
        exact (h7 q hm).1
      · intro hc
        exact (h7 q hm).2 ((vals_aerase_sublist _ _).subset hc)
    · have hqf : q = fid := by simpa using hm
      subst q
      refine ⟨?_, hvne⟩
      simp only [List.length_set]
      exact hflt
  · intro q hq
    obtain ⟨hqne, hqev⟩ := hev8 q hq
    have hresq := h8 q hqev
    show alookup (aerase b.page_table pid)
      (getFrame (b.frames.set fid ((getFrame b.frames fid).reset)) q).page_id = some q
    rw [getFrame_set_ne _ _ _ _ hqne]
    have hpidne : (getFrame b.frames q).page_id ≠ pid := by
      intro he
      rw [he] at hresq
      rw [hresq] at hl
      injection hl with hl
      exact hqne hl
    rw [alookup_aerase_ne _ _ _ hpidne]
    exact hresq
  · show dm1.file_len ≤ (dm1.last_allocated_pid + 1) * PAGE_SIZE
    rw [hdf, hdl]
    have hps : PAGE_SIZE = 4096 := rfl
    rw [hps]
    rw [hps] at h11
    omega

/-- delete_page preserves the structural invariant. -/
theorem delete_inv (b b1 : BufferPoolManager) (n pid : Nat)
    (hinv : PoolInv b n) (h : b.delete_page pid = (.ok (), b1)) : PoolInv b1 n := by
  cases hl : alookup b.page_table pid with
  | none =>
    unfold BufferPoolManager.delete_page at h
    rw [hl] at h
    have hh : ((Except.ok () : Except Error Unit), b) = (.ok (), b1) := h
    simp only [Prod.mk.injEq] at hh
    obtain ⟨-, hb1⟩ := hh
    subst b1
    exact hinv
  | some fid =>
    unfold BufferPoolManager.delete_page at h
    rw [hl] at h
    have hh : (if (getFrame b.frames fid).pin_cnt > 0 then
        ((Except.error (Error.Panic "Cannot delete page when page is pinned") : Except Error Unit), b)
      else
        match (b.replacer.unpin fid).remove fid with
        | Except.error e => ((Except.error e : Except Error Unit), ({ b with replacer := b.replacer.unpin fid } : BufferPoolManager))
        | Except.ok r2 =>
          match b.disk_manager.deallocate_page pid with
          | Except.error e => ((Except.error (Error.Panic "deallocate_page failed") : Except Error Unit), ({ b with replacer := r2, page_table := aerase b.page_table pid, free_list := b.free_list ++ [fid] } : BufferPoolManager))
          | Except.ok dm1 => ((Except.ok () : Except Error Unit), ({ b with replacer := r2, page_table := aerase b.page_table pid, free_list := b.free_list ++ [fid], disk_manager := dm1, frames := b.frames.set fid (getFrame b.frames fid).reset } : BufferPoolManager))) = (.ok (), b1) := h
    by_cases hp : (getFrame b.frames fid).pin_cnt > 0
    · rw [if_pos hp] at hh
      simp at hh
    · rw [if_neg hp] at hh
      cases hrem : (b.replacer.unpin fid).remove fid with
      | error e =>
        rw [hrem] at hh
        have hh2 : ((Except.error e : Except Error Unit), ({ b with replacer := b.replacer.unpin fid } : BufferPoolManager)) = (.ok (), b1) := hh
        simp at hh2
      | ok r2 =>
        rw [hrem] at hh
        cases hda : b.disk_manager.deallocate_page pid with
        | error e =>
          rw [hda] at hh
          have hh2 : ((Except.error (Error.Panic "deallocate_page failed") : Except Error Unit), ({ b with replacer := r2, page_table := aerase b.page_table pid, free_list := b.free_list ++ [fid] } : BufferPoolManager)) = (.ok (), b1) := hh
          simp at hh2
        | ok dm1 =>
          rw [hda] at hh
          have hh2 : ((Except.ok () : Except Error Unit), ({ b with replacer := r2, page_table := aerase b.page_table pid, free_list := b.free_list ++ [fid], disk_manager := dm1, frames := b.frames.set fid (getFrame b.frames fid).reset } : BufferPoolManager)) = (.ok (), b1) := hh
          simp only [Prod.mk.injEq] at hh2
          obtain ⟨-, hb1⟩ := hh2
          subst b1
          have h9 : (tableKeys b.replacer.node_store).Nodup :=
            hinv.2.2.2.2.2.2.2.2.1
          have h10 : ∀ kn ∈ b.replacer.node_store, kn.2.frame_id = kn.1 :=
            hinv.2.2.2.2.2.2.2.2.2.1
          have hu := store_wk_unpin b.replacer fid h9 h10
          rcases remove_ok_cases _ _ _ hrem with ⟨hnone, hr2⟩ | hr2
          · subst r2
            refine delete_inv_helper b n pid fid (b.replacer.unpin fid) dm1 hinv hl hda ?_ hu.1
              (fun kn hkn => hu.2 kn hkn)
            intro q hq
            by_cases hqf : q = fid
            · subst q
              have hq3 : (match alookup (b.replacer.unpin fid).node_store fid with
                | some m => m.is_evictable | none => false) = true := hq
              rw [hnone] at hq3
              exact absurd hq3 (by simp)
            · rw [evictableB_unpin_ne _ _ _ hqf] at hq
              exact ⟨hqf, hq⟩
          · subst r2
            have hu2 := store_wk_aerase (b.replacer.unpin fid).node_store fid hu.1 hu.2
            refine delete_inv_helper b n pid fid _ dm1 hinv hl hda ?_ hu2.1
              (fun kn hkn => hu2.2 kn hkn)
            intro q hq
            by_cases hqf : q = fid
            · subst q
              have hq3 : (match alookup (aerase (b.replacer.unpin fid).node_store fid) fid with
                | some m => m.is_evictable | none => false) = true := hq
              rw [alookup_aerase_self _ _ hu.1] at hq3
              exact absurd hq3 (by simp)
            · have hq3 : (b.replacer.unpin fid).evictableB q = true := by
                rw [← hq]
                exact (evictableB_eq_of_alookup _ _ q
                  (alookup_aerase_ne _ _ _ hqf)).symm
              rw [evictableB_unpin_ne _ _ _ hqf] at hq3
              exact ⟨hqf, hq3⟩

/-- Every reachable buffer pool state satisfies the structural invariant. -/
theorem reach_poolInv (pool_size : Nat) (b : BufferPoolManager)
    (h : Reach pool_size b) : PoolInv b pool_size := by
  induction h with
  | init => exact poolInv_new pool_size
  | create hr hc ih => exact create_inv _ _ _ _ ih hc
  | fetch hr hc ih => exact fetch_inv _ _ _ _ _ ih hc
  | unpin hr hc ih => exact unpin_inv _ _ _ _ _ ih hc
  | delete hr hc ih => exact delete_inv _ _ _ _ ih hc

/-- C6: the buffer pool counting invariant |free_list| + |page_table| =
pool_size holds in the initial state (all frames free, empty page table)
and in every state reachable from it by complete, non-panicking buffer
pool operations (create_page, fetch_page_mut hit and miss, unpin_page,
delete_page, including eviction inside get_free_frame on the create and
fetch paths). -/
theorem C6_free_plus_resident_eq_pool_size (pool_size : Nat)
    (b : BufferPoolManager) (h : Reach pool_size b) :
    b.free_list.length + b.page_table.length = pool_size :=
  (reach_poolInv pool_size b h).1

theorem C6_free_plus_resident_eq_pool_size_witness :
    (BufferPoolManager.new 3 DiskManager.new).free_list.length +
      (BufferPoolManager.new 3 DiskManager.new).page_table.length = 3 :=
  C6_free_plus_resident_eq_pool_size 3 _ Reach.init


/-! ### Iterator support lemmas (claim C5) -/

theorem scanSlots_end (p : TablePage) (pid slot : Nat) (h : ¬ slot < p.tupleCount) :
    scanSlots p pid slot = .pageDone := by
  unfold scanSlots
  rw [dif_neg h]

theorem scanSlots_step (p : TablePage) (pid slot : Nat) (m : TupleMetadata)
    (t : List Nat) (hlt : slot < p.tupleCount)
    (hget : p.get_tuple { page_id := pid, slot_id := slot } = .ok (m, t)) :
    scanSlots p pid slot = if m.isDeleted = true then scanSlots p pid (slot + 1)
      else .yieldTuple { page_id := pid, slot_id := slot } t (slot + 1) := by
  conv_lhs => unfold scanSlots
  rw [dif_pos hlt, hget]

theorem expectedFrom_end (p : TablePage) (pid slot : Nat) (h : ¬ slot < p.tupleCount) :
    expectedFrom p pid slot = [] := by
  unfold expectedFrom
  rw [dif_neg h]

theorem expectedFrom_step (p : TablePage) (pid slot : Nat) (hlt : slot < p.tupleCount) :
    expectedFrom p pid slot = (if (p.slot slot).metadata.is_deleted ≠ 0 then
      expectedFrom p pid (slot + 1)
    else
      ({ page_id := pid, slot_id := slot },
       readBytes p.data (p.slot slot).offset (p.slot slot).size_bytes) ::
        expectedFrom p pid (slot + 1)) := by
  conv_lhs => unfold expectedFrom
  rw [dif_pos hlt]

theorem expectedFrom_eq (p : TablePage) (pid : Nat) :
    ∀ k slot, p.tupleCount - slot = k →
    expectedFrom p pid slot = (List.range' slot k).filterMap (fun i =>
      if (p.slot i).metadata.is_deleted ≠ 0 then none
      else some ({ page_id := pid, slot_id := i },
                 readBytes p.data (p.slot i).offset (p.slot i).size_bytes)) := by
  intro k
  induction k with
  | zero =>
    intro slot hk
    rw [expectedFrom_end p pid slot (by omega)]
    rfl
  | succ k ih =>
    intro slot hk
    have hlt : slot < p.tupleCount := by omega
    rw [expectedFrom_step p pid slot hlt, List.range'_succ]
    by_cases hdel : (p.slot slot).metadata.is_deleted ≠ 0
    · rw [if_pos hdel, List.filterMap_cons_none (by simp [hdel])]
      exact ih (slot + 1) (by omega)
    · rw [if_neg hdel]
      rw [ih (slot + 1) (by omega), List.filterMap_cons]
      simp [hdel]

theorem expectedFrom_zero (p : TablePage) (pid : Nat) :
    expectedFrom p pid 0 = expectedPageTuples p pid := by
  rw [expectedFrom_eq p pid p.tupleCount 0 (by omega)]
  unfold expectedPageTuples
  rw [List.range_eq_range']

/-- The slot loop and the expected list agree: either the page is done
and nothing was expected, or the next live slot is yielded and the
expected list starts with it. -/
theorem scanSlots_spec (p : TablePage) (pid : Nat)
    (hpid : p.page_id = pid) (hwf : pageWellFormed p) :
    ∀ k slot, p.tupleCount - slot ≤ k →
    (scanSlots p pid slot = .pageDone ∧ expectedFrom p pid slot = []) ∨
    (∃ rid tuple next_slot,
      scanSlots p pid slot = .yieldTuple rid tuple next_slot ∧
      expectedFrom p pid slot = (rid, tuple) :: expectedFrom p pid next_slot ∧
      slot < next_slot ∧ next_slot ≤ p.tupleCount) := by
  intro k
  induction k with
  | zero =>
    intro slot hk
    exact Or.inl ⟨scanSlots_end p pid slot (by omega),
      expectedFrom_end p pid slot (by omega)⟩
  | succ k ih =>
    intro slot hk
    by_cases hlt : slot < p.tupleCount
    · have hget : p.get_tuple { page_id := pid, slot_id := slot } =
          .ok ((p.slot slot).metadata,
            readBytes p.data (p.slot slot).offset (p.slot slot).size_bytes) :=
        get_tuple_ok p _ hpid.symm hlt hwf.1 (hwf.2 slot hlt)
      have hstep := scanSlots_step p pid slot _ _ hlt hget
      by_cases hdel : (p.slot slot).metadata.is_deleted ≠ 0
      · have hd : (p.slot slot).metadata.isDeleted = true := by
          simpa [TupleMetadata.isDeleted] using hdel
        rw [if_pos hd] at hstep
        have hexp : expectedFrom p pid slot = expectedFrom p pid (slot + 1) := by
          rw [expectedFrom_step p pid slot hlt, if_pos hdel]
        rcases ih (slot + 1) (by omega) with ⟨hsc, hex⟩ | ⟨rid, tuple, ns, hsc, hex, h1, h2⟩
        · exact Or.inl ⟨hstep.trans hsc, hexp.trans hex⟩
        · exact Or.inr ⟨rid, tuple, ns, hstep.trans hsc, hexp.trans hex, by omega, h2⟩
      · have hd : (p.slot slot).metadata.isDeleted = false := by
          simp only [TupleMetadata.isDeleted]
          simpa using hdel
        rw [hd] at hstep
        simp only [Bool.false_eq_true, if_false] at hstep
        have hexp : expectedFrom p pid slot =
            ({ page_id := pid, slot_id := slot },
             readBytes p.data (p.slot slot).offset (p.slot slot).size_bytes) ::
              expectedFrom p pid (slot + 1) := by
          rw [expectedFrom_step p pid slot hlt, if_neg hdel]
        exact Or.inr ⟨_, _, slot + 1, hstep, hexp, Nat.lt_succ_self slot, hlt⟩
    · exact Or.inl ⟨scanSlots_end p pid slot hlt, expectedFrom_end p pid slot hlt⟩

theorem frame_roundtrip (f : PageFrame) :
    ({ f with is_dirty := f.is_dirty, pin_cnt := f.pin_cnt + 1 - 1 } : PageFrame) = f := by
  cases f
  simp

theorem sameView_refl (b : BufferPoolManager) : sameView b b :=
  ⟨rfl, rfl, fun j => rfl⟩

theorem sameView_trans {b1 b2 b3 : BufferPoolManager} (h12 : sameView b1 b2)
    (h23 : sameView b2 b3) : sameView b1 b3 :=
  ⟨h23.1.trans h12.1, h23.2.1.trans h12.2.1, fun j => (h23.2.2 j).trans (h12.2.2 j)⟩

theorem chainOk_congr (b b2 : BufferPoolManager) (hv : sameView b b2) :
    ∀ ps fs, chainOk b ps fs → chainOk b2 ps fs := by
  intro ps
  induction ps with
  | nil =>
    intro fs h
    cases fs with
    | nil => exact trivial
    | cons f fs => exact (h : False).elim
  | cons pid ps ih =>
    intro fs h
    cases fs with
    | nil => exact (h : False).elim
    | cons fid fs =>
      obtain ⟨hne, hl, hflt, hfpid, hwf, hnext, ht⟩ := h
      show pid ≠ INVALID_PAGE_ID ∧
        alookup b2.page_table pid = some fid ∧
        fid < b2.frames.length ∧
        (getFrame b2.frames fid).page_id = pid ∧
        pageWellFormed (pageOfFrame (getFrame b2.frames fid)) ∧
        (pageOfFrame (getFrame b2.frames fid)).nextPageId = headOrInvalid ps ∧
        chainOk b2 ps fs
      refine ⟨hne, ?_, ?_, ?_, ?_, ?_, ih fs ht⟩
      · rw [hv.1]
        exact hl
      · rw [hv.2.1]
        exact hflt
      · rw [hv.2.2 fid]
        exact hfpid
      · rw [hv.2.2 fid]
        exact hwf
      · rw [hv.2.2 fid]
        exact hnext

theorem chainWeight_congr (b b2 : BufferPoolManager) (hv : sameView b b2) :
    ∀ fs, chainWeight b2 fs = chainWeight b fs := by
  intro fs
  induction fs with
  | nil => rfl
  | cons fid fs ih =>
    show (pageOfFrame (getFrame b2.frames fid)).tupleCount + 1 + chainWeight b2 fs =
      (pageOfFrame (getFrame b.frames fid)).tupleCount + 1 + chainWeight b fs
    rw [hv.2.2 fid, ih]

theorem expectedChainFrom_congr (b b2 : BufferPoolManager) (hv : sameView b b2) :
    ∀ ps slot fs, expectedChainFrom b2 slot ps fs = expectedChainFrom b slot ps fs := by
  intro ps
  induction ps with
  | nil => intro slot fs; rfl
  | cons pid ps ih =>
    intro slot fs
    cases fs with
    | nil => rfl
    | cons fid fs =>
      show expectedFrom (pageOfFrame (getFrame b2.frames fid)) pid slot ++
          expectedChainFrom b2 0 ps fs =
        expectedFrom (pageOfFrame (getFrame b.frames fid)) pid slot ++
          expectedChainFrom b 0 ps fs
      rw [hv.2.2 fid, ih 0 fs]

theorem expectedChainFrom_eq_tuples (b : BufferPoolManager) :
    ∀ ps fs, chainOk b ps fs →
    expectedChainFrom b 0 ps fs = expectedChainTuples b ps := by
  intro ps
  induction ps with
  | nil => intro fs h; rfl
  | cons pid ps ih =>
    intro fs h
    cases fs with
    | nil => exact (h : False).elim
    | cons fid fs =>
      obtain ⟨hne, hl, hflt, hfpid, hwf, hnext, ht⟩ := h
      show expectedFrom (pageOfFrame (getFrame b.frames fid)) pid 0 ++
          expectedChainFrom b 0 ps fs =
        (match alookup b.page_table pid with
         | some fid => expectedPageTuples (pageOfFrame (getFrame b.frames fid)) pid
         | none => []) ++ expectedChainTuples b ps
      rw [hl, expectedFrom_zero, ih fs ht]


theorem collect_invalid (b : BufferPoolManager) (slot fuel : Nat) :
    TableIterator.collect b INVALID_PAGE_ID slot (fuel + 1) = (.ok [], b) := by
  simp only [TableIterator.collect]
  rw [if_pos trivial]

theorem collect_unfold (b B1 : BufferPoolManager) (pid fid slot fuel : Nat)
    (hne : pid ≠ INVALID_PAGE_ID)
    (hfetch : b.fetch_page pid = (.ok fid, B1)) :
    TableIterator.collect b pid slot (fuel + 1) =
      match scanSlots (pageOfFrame (getFrame B1.frames fid)) pid slot with
      | .yieldTuple rid tuple next_slot =>
        (match B1.unpin_page (getFrame B1.frames fid).page_id false with
         | (.error e2, b2) => ((.error e2 : Except Error (List (RecordId × List Nat))), b2)
         | (.ok _, b2) =>
           match TableIterator.collect b2 pid next_slot fuel with
           | (.ok rest, b3) => (.ok ((rid, tuple) :: rest), b3)
           | (.error e, b3) => (.error e, b3))
      | .failWith e =>
        (match B1.unpin_page (getFrame B1.frames fid).page_id false with
         | (.error e2, b2) => ((.error e2 : Except Error (List (RecordId × List Nat))), b2)
         | (.ok _, b2) => (.error e, b2))
      | .pageDone =>
        (match B1.unpin_page (getFrame B1.frames fid).page_id false with
         | (.error e2, b2) => ((.error e2 : Except Error (List (RecordId × List Nat))), b2)
         | (.ok _, b2) =>
           TableIterator.collect b2 (pageOfFrame (getFrame B1.frames fid)).nextPageId 0 fuel) := by
  show (if pid = INVALID_PAGE_ID then
      ((Except.ok [] : Except Error (List (RecordId × List Nat))), b)
    else
      match b.fetch_page pid with
      | (.error e, b1) => ((.error e : Except Error (List (RecordId × List Nat))), b1)
      | (.ok frame_id, b1) =>
        match scanSlots (pageOfFrame (getFrame b1.frames frame_id)) pid slot with
        | .yieldTuple rid tuple next_slot =>
          (match b1.unpin_page (getFrame b1.frames frame_id).page_id false with
           | (.error e2, b2) => ((.error e2 : Except Error (List (RecordId × List Nat))), b2)
           | (.ok _, b2) =>
             match TableIterator.collect b2 pid next_slot fuel with
             | (.ok rest, b3) => (.ok ((rid, tuple) :: rest), b3)
             | (.error e, b3) => (.error e, b3))
        | .failWith e =>
          (match b1.unpin_page (getFrame b1.frames frame_id).page_id false with
           | (.error e2, b2) => ((.error e2 : Except Error (List (RecordId × List Nat))), b2)
           | (.ok _, b2) => (.error e, b2))
        | .pageDone =>
          (match b1.unpin_page (getFrame b1.frames frame_id).page_id false with
           | (.error e2, b2) => ((.error e2 : Except Error (List (RecordId × List Nat))), b2)
           | (.ok _, b2) =>
             TableIterator.collect b2
               (pageOfFrame (getFrame b1.frames frame_id)).nextPageId 0 fuel)) = _
  rw [if_neg hne, hfetch]

/-- The iterator, run over a resident well-formed page chain with enough
fuel, succeeds and returns exactly the expected tuples; the page table
and every frame are as before. -/
theorem collect_chain_gen :
    ∀ fuel b pids fids slot,
    chainOk b pids fids →
    slot ≤ headCount b fids →
    chainWeight b fids + 1 ≤ fuel + slot →
    ∃ b2, TableIterator.collect b (headOrInvalid pids) slot fuel =
        (.ok (expectedChainFrom b slot pids fids), b2) ∧ sameView b b2 := by
  intro fuel
  induction fuel with
  | zero =>
    intro b pids fids slot hch hslot hfuel
    exfalso
    cases fids with
    | nil =>
      cases pids with
      | nil =>
        have h0 : headCount b [] = 0 := rfl
        have h1 : chainWeight b [] = 0 := rfl
        omega
      | cons p ps => exact (hch : False).elim
    | cons fid fs =>
      cases pids with
      | nil => exact (hch : False).elim
      | cons pid ps =>
        have h1 : chainWeight b (fid :: fs) =
            (pageOfFrame (getFrame b.frames fid)).tupleCount + 1 + chainWeight b fs := rfl
        have h0 : headCount b (fid :: fs) =
            (pageOfFrame (getFrame b.frames fid)).tupleCount := rfl
        omega
  | succ fuel ih =>
    intro b pids fids slot hch hslot hfuel
    cases pids with
    | nil =>
      cases fids with
      | cons f fs => exact (hch : False).elim
      | nil =>
        refine ⟨b, ?_, sameView_refl b⟩
        show TableIterator.collect b INVALID_PAGE_ID slot (fuel + 1) =
          (.ok (expectedChainFrom b slot [] []), b)
        rw [collect_invalid]
        rfl
    | cons pid ps =>
      cases fids with
      | nil => exact (hch : False).elim
      | cons fid fs =>
        have hch0 : chainOk b (pid :: ps) (fid :: fs) := hch
        have hchA : pid ≠ INVALID_PAGE_ID ∧
            alookup b.page_table pid = some fid ∧
            fid < b.frames.length ∧
            (getFrame b.frames fid).page_id = pid ∧
            pageWellFormed (pageOfFrame (getFrame b.frames fid)) ∧
            (pageOfFrame (getFrame b.frames fid)).nextPageId = headOrInvalid ps ∧
            chainOk b ps fs := hch
        obtain ⟨hne, hl, hflt, hfpid, hwf, hnext, hcht⟩ := hchA
        have hfetch : b.fetch_page pid = (.ok fid, { b with frames := b.frames.set fid { getFrame b.frames fid with pin_cnt := (getFrame b.frames fid).pin_cnt + 1 }, replacer := (b.replacer.record_access fid).pin fid }) :=
          fetch_hit_eq b pid fid hl
        have hcol := collect_unfold b ({ b with frames := b.frames.set fid { getFrame b.frames fid with pin_cnt := (getFrame b.frames fid).pin_cnt + 1 }, replacer := (b.replacer.record_access fid).pin fid }) pid fid slot fuel hne hfetch
        have hgf1 : getFrame ({ b with frames := b.frames.set fid { getFrame b.frames fid with pin_cnt := (getFrame b.frames fid).pin_cnt + 1 }, replacer := (b.replacer.record_access fid).pin fid } : BufferPoolManager).frames fid = { getFrame b.frames fid with pin_cnt := (getFrame b.frames fid).pin_cnt + 1 } :=
          getFrame_set_self b.frames fid { getFrame b.frames fid with pin_cnt := (getFrame b.frames fid).pin_cnt + 1 } hflt
        rw [hgf1] at hcol
        have hpg : pageOfFrame ({ getFrame b.frames fid with pin_cnt := (getFrame b.frames fid).pin_cnt + 1 } : PageFrame) =
            pageOfFrame (getFrame b.frames fid) := rfl
        rw [hpg] at hcol
        have hgpid : ({ getFrame b.frames fid with pin_cnt := (getFrame b.frames fid).pin_cnt + 1 } : PageFrame).page_id = pid := hfpid
        rw [hgpid] at hcol
        have hlB1 : alookup ({ b with frames := b.frames.set fid { getFrame b.frames fid with pin_cnt := (getFrame b.frames fid).pin_cnt + 1 }, replacer := (b.replacer.record_access fid).pin fid } : BufferPoolManager).page_table pid = some fid := hl
        have hpin1 : (getFrame ({ b with frames := b.frames.set fid { getFrame b.frames fid with pin_cnt := (getFrame b.frames fid).pin_cnt + 1 }, replacer := (b.replacer.record_access fid).pin fid } : BufferPoolManager).frames fid).pin_cnt ≠ 0 := by
          rw [hgf1]
          exact Nat.succ_ne_zero _
        obtain ⟨b2, hup, hpt2, hdm2, hfl2, hfr2⟩ :=
          unpin_ok_spec ({ b with frames := b.frames.set fid { getFrame b.frames fid with pin_cnt := (getFrame b.frames fid).pin_cnt + 1 }, replacer := (b.replacer.record_access fid).pin fid }) pid fid false hlB1 hpin1
        rw [hup] at hcol
        rw [hgf1] at hfr2
        have hptv : b2.page_table = b.page_table := hpt2
        have hfr2b : b2.frames = (b.frames.set fid { getFrame b.frames fid with pin_cnt := (getFrame b.frames fid).pin_cnt + 1 }).set fid
            { getFrame b.frames fid with is_dirty := (getFrame b.frames fid).is_dirty, pin_cnt := (getFrame b.frames fid).pin_cnt + 1 - 1 } := hfr2
        have hvw : sameView b b2 := by
          refine ⟨hptv, ?_, ?_⟩
          · rw [hfr2b]
            simp [List.length_set]
          · intro j
            by_cases hj : j = fid
            · subst j
              rw [hfr2b, List.set_set, getFrame_set_self _ _ _ hflt]
              exact frame_roundtrip (getFrame b.frames fid)
            · rw [hfr2b, getFrame_set_ne _ _ _ _ hj, getFrame_set_ne _ _ _ _ hj]
        rcases scanSlots_spec (pageOfFrame (getFrame b.frames fid)) pid hfpid hwf
            ((pageOfFrame (getFrame b.frames fid)).tupleCount - slot) slot le_rfl with
          ⟨hscan, hexp⟩ | ⟨rid, tuple, next_slot, hscan, hexp, hsl, hsu⟩
        · rw [hscan] at hcol
          have hcol2 : TableIterator.collect b pid slot (fuel + 1) =
              TableIterator.collect b2
                (pageOfFrame (getFrame b.frames fid)).nextPageId 0 fuel := hcol
          rw [hnext] at hcol2
          have hch2 : chainOk b2 ps fs := chainOk_congr b b2 hvw ps fs hcht
          have hcw2 := chainWeight_congr b b2 hvw fs
          have hw1 : chainWeight b (fid :: fs) =
              (pageOfFrame (getFrame b.frames fid)).tupleCount + 1 + chainWeight b fs := rfl
          have hc0 : headCount b (fid :: fs) =
              (pageOfFrame (getFrame b.frames fid)).tupleCount := rfl
          obtain ⟨b3, hIH, hvw23⟩ := ih b2 ps fs 0 hch2 (Nat.zero_le _)
            (by rw [hcw2]; omega)
          rw [hIH] at hcol2
          refine ⟨b3, ?_, sameView_trans hvw hvw23⟩
          show TableIterator.collect b pid slot (fuel + 1) =
            (.ok (expectedChainFrom b slot (pid :: ps) (fid :: fs)), b3)
          rw [hcol2]
          have hlist : expectedChainFrom b slot (pid :: ps) (fid :: fs) =
              expectedChainFrom b2 0 ps fs := by
            show expectedFrom (pageOfFrame (getFrame b.frames fid)) pid slot ++
                expectedChainFrom b 0 ps fs = _
            rw [hexp, expectedChainFrom_congr b b2 hvw ps 0 fs]
            rfl
          rw [hlist]
        · rw [hscan] at hcol
          have hcol2 : TableIterator.collect b pid slot (fuel + 1) =
              (match TableIterator.collect b2 pid next_slot fuel with
               | (.ok rest, b3) =>
                 ((Except.ok ((rid, tuple) :: rest) :
                   Except Error (List (RecordId × List Nat))), b3)
               | (.error e, b3) => (.error e, b3)) := hcol
          have hch2 : chainOk b2 (pid :: ps) (fid :: fs) :=
            chainOk_congr b b2 hvw _ _ hch0
          have hslot2 : next_slot ≤ headCount b2 (fid :: fs) := by
            show next_slot ≤ (pageOfFrame (getFrame b2.frames fid)).tupleCount
            rw [hvw.2.2 fid]
            exact hsu
          have hcw2 := chainWeight_congr b b2 hvw (fid :: fs)
          obtain ⟨b3, hIH, hvw23⟩ := ih b2 (pid :: ps) (fid :: fs) next_slot hch2 hslot2
            (by rw [hcw2]; omega)
          have hIH2 : TableIterator.collect b2 pid next_slot fuel =
              (.ok (expectedChainFrom b2 next_slot (pid :: ps) (fid :: fs)), b3) := hIH
          rw [hIH2] at hcol2
          have hcol3 : TableIterator.collect b pid slot (fuel + 1) =
              ((Except.ok ((rid, tuple) ::
                  expectedChainFrom b2 next_slot (pid :: ps) (fid :: fs)) :
                Except Error (List (RecordId × List Nat))), b3) := hcol2
          refine ⟨b3, ?_, sameView_trans hvw hvw23⟩
          show TableIterator.collect b pid slot (fuel + 1) =
            (.ok (expectedChainFrom b slot (pid :: ps) (fid :: fs)), b3)
          rw [hcol3]
          have hl2 : expectedChainFrom b2 next_slot (pid :: ps) (fid :: fs) =
              expectedFrom (pageOfFrame (getFrame b.frames fid)) pid next_slot ++
                expectedChainFrom b 0 ps fs := by
            show expectedFrom (pageOfFrame (getFrame b2.frames fid)) pid next_slot ++
                expectedChainFrom b2 0 ps fs = _
            rw [hvw.2.2 fid, expectedChainFrom_congr b b2 hvw ps 0 fs]
          have hlist : expectedChainFrom b slot (pid :: ps) (fid :: fs) =
              (rid, tuple) ::
                expectedChainFrom b2 next_slot (pid :: ps) (fid :: fs) := by
            rw [hl2]
            show expectedFrom (pageOfFrame (getFrame b.frames fid)) pid slot ++
                expectedChainFrom b 0 ps fs = _
            rw [hexp]
            rfl
          rw [hlist]


/-- C5: A full run of the tuple iterator over a resident, well-formed
page chain succeeds and yields exactly the (RecordId, tuple) pairs of
the slots whose metadata is_deleted flag is clear, visiting the pages
along the next_page_id chain from the first page until INVALID_PAGE_ID
and, within each page, the slots 0..tuple_count in order (insertion
order); slots whose metadata marks them deleted, such as a tuple
deleted after insertion, are skipped and everything else is yielded
unchanged and in order. -/
theorem C5_iterator_yields_live_tuples (b : BufferPoolManager)
    (pids fids : List Nat) (fuel : Nat)
    (hch : chainOk b pids fids)
    (hfuel : chainWeight b fids + 1 ≤ fuel) :
    ∃ b2, TableIterator.collect b (headOrInvalid pids) 0 fuel =
      (.ok (expectedChainTuples b pids), b2) := by
  obtain ⟨b2, hc, -⟩ :=
    collect_chain_gen fuel b pids fids 0 hch (Nat.zero_le _) (by omega)
  rw [expectedChainFrom_eq_tuples b pids fids hch] at hc
  exact ⟨b2, hc⟩

theorem C5_iterator_yields_live_tuples_witness :
    chainOk c5Pool [1] [0] ∧
    expectedChainTuples c5Pool [1] =
      [({ page_id := 1, slot_id := 0 }, [7])] ∧
    ∃ b2, TableIterator.collect c5Pool (headOrInvalid [1]) 0 5 =
      (.ok (expectedChainTuples c5Pool [1]), b2) :=
  ⟨by decide, by decide,
   C5_iterator_yields_live_tuples c5Pool [1] [0] 5 (by decide) (by decide)⟩

end RustSqlSpec
